import Mathlib

/-!
# CMSCRM: the page controller and the sidebar menu

A shallow embedding of `backend/src/controllers/pageController.js` and of the
`Sidebar` component of `frontend/src/components/Layout/Layout.jsx`, with the
properties of the specification stated and proved over it.

JavaScript values are modelled by `Js.JsVal`; the collaborators of the controller
that live outside these two files (the `Page` and `ActivityLog` models, the
validators, `fs`, the upload library) are parameters of the handlers. A handler
is a function on the state of a run, which is the world of the collaborators
together with the trace of the calls made and the responses sent so far; an
`await`ed call that rejects is a throw.
-/

set_option autoImplicit false

namespace Js

/-- A JavaScript number as far as this code meets one: `NaN`, an infinity, or an
integer (`-0` is not told apart from `0`). -/
inductive JsNum where
  | nan
  | inf (negative : Bool)
  | int (n : Int)
deriving DecidableEq, Repr

/-- A scalar value as it reaches the code: `undefined` stands for an absent
property. -/
inductive JsVal where
  | undefined
  | null
  | bool (b : Bool)
  | num (n : JsNum)
  | str (s : String)
deriving DecidableEq, Repr

/-- The digit character of `d < 10`. -/
def digitChar (d : Nat) : Char :=
  Char.ofNat (48 + d % 10)

/-- Decimal digits of `n`, most significant first, prepended to `acc`. -/
def natDigits : Nat → Nat → List Char → List Char
  | 0, _, acc => acc
  | fuel + 1, n, acc =>
    if n / 10 = 0 then digitChar n :: acc
    else natDigits fuel (n / 10) (digitChar n :: acc)

/-- The string `String(n)` of a natural number, in plain decimal (which is what
JavaScript prints below `10^21`). -/
def natToString (n : Nat) : String :=
  ⟨natDigits (n + 1) n []⟩

/-- The string `String(n)` of an integer. -/
def intToString (n : Int) : String :=
  if n < 0 then ⟨'-' :: (natToString n.natAbs).data⟩ else natToString n.toNat

/-- The string `String(x)` of a number. -/
def numToString : JsNum → String
  | .nan => "NaN"
  | .inf false => "Infinity"
  | .inf true => "-Infinity"
  | .int n => intToString n

/-- The abstract operation `ToString` on a scalar; it is also the property key
the scalar is converted to in `obj[key]`. -/
def toStr : JsVal → String
  | .undefined => "undefined"
  | .null => "null"
  | .bool true => "true"
  | .bool false => "false"
  | .num n => numToString n
  | .str s => s

/-- JavaScript truthiness of a scalar. -/
def truthy : JsVal → Bool
  | .undefined => false
  | .null => false
  | .bool b => b
  | .num (.int n) => n != 0
  | .num .nan => false
  | .num (.inf _) => true
  | .str s => s != ""

/-- The characters `parseInt` skips at the start of its input (`WhiteSpace` and
`LineTerminator` of ECMAScript). -/
def isWhiteSpace (c : Char) : Bool :=
  let n := c.toNat
  n = 0x09 || n = 0x0A || n = 0x0B || n = 0x0C || n = 0x0D || n = 0x20 || n = 0xA0 ||
  n = 0x1680 || (0x2000 ≤ n && n ≤ 0x200A) || n = 0x2028 || n = 0x2029 || n = 0x202F ||
  n = 0x205F || n = 0x3000 || n = 0xFEFF

/-- The value of `c` as a digit in radix up to 36, when it is one. -/
def digitValue (c : Char) : Option Nat :=
  let n := c.toNat
  if 48 ≤ n ∧ n ≤ 57 then some (n - 48)
  else if 97 ≤ n ∧ n ≤ 122 then some (n - 97 + 10)
  else if 65 ≤ n ∧ n ≤ 90 then some (n - 65 + 10)
  else none

/-- Whether `c` is a digit of radix `radix`. -/
def isRadixDigit (radix : Nat) (c : Char) : Bool :=
  match digitValue c with
  | some d => d < radix
  | none => false

/-- The integer written by the digits `cs` in radix `radix`. -/
def radixValue (radix : Nat) (cs : List Char) : Nat :=
  cs.foldl (fun acc c => acc * radix + (digitValue c).getD 0) 0

/-- Number of binary digits of `n`. -/
def bitLength : Nat → Nat → Nat
  | 0, _ => 0
  | fuel + 1, n => if n = 0 then 0 else bitLength fuel (n / 2) + 1

/-- The double nearest to the natural number `m` (ties to even): `m` itself below
`2^53`, an infinity from `2^1024` on. -/
def roundToDouble (negative : Bool) (m : Nat) : JsNum :=
  if m < 2 ^ 53 then .int (if negative then - (m : Int) else m)
  else
    let e := bitLength m m - 53
    let q := m / 2 ^ e
    let r := m % 2 ^ e
    let half := 2 ^ (e - 1)
    let q1 := if half < r ∨ (r = half ∧ q % 2 = 1) then q + 1 else q
    let v := q1 * 2 ^ e
    if 2 ^ 1024 ≤ v then .inf negative
    else .int (if negative then - (v : Int) else v)

/-- Steps 3 to 10 of `parseInt(string)` with no radix given, on the input with its
leading white space removed. The exact value of the digits is rounded to a
double (ECMAScript lets an implementation approximate a numeral of more than 20
significant digits). -/
def parseIntTrimmed (s : List Char) : JsNum :=
  let negative := s.head? = some '-'
  let s1 := if s.head? = some '-' ∨ s.head? = some '+' then s.tail else s
  let hex := s1.take 2 = ['0', 'x'] ∨ s1.take 2 = ['0', 'X']
  let radix := if hex then 16 else 10
  let s2 := if hex then s1.drop 2 else s1
  let z := s2.takeWhile (isRadixDigit radix)
  if z.isEmpty then .nan else roundToDouble negative (radixValue radix z)

/-- The global `parseInt(value)`, called with one argument. -/
def parseInt (v : JsVal) : JsNum :=
  parseIntTrimmed ((toStr v).data.dropWhile isWhiteSpace)

/-- `haystack.includes(needle)` on strings. -/
def strIncludes (haystack needle : String) : Bool :=
  haystack.data.tails.any (fun t => needle.data.isPrefixOf t)

/-- `list.includes(value)` for an array of strings: only a string can be found. -/
def listIncludes (list : List String) : JsVal → Bool
  | .str s => list.contains s
  | _ => false

/-- `value === undefined ? dflt : value`, the default of a destructuring pattern. -/
def orDefault (v dflt : JsVal) : JsVal :=
  if v = .undefined then dflt else v

end Js

namespace Sidebar

open Js

/-- One element of `user.roles`: a string, or a value that is not a string, of
which the code reads the property `name` (`JsVal.undefined` when it has none; the
names the API sends are JSON scalars). An element `null` or `undefined`, on which
that read throws, is not a role. -/
inductive Role where
  | str (s : String)
  | obj (name : JsVal)
deriving DecidableEq, Repr

/-- The authenticated user of `useAuth()`; `roles = none` is a missing
(`undefined` or `null`) role list. -/
structure User where
  roles : Option (List Role)
deriving DecidableEq, Repr

/-- A static menu entry; the `icon` component plays no part in filtering. -/
structure MenuItem where
  name : String
  path : String
  roles : List String
deriving DecidableEq, Repr

/-- The `menuItems` array. -/
def menuItems : List MenuItem :=
  [ { name := "Dashboard", path := "/dashboard",
      roles := ["Super Admin", "Admin", "Manager", "User"] },
    { name := "Users", path := "/users", roles := ["Super Admin", "Admin"] },
    { name := "Roles", path := "/roles", roles := ["Super Admin", "Admin"] },
    { name := "Pages", path := "/pages", roles := ["Super Admin", "Admin"] } ]

/-- What `roleMapping[roleName] || roleName` evaluates to: a scalar, or a member
inherited from `Object.prototype` (a function or an object, which is truthy and
equal to no string). -/
inductive Display where
  | val (v : JsVal)
  | inherited (key : String)
deriving DecidableEq, Repr

/-- The property names every object literal inherits from `Object.prototype`. -/
def objectPrototypeKeys : List String :=
  ["constructor", "__defineGetter__", "__defineSetter__", "hasOwnProperty",
   "__lookupGetter__", "__lookupSetter__", "isPrototypeOf", "propertyIsEnumerable",
   "toString", "valueOf", "__proto__", "toLocaleString"]

/-- The own properties of the `roleMapping` literal. -/
def roleMapping : List (String × String) :=
  [("super_admin", "Super Admin"), ("admin", "Admin"), ("manager", "Manager"),
   ("user", "User")]

/-- `typeof role === 'string' ? role : role.name`. -/
def roleName : Role → JsVal
  | .str s => .str s
  | .obj name => name

/-- `roleMapping[roleName] || roleName`. -/
def displayRole (roleName : JsVal) : Display :=
  let key := toStr roleName
  match roleMapping.lookup key with
  | some d => if truthy (.str d) then .val (.str d) else .val roleName
  | none =>
    if objectPrototypeKeys.contains key then .inherited key else .val roleName

/-- `item.roles.includes(displayRole)`. -/
def includesDisplay (roles : List String) : Display → Bool
  | .val (.str s) => roles.contains s
  | _ => false

/-- The callback of `menuItems.filter`. -/
def menuVisible (user : Option User) (item : MenuItem) : Bool :=
  match user.bind (fun u => u.roles) with
  | none => false
  | some roles => roles.any (fun role => includesDisplay item.roles (displayRole (roleName role)))

/-- The `filteredMenuItems` of the sidebar. -/
def filteredMenuItems (user : Option User) : List MenuItem :=
  menuItems.filter (menuVisible user)

/-- The normalisation of the specification: the four internal tags become their
display names, every other name is left unchanged. -/
def specNormalize : JsVal → JsVal
  | .str s =>
    if s = "super_admin" then .str "Super Admin"
    else if s = "admin" then .str "Admin"
    else if s = "manager" then .str "Manager"
    else if s = "user" then .str "User"
    else .str s
  | v => v

/-- Visibility as the specification words it: some role of the user, normalised,
appears in the allow-list of the entry. -/
def SpecVisible (roles : List Role) (item : MenuItem) : Prop :=
  ∃ role ∈ roles, ∃ d, specNormalize (roleName role) = .str d ∧ d ∈ item.roles

/-- One element of `myPages`, the list of pages fetched for the user: the
properties the sidebar reads, each `JsVal.undefined` when missing. -/
structure AssignedPage where
  id : JsVal := .undefined
  name : JsVal := .undefined
  url : JsVal := .undefined
  is_external : JsVal := .undefined
deriving DecidableEq, Repr

/-- The method `startsWith` of a string. -/
def startsWith (s start : String) : Bool :=
  start.data.isPrefixOf s.data

/-- The function `formatUrl`. On a truthy value that is not a string the call
`url.startsWith(...)` throws a `TypeError`, which is the `error` result. -/
def formatUrl (url : JsVal) : Except String String :=
  if !truthy url then .ok "#"
  else
    match url with
    | .str url =>
      if startsWith url "http://" || startsWith url "https://" then .ok url
      else .ok (if startsWith url "/" then url else "/" ++ url)
    | _ => .error "TypeError: url.startsWith is not a function"

/-- The `excludedPages` array of the filter of the assigned pages. -/
def excludedPages : List String :=
  ["Activity Logs", "Company Website", "Documentation", "Help Center"]

/-- The pages that pass `myPages.filter(...)`. -/
def shownPages (myPages : List AssignedPage) : List AssignedPage :=
  myPages.filter (fun p => !listIncludes excludedPages p.name)

/-- The constant `isExternal` of the callback that renders a page. -/
def isExternal (p : AssignedPage) : Bool :=
  truthy p.is_external ||
    (match p.url with
     | .str url => startsWith url "http://" || startsWith url "https://"
     | _ => false)

/-- The list item a page is rendered as: a button that opens the page in the
overlay viewer (`onExternalPageOpen(p.name, href)`), or a client-side route link
(`<Link to={href}>`). The class names are left out. -/
inductive Entry where
  | button (key : JsVal) (name : JsVal) (href : String)
  | link (key : JsVal) (href : String) (name : JsVal)
deriving DecidableEq, Repr

/-- The label of a list item. -/
def Entry.name : Entry → JsVal
  | .button _ name _ => name
  | .link _ _ name => name

/-- The callback of `.map(...)` that renders one page. -/
def renderPage (p : AssignedPage) : Except String Entry := do
  let external := isExternal p
  let href ← formatUrl p.url
  pure (if external then .button p.id p.name href else .link p.id href p.name)

/-- What the section "Assigned Pages" shows. -/
inductive Section where
  | loading
  | noPages
  | list (entries : List Entry)
deriving DecidableEq, Repr

/-- The call `.map(...)` with the callback `renderPage`, which may throw: the
items in the order of the pages, or the first error. -/
def renderAll : List AssignedPage → Except String (List Entry)
  | [] => .ok []
  | p :: rest =>
    match renderPage p with
    | .error e => .error e
    | .ok entry =>
      match renderAll rest with
      | .error e => .error e
      | .ok entries => .ok (entry :: entries)

/-- The body of the section "Assigned Pages": the text "Loading...", the text
"No pages assigned", or the list of the rendered pages. -/
def assignedPages (loadingPages : Bool) (myPages : List AssignedPage) : Except String Section :=
  if loadingPages then .ok .loading
  else if myPages.length = 0 then .ok .noPages
  else
    match renderAll (shownPages myPages) with
    | .error e => .error e
    | .ok entries => .ok (.list entries)

/-- The page a list item was rendered from has this key and this label. -/
def Entry.key : Entry → JsVal
  | .button key _ _ => key
  | .link key _ _ => key

/-- The pages of a list whose name is none of the four excluded names, as the
specification words the filter. -/
def specShown (myPages : List AssignedPage) : List AssignedPage :=
  myPages.filter (fun p =>
    decide (p.name ≠ .str "Activity Logs" ∧ p.name ≠ .str "Company Website" ∧
      p.name ≠ .str "Documentation" ∧ p.name ≠ .str "Help Center"))

end Sidebar

/-! ## Node's `path` module (POSIX flavour) -/

namespace Path

/-- The pieces of `cs` between the `/` characters, empty pieces included. -/
def splitSlash : List Char → List (List Char)
  | [] => [[]]
  | c :: cs =>
    if c = '/' then [] :: splitSlash cs
    else
      match splitSlash cs with
      | [] => [[c]]
      | seg :: rest => (c :: seg) :: rest

/-- One step of `normalizeString`: `stack` holds the segments kept so far, last
one first. -/
def pushSegment (allowAboveRoot : Bool) (stack : List (List Char)) (seg : List Char) :
    List (List Char) :=
  if seg = [] ∨ seg = ['.'] then stack
  else if seg = ['.', '.'] then
    match stack with
    | [] => if allowAboveRoot then [seg] else []
    | top :: rest =>
      if top = ['.', '.'] then (if allowAboveRoot then seg :: stack else stack) else rest
  else seg :: stack

/-- The helper `normalizeString(path, allowAboveRoot, '/', isPosixPathSeparator)`. -/
def normalizeString (cs : List Char) (allowAboveRoot : Bool) : List Char :=
  let stack := (splitSlash cs).foldl (pushSegment allowAboveRoot) []
  List.intercalate ['/'] stack.reverse

/-- The function `path.normalize(path)`. -/
def normalize (path : String) : String :=
  let cs := path.data
  if cs = [] then "."
  else
    let isAbsolute := cs.head? = some '/'
    let trailingSeparator := cs.getLast? = some '/'
    let body := normalizeString cs (!isAbsolute)
    if body = [] then
      if isAbsolute then "/" else if trailingSeparator then "./" else "."
    else
      let body := if trailingSeparator then body ++ ['/'] else body
      ⟨if isAbsolute then '/' :: body else body⟩

/-- The function `path.join(...paths)` on string arguments. -/
def join (paths : List String) : String :=
  match paths.filter (fun a => a.data ≠ []) with
  | [] => "."
  | parts => normalize ⟨List.intercalate ['/'] (parts.map String.data)⟩

/-- The function `path.dirname(path)`. -/
def dirname (path : String) : String :=
  let cs := path.data
  if cs = [] then "."
  else
    let hasRoot := cs.head? = some '/'
    let scanned := (cs.tail.reverse.dropWhile (fun c => c = '/')).dropWhile (fun c => c ≠ '/')
    if scanned = [] then (if hasRoot then "/" else ".")
    else if hasRoot ∧ scanned.length = 1 then "//"
    else ⟨cs.take scanned.length⟩

end Path

/-! ## The page controller -/

namespace PageController

open Js

/-- A thrown value as the catch blocks read it: `error.code` and `error.message`,
each `none` when it is not a string. The thrown value is taken to be neither
`null` nor `undefined`, so that reading a property of it does not throw. -/
structure JsError where
  code : Option String
  message : Option String
deriving DecidableEq, Repr

/-- The result of a call that may throw. -/
inductive Outcome (α : Type) where
  | ok (value : α)
  | threw (error : JsError)
deriving DecidableEq, Repr

/-- A row of the `pages` table as the `Page` model returns it. -/
structure Page where
  id : JsVal
  name : JsVal
  url : JsVal
  icon : JsVal
  is_external : JsVal
  status : JsVal
  created_by : JsVal
deriving DecidableEq, Repr

/-- An object literal with scalar properties, in insertion order. -/
abbrev Obj := List (String × JsVal)

/-- The assignment `obj[key] = value`. -/
def Obj.set : Obj → String → JsVal → Obj
  | [], key, value => [(key, value)]
  | (k, v) :: rest, key, value =>
    if k = key then (k, value) :: rest else (k, v) :: Obj.set rest key value

/-- The uploaded file `req.files.icon`. -/
structure IconFile where
  name : String
  mimetype : JsVal
deriving DecidableEq, Repr

/-- The authenticated user `req.user`. -/
structure ReqUser where
  id : JsVal
  username : JsVal
deriving DecidableEq, Repr

/-- The properties of `req.query` the handlers read, each a string or absent
(`undefined`); repeated and bracketed parameters, which the query parser turns
into arrays and objects, are left out. -/
structure Query where
  page : JsVal := .undefined
  limit : JsVal := .undefined
  search : JsVal := .undefined
  status : JsVal := .undefined
  active_only : JsVal := .undefined
deriving DecidableEq, Repr

/-- The properties of `req.body` the handlers read. -/
structure ReqBody where
  name : JsVal := .undefined
  url : JsVal := .undefined
  is_external : JsVal := .undefined
  status : JsVal := .undefined
deriving DecidableEq, Repr

/-- An Express request. `validationErrors` is what the validators of the route
recorded on it, read back by `validationResult(req)`; `icon` is
`req.files && req.files.icon`, `none` when falsy; `user` is `none` when `req.user`
is undefined. -/
structure Request where
  id : String := ""
  pageUrl : String := ""
  query : Query := {}
  body : ReqBody := {}
  validationErrors : List String := []
  icon : Option IconFile := none
  user : Option ReqUser := none
deriving DecidableEq, Repr

/-- The argument of `Page.create`. -/
structure PageData where
  name : JsVal
  url : JsVal
  icon : JsVal
  is_external : JsVal
  status : JsVal
  created_by : JsVal
deriving DecidableEq, Repr

/-- The argument of `Page.findAll`. -/
structure FindAllArgs where
  page : JsNum
  limit : JsNum
  search : JsVal
  status : JsVal
deriving DecidableEq, Repr

/-- The constants `ActivityLog.ACTIONS.*`. -/
inductive Action where
  | CREATE
  | UPDATE
  | DELETE
deriving DecidableEq, Repr

/-- The arguments of `ActivityLog.logUserAction` (the resource is always
`ActivityLog.RESOURCES.PAGE`, the last argument always `req`). -/
structure LogEntry where
  userId : JsVal
  username : JsVal
  action : Action
  resourceId : JsVal
  details : Obj
deriving DecidableEq, Repr

/-- The `data` property of a response. -/
inductive Data where
  | absent
  | result (pages : List Page)
  | page (page : Option Page)
  | pages (pages : List Page)
  | access (user_id : JsVal) (page_url : String) (has_access : JsVal)
  | stats (stats : Obj)
deriving DecidableEq, Repr

/-- The JSON body of a response: the envelope the handlers build, or the value of
`handleValidationError(errors)`. -/
inductive Body where
  | envelope (success : Bool) (message : String) (data : Data) (error : Option String)
  | validation (errors : List String)
deriving DecidableEq, Repr

/-- What a handler does to the outside world, in order. -/
inductive Event where
  | existsSync (path : String) (result : Bool)
  | mkdirSync (path : String) (result : Outcome Unit)
  | mv (file : IconFile) (path : String) (result : Outcome Unit)
  | unlinkSync (path : String) (result : Outcome Unit)
  | findAll (args : FindAllArgs) (result : Outcome (List Page))
  | findById (id : JsVal) (result : Outcome (Option Page))
  | create (data : PageData) (result : Outcome JsVal)
  | update (id : JsVal) (patch : Obj) (result : Outcome (Option Page))
  | delete (id : JsVal) (result : Outcome Bool)
  | logUserAction (entry : LogEntry) (result : Outcome Unit)
  | getPagesByUser (userId : JsVal) (result : Outcome (List Page))
  | checkPageAccess (userId : JsVal) (pageUrl : String) (result : Outcome JsVal)
  | getStats (result : Outcome Obj)
  | getAllSimple (activeOnly : Bool) (result : Outcome (List Page))
  | consoleError (label : String) (error : JsError)
  | respond (status : Nat) (body : Body)
deriving DecidableEq, Repr

/-- The collaborators of the controller, over a world `σ` they may read and
change: the `Page` and `ActivityLog` models, `fs`, the upload library, the clock
and the process environment. `create` returns `newPage.id`, `update` the updated
page (`none` for a falsy value), `delete` the truthiness of its result; the four
read-only queries return what the handler puts into the response. -/
structure Collab (σ : Type) where
  dirname : String
  nodeEnv : Option String
  dateNow : σ → Nat
  existsSync : String → σ → Bool
  mkdirSync : String → σ → Outcome Unit × σ
  mv : IconFile → String → σ → Outcome Unit × σ
  unlinkSync : String → σ → Outcome Unit × σ
  findAll : FindAllArgs → σ → Outcome (List Page) × σ
  findById : JsVal → σ → Outcome (Option Page) × σ
  create : PageData → σ → Outcome JsVal × σ
  update : JsVal → Obj → σ → Outcome (Option Page) × σ
  delete : JsVal → σ → Outcome Bool × σ
  logUserAction : LogEntry → σ → Outcome Unit × σ
  getPagesByUser : JsVal → σ → Outcome (List Page) × σ
  checkPageAccess : JsVal → String → σ → Outcome JsVal × σ
  getStats : σ → Outcome Obj × σ
  getAllSimple : Bool → σ → Outcome (List Page) × σ

/-- The state of one run of a handler: the world and the events so far. -/
structure Run (σ : Type) where
  world : σ
  trace : List Event

/-- A piece of handler code: it returns or throws, and moves the run on. -/
abbrev Prog (σ : Type) (α : Type) : Type :=
  Run σ → Outcome α × Run σ

namespace Prog

variable {σ α β : Type}

/-- Return `a`. -/
def ret (a : α) : Prog σ α :=
  fun r => (.ok a, r)

/-- Throw `e`. -/
def throw (e : JsError) : Prog σ α :=
  fun r => (.threw e, r)

/-- Sequencing: a throw skips the rest. -/
def andThen (m : Prog σ α) (f : α → Prog σ β) : Prog σ β :=
  fun r =>
    match m r with
    | (.ok a, r1) => f a r1
    | (.threw e, r1) => (.threw e, r1)

/-- The statement `try { body } catch (error) { handler }`. -/
def tryCatch (body : Prog σ α) (handler : JsError → Prog σ α) : Prog σ α :=
  fun r =>
    match body r with
    | (.ok a, r1) => (.ok a, r1)
    | (.threw e, r1) => handler e r1

/-- Record an event. -/
def emit (ev : Event) : Prog σ Unit :=
  fun r => (.ok (), { r with trace := r.trace ++ [ev] })

/-- Call a collaborator that may throw and may change the world, recording it. -/
def call (f : σ → Outcome α × σ) (ev : Outcome α → Event) : Prog σ α :=
  fun r => ((f r.world).1, { world := (f r.world).2, trace := r.trace ++ [ev (f r.world).1] })

/-- Read the world. -/
def read (f : σ → α) : Prog σ α :=
  fun r => (.ok (f r.world), r)

end Prog

instance (σ : Type) : Monad (Prog σ) where
  pure := Prog.ret
  bind := Prog.andThen

variable {σ : Type}

/-- The expression `res.status(status).json(body)`, which is taken not to
throw. -/
def respond (status : Nat) (body : Body) : Prog σ Unit :=
  Prog.emit (.respond status body)

/-- The `TypeError` of reading a property of `undefined`. -/
def typeError (message : String) : JsError :=
  { code := none, message := some message }

/-- The error `path.join` throws on an argument that is not a string. -/
def invalidArgType : JsError :=
  { code := some "ERR_INVALID_ARG_TYPE",
    message := some "The \"path\" argument must be of type string." }

/-- The expression `req.user` followed by a property read. -/
def reqUser (req : Request) : Prog σ ReqUser :=
  match req.user with
  | some u => pure u
  | none => Prog.throw (typeError "Cannot read properties of undefined (reading 'id')")

/-- The `allowedTypes` array of `createPage` and `updatePage`. -/
def allowedTypes : List String :=
  ["image/png", "image/jpeg", "image/jpg", "image/gif", "image/svg+xml"]

/-- The body of the response to an icon of a type that is not allowed. -/
def invalidFileType : Body :=
  .envelope false "Invalid file type. Only PNG, JPG, JPEG, GIF, and SVG files are allowed."
    .absent none

/-- The `error` property of a 500 response:
`process.env.NODE_ENV === 'development' ? error.message : undefined`. -/
def errorText (C : Collab σ) (error : JsError) : Option String :=
  if C.nodeEnv = some "development" then error.message else none

/-- The template literal of the stored file name. -/
def iconFileName (now : Nat) (iconFile : IconFile) : String :=
  "page_" ++ natToString now ++ "_" ++ iconFile.name

/-- The call `fs.existsSync(path)`. -/
def existsSync (C : Collab σ) (path : String) : Prog σ Bool :=
  fun r => (.ok (C.existsSync path r.world),
    { r with trace := r.trace ++ [.existsSync path (C.existsSync path r.world)] })

/-- The lines shared by `createPage` and `updatePage` that store an accepted icon
file: name it, create the uploads directory if it is absent, move the file. The
result is the file name. -/
def storeIcon (C : Collab σ) (iconFile : IconFile) : Prog σ String := do
  let fileName := iconFileName (← Prog.read C.dateNow) iconFile
  let uploadPath := Path.join [C.dirname, "../../uploads/icons/", fileName]
  let uploadsDir := Path.dirname uploadPath
  if !(← existsSync C uploadsDir) then
    Prog.call (C.mkdirSync uploadsDir) (Event.mkdirSync uploadsDir)
  Prog.call (C.mv iconFile uploadPath) (Event.mv iconFile uploadPath)
  pure fileName

/-- The lines that remove the icon file of `existingPage` when it has one and the
file exists (`updatePage` and `deletePage`). -/
def removeIcon (C : Collab σ) (existingPage : Page) : Prog σ Unit := do
  if truthy existingPage.icon then
    match existingPage.icon with
    | .str icon =>
      let oldIconPath := Path.join [C.dirname, "../..", icon]
      if (← existsSync C oldIconPath) then
        Prog.call (C.unlinkSync oldIconPath) (Event.unlinkSync oldIconPath)
    | _ => Prog.throw invalidArgType

/-- The handler `PageController.getPages`. -/
def getPages (C : Collab σ) (req : Request) : Prog σ Unit :=
  Prog.tryCatch
    (do
      let page := orDefault req.query.page (.num (.int 1))
      let limit := orDefault req.query.limit (.num (.int 10))
      let search := orDefault req.query.search (.str "")
      let status := orDefault req.query.status (.str "")
      let args : FindAllArgs :=
        { page := parseInt page, limit := parseInt limit, search := search, status := status }
      let result ← Prog.call (C.findAll args) (Event.findAll args)
      respond 200 (.envelope true "Pages retrieved successfully" (.result result) none))
    (fun error => do
      Prog.emit (.consoleError "Get pages error:" error)
      respond 500 (.envelope false "Failed to retrieve pages" .absent (errorText C error)))

/-- The `catch (error)` block of `createPage`. -/
def createCatch (C : Collab σ) (error : JsError) : Prog σ Unit := do
  Prog.emit (.consoleError "Create page error:" error)
  if error.code = some "ER_DUP_ENTRY" then
    respond 400 (.envelope false "Page URL already exists" .absent none)
    return
  respond 500 (.envelope false "Failed to create page" .absent (errorText C error))

/-- The handler `PageController.createPage`. -/
def createPage (C : Collab σ) (req : Request) : Prog σ Unit :=
  Prog.tryCatch
    (do
      let errors := req.validationErrors
      if !errors.isEmpty then
        respond 400 (.validation errors)
        return
      let name := req.body.name
      let url := req.body.url
      let is_external := orDefault req.body.is_external (.bool false)
      let status := orDefault req.body.status (.str "active")
      let createdBy := (← reqUser req).id
      let mut iconPath := JsVal.null
      if let some iconFile := req.icon then
        if !listIncludes allowedTypes iconFile.mimetype then
          respond 400 invalidFileType
          return
        let fileName ← storeIcon C iconFile
        iconPath := .str ("/uploads/icons/" ++ fileName)
      let pageData : PageData :=
        { name := name, url := url, icon := iconPath, is_external := is_external,
          status := status, created_by := createdBy }
      let newPageId ← Prog.call (C.create pageData) (Event.create pageData)
      let createdPage ← Prog.call (C.findById newPageId) (Event.findById newPageId)
      let user ← reqUser req
      let entry : LogEntry :=
        { userId := user.id, username := user.username, action := .CREATE,
          resourceId := newPageId,
          details := [("name", name), ("url", url), ("is_external", is_external)] }
      Prog.call (C.logUserAction entry) (Event.logUserAction entry)
      respond 201 (.envelope true "Page created successfully" (.page createdPage) none))
    (createCatch C)

/-- The lines of `updatePage` that fill `updateData` from the request body:
`const updateData = {}` and the four `if (field !== undefined)` assignments. -/
def bodyPatch (name url is_external status : JsVal) : Obj :=
  let updateData : Obj := []
  let updateData := if name ≠ .undefined then updateData.set "name" name else updateData
  let updateData := if url ≠ .undefined then updateData.set "url" url else updateData
  let updateData :=
    if is_external ≠ .undefined then updateData.set "is_external" is_external else updateData
  let updateData := if status ≠ .undefined then updateData.set "status" status else updateData
  updateData

/-- The `catch (error)` block of `updatePage`. -/
def updateCatch (C : Collab σ) (error : JsError) : Prog σ Unit := do
  Prog.emit (.consoleError "Update page error:" error)
  if error.code = some "ER_DUP_ENTRY" then
    respond 400 (.envelope false "Page URL already exists" .absent none)
    return
  respond 500 (.envelope false "Failed to update page" .absent (errorText C error))

/-- The handler `PageController.updatePage`. -/
def updatePage (C : Collab σ) (req : Request) : Prog σ Unit :=
  Prog.tryCatch
    (do
      let errors := req.validationErrors
      if !errors.isEmpty then
        respond 400 (.validation errors)
        return
      let id := JsVal.str req.id
      let name := req.body.name
      let url := req.body.url
      let is_external := req.body.is_external
      let status := req.body.status
      let some existingPage ← Prog.call (C.findById id) (Event.findById id)
        | respond 404 (.envelope false "Page not found" .absent none)
      let mut updateData := bodyPatch name url is_external status
      if let some iconFile := req.icon then
        if !listIncludes allowedTypes iconFile.mimetype then
          respond 400 invalidFileType
          return
        let fileName ← storeIcon C iconFile
        updateData := updateData.set "icon" (.str ("/uploads/icons/" ++ fileName))
        removeIcon C existingPage
      let updatedPage ← Prog.call (C.update id updateData) (Event.update id updateData)
      let user ← reqUser req
      let entry : LogEntry :=
        { userId := user.id, username := user.username, action := .UPDATE,
          resourceId := .num (parseInt id), details := updateData }
      Prog.call (C.logUserAction entry) (Event.logUserAction entry)
      respond 200 (.envelope true "Page updated successfully" (.page updatedPage) none))
    (updateCatch C)

/-- The `catch (error)` block of `deletePage`; `error.message.includes` throws a
`TypeError` when the thrown value has no string `message`. -/
def deleteCatch (C : Collab σ) (error : JsError) : Prog σ Unit := do
  Prog.emit (.consoleError "Delete page error:" error)
  match error.message with
  | none =>
    Prog.throw (typeError "Cannot read properties of undefined (reading 'includes')")
  | some message =>
    if strIncludes message "assigned roles" then
      respond 400 (.envelope false "Cannot delete page with assigned roles" .absent none)
      return
    respond 500 (.envelope false "Failed to delete page" .absent (errorText C error))

/-- The handler `PageController.deletePage`. -/
def deletePage (C : Collab σ) (req : Request) : Prog σ Unit :=
  Prog.tryCatch
    (do
      let id := JsVal.str req.id
      let some existingPage ← Prog.call (C.findById id) (Event.findById id)
        | respond 404 (.envelope false "Page not found" .absent none)
      let deleted ← Prog.call (C.delete id) (Event.delete id)
      if !deleted then
        respond 500 (.envelope false "Failed to delete page" .absent none)
        return
      removeIcon C existingPage
      let user ← reqUser req
      let entry : LogEntry :=
        { userId := user.id, username := user.username, action := .DELETE,
          resourceId := .num (parseInt id),
          details := [("name", existingPage.name), ("url", existingPage.url)] }
      Prog.call (C.logUserAction entry) (Event.logUserAction entry)
      respond 200 (.envelope true "Page deleted successfully" .absent none))
    (deleteCatch C)

/-- The handler `PageController.getPageById`. -/
def getPageById (C : Collab σ) (req : Request) : Prog σ Unit :=
  Prog.tryCatch
    (do
      let id := JsVal.str req.id
      let some page ← Prog.call (C.findById id) (Event.findById id)
        | respond 404 (.envelope false "Page not found" .absent none)
      respond 200 (.envelope true "Page retrieved successfully" (.page (some page)) none))
    (fun error => do
      Prog.emit (.consoleError "Get page by ID error:" error)
      respond 500 (.envelope false "Failed to retrieve page" .absent (errorText C error)))

/-- The handler `PageController.getPagesByUser`. -/
def getPagesByUser (C : Collab σ) (req : Request) : Prog σ Unit :=
  Prog.tryCatch
    (do
      let userId := (← reqUser req).id
      let pages ← Prog.call (C.getPagesByUser userId) (Event.getPagesByUser userId)
      respond 200 (.envelope true "User pages retrieved successfully" (.pages pages) none))
    (fun error => do
      Prog.emit (.consoleError "Get user pages error:" error)
      respond 500 (.envelope false "Failed to retrieve user pages" .absent (errorText C error)))

/-- The handler `PageController.checkPageAccess`. -/
def checkPageAccess (C : Collab σ) (req : Request) : Prog σ Unit :=
  Prog.tryCatch
    (do
      let pageUrl := req.pageUrl
      let userId := (← reqUser req).id
      let hasAccess ← Prog.call (C.checkPageAccess userId pageUrl)
        (Event.checkPageAccess userId pageUrl)
      respond 200 (.envelope true "Page access checked successfully"
        (.access userId pageUrl hasAccess) none))
    (fun error => do
      Prog.emit (.consoleError "Check page access error:" error)
      respond 500 (.envelope false "Failed to check page access" .absent (errorText C error)))

/-- The handler `PageController.getStats`. -/
def getStats (C : Collab σ) (_req : Request) : Prog σ Unit :=
  Prog.tryCatch
    (do
      let stats ← Prog.call C.getStats Event.getStats
      respond 200 (.envelope true "Page statistics retrieved successfully" (.stats stats) none))
    (fun error => do
      Prog.emit (.consoleError "Get page stats error:" error)
      respond 500 (.envelope false "Failed to retrieve page statistics" .absent
        (errorText C error)))

/-- The handler `PageController.getAllSimple`. -/
def getAllSimple (C : Collab σ) (req : Request) : Prog σ Unit :=
  Prog.tryCatch
    (do
      let active_only := orDefault req.query.active_only (.str "true")
      let activeOnly : Bool := active_only = .str "true"
      let pages ← Prog.call (C.getAllSimple activeOnly) (Event.getAllSimple activeOnly)
      respond 200 (.envelope true "Pages retrieved successfully" (.pages pages) none))
    (fun error => do
      Prog.emit (.consoleError "Get simple pages error:" error)
      respond 500 (.envelope false "Failed to retrieve pages" .absent (errorText C error)))

/-- Run a handler from the world `w` with an empty trace. -/
def run (handler : Prog σ Unit) (w : σ) : Outcome Unit × Run σ :=
  handler { world := w, trace := [] }

/-- The events of a run. -/
def traceOf (handler : Prog σ Unit) (w : σ) : List Event :=
  (run handler w).2.trace

/-- The responses sent during a trace, in order. -/
def responses : List Event → List (Nat × Body)
  | [] => []
  | .respond status body :: rest => (status, body) :: responses rest
  | _ :: rest => responses rest

/-- The postcondition `Q` holds of the result and the final state of running `m`
from `r`. -/
def Prog.Post {α : Type} (m : Prog σ α) (r : Run σ) (Q : Outcome α → Run σ → Prop) : Prop :=
  Q (m r).1 (m r).2

/-- The result of running `m` in the world `w` from an empty trace. -/
def Prog.fresh {α : Type} (m : Prog σ α) (w : σ) : Outcome α × Run σ :=
  m { world := w, trace := [] }

/-- A piece of code that does not look at the trace: run from any state, it adds
to the trace what it adds to an empty one. -/
def TraceBlind {α : Type} (m : Prog σ α) : Prop :=
  ∀ r : Run σ, m r = ((m.fresh r.world).1,
    { world := (m.fresh r.world).2.world, trace := r.trace ++ (m.fresh r.world).2.trace })

/-- Whether an event is a call into `fs` or the upload library. -/
def Event.isFs : Event → Bool
  | .existsSync _ _ => true
  | .mkdirSync _ _ => true
  | .mv _ _ _ => true
  | .unlinkSync _ _ => true
  | _ => false

/-- Whether an event is a call of `ActivityLog.logUserAction`. -/
def Event.isLog : Event → Bool
  | .logUserAction _ _ => true
  | _ => false

/-- Whether an event is a call of `Page.create`, `Page.update` or `Page.delete`. -/
def Event.isMutation : Event → Bool
  | .create _ _ => true
  | .update _ _ _ => true
  | .delete _ _ => true
  | _ => false

/-- Whether an event is a mutation of the `pages` table that succeeded:
`Page.create` or `Page.update` returned, `Page.delete` returned a truthy value. -/
def Event.isMutationOk : Event → Bool
  | .create _ (.ok _) => true
  | .update _ _ (.ok _) => true
  | .delete _ (.ok true) => true
  | _ => false

/-- Whether an event writes to the file system. -/
def Event.isFsWrite : Event → Bool
  | .mkdirSync _ _ => true
  | .mv _ _ _ => true
  | .unlinkSync _ _ => true
  | _ => false

/-- Whether every `logUserAction` call of a trace comes after a successful
mutation. -/
def logsFollowMutation : List Event → Bool
  | [] => true
  | ev :: rest =>
    if ev.isMutationOk then true
    else if ev.isLog then false
    else logsFollowMutation rest

/-- Whether a trace holds a `logUserAction` call. -/
def hasLog : List Event → Bool
  | [] => false
  | ev :: rest => ev.isLog || hasLog rest

/-- Whether a trace holds a mutation call that failed: it threw or, for
`Page.delete`, returned a falsy value. -/
def hasFailedMutation : List Event → Bool
  | [] => false
  | ev :: rest => (ev.isMutation && !ev.isMutationOk) || hasFailedMutation rest

/-- Whether a trace has no `logUserAction` call, or no mutation call that
failed. -/
def noLogWhenMutationFailed (t : List Event) : Bool :=
  !(hasFailedMutation t) || !(hasLog t)

/-- The order the mutating handlers keep between the mutation and the log call. -/
def logDiscipline (t : List Event) : Bool :=
  logsFollowMutation t && noLogWhenMutationFailed t

/-- The property of a trace that `logUserAction` is called only after a mutation
that succeeded: whatever precedes a log call holds a successful mutation; a trace
with a failed mutation call has no log call; a trace without a mutation call has
no log call. -/
def LogsAfterMutation (t : List Event) : Prop :=
  (∀ pre post entry res, t = pre ++ Event.logUserAction entry res :: post →
    ∃ ev ∈ pre, ev.isMutationOk = true) ∧
  ((∃ ev ∈ t, ev.isMutation = true ∧ ev.isMutationOk = false) → ∀ ev ∈ t, ev.isLog = false) ∧
  ((∀ ev ∈ t, ev.isMutation = false) → ∀ ev ∈ t, ev.isLog = false)

/-- The response of the `catch` block of `createPage` (`generic` = "Failed to
create page") and `updatePage` (`generic` = "Failed to update page"). -/
def catchResponse (C : Collab σ) (generic : String) (error : JsError) : Nat × Body :=
  if error.code = some "ER_DUP_ENTRY" then
    (400, .envelope false "Page URL already exists" .absent none)
  else (500, .envelope false generic .absent (errorText C error))

/-- The response of the `catch` block of `deletePage` to an error whose message is
the string `message`. -/
def deleteCatchResponse (C : Collab σ) (error : JsError) (message : String) : Nat × Body :=
  if strIncludes message "assigned roles" then
    (400, .envelope false "Cannot delete page with assigned roles" .absent none)
  else (500, .envelope false "Failed to delete page" .absent (errorText C error))

/-- What `getPages` passes to `Page.findAll` for the query parameter `param` whose
default is `dflt`: the default when the parameter is absent, the value of a
decimal numeral below `2^53`, and `NaN` for a string that starts with neither
white space, a sign nor a digit (such as `abc` or the empty string). -/
def ParamPassed (param : JsVal) (dflt : Int) (passed : JsNum) : Prop :=
  (param = .undefined → passed = .int dflt) ∧
  (∀ s n, param = .str s → s.toNat? = some n → n < 2 ^ 53 → passed = .int n) ∧
  (∀ s, param = .str s →
    (∀ c, s.data.head? = some c →
      isWhiteSpace c = false ∧ c ≠ '+' ∧ c ≠ '-' ∧ c.isDigit = false) →
    passed = .nan)

/-- The events that follow the first `logUserAction` call of a trace. -/
def afterLog : List Event → List Event
  | [] => []
  | ev :: rest => if ev.isLog then rest else afterLog rest

/-- Whether an event is an `iconFile.mv` call that returned. -/
def Event.isStored : Event → Bool
  | .mv _ _ (.ok _) => true
  | _ => false

/-- Whether an event is an `fs.unlinkSync` call. -/
def Event.isUnlink : Event → Bool
  | .unlinkSync _ _ => true
  | _ => false

/-- Whether an event is a call of the lines that store the new file which threw:
`fs.mkdirSync` or `iconFile.mv`. -/
def Event.isStoreFailure : Event → Bool
  | .mkdirSync _ (.threw _) => true
  | .mv _ _ (.threw _) => true
  | _ => false

/-- Whether every `unlinkSync` call of a trace comes after an `mv` call that
returned. -/
def unlinksFollowStore : List Event → Bool
  | [] => true
  | ev :: rest =>
    if ev.isStored then true
    else if ev.isUnlink then false
    else unlinksFollowStore rest

/-- Whether a trace holds an `unlinkSync` call. -/
def hasUnlink : List Event → Bool
  | [] => false
  | ev :: rest => ev.isUnlink || hasUnlink rest

/-- Whether a trace holds a `mkdirSync` or `mv` call that threw. -/
def hasStoreFailure : List Event → Bool
  | [] => false
  | ev :: rest => ev.isStoreFailure || hasStoreFailure rest

/-- The order `updatePage` keeps between storing the new icon file and removing
the previous one. -/
def storeDiscipline (t : List Event) : Bool :=
  unlinksFollowStore t && (!(hasStoreFailure t) || !(hasUnlink t))

/-- The path of the icon file of a page whose `icon` is the string `icon`:
`path.join(__dirname, '../..', existingPage.icon)`. -/
def oldIconPath (C : Collab σ) (icon : String) : String :=
  Path.join [C.dirname, "../..", icon]

/-- The path the icon file `iconFile` is stored at when the clock reads `now`:
`path.join(__dirname, '../../uploads/icons/', fileName)`. -/
def uploadPath (C : Collab σ) (now : Nat) (iconFile : IconFile) : String :=
  Path.join [C.dirname, "../../uploads/icons/", iconFileName now iconFile]

/-- The `updateData` of an `updatePage` request with an accepted icon file stored
under `fileName`. -/
def iconPatch (req : Request) (fileName : String) : Obj :=
  (bodyPatch req.body.name req.body.url req.body.is_external req.body.status).set "icon"
    (.str ("/uploads/icons/" ++ fileName))

/-- The error a run has caught: the argument of the first `console.error` call of
its trace, `none` when there is no such call. -/
def caught : List Event → Option JsError
  | [] => none
  | .consoleError _ error :: _ => some error
  | _ :: rest => caught rest

/-- The `error` property of the 500 response of a run with trace `t`: the message
of the caught error when `NODE_ENV` is `development`, and undefined otherwise,
also when nothing has been caught. -/
def errorField (C : Collab σ) (t : List Event) : Option String :=
  match caught t with
  | some error => errorText C error
  | none => none

/-- How the responses of a trace report errors, for a handler whose generic
message is `generic`: a 500 response is the envelope with `success: false`, the
generic message and the `error` property `errorField`; a 400 or 404 response is
the validation body or an envelope with `success: false` and no `error`
property. -/
def ErrorReporting (C : Collab σ) (generic : String) (t : List Event) : Prop :=
  ∀ status body, (status, body) ∈ responses t →
    (status = 500 → body = .envelope false generic .absent (errorField C t)) ∧
    (status = 400 ∨ status = 404 →
      (∃ errors, body = .validation errors) ∨
      ∃ message, body = .envelope false message .absent none)

/-- Whether every `mv` call of a trace moves the file `iconFile` to `path`. -/
def movesTo (iconFile : IconFile) (path : String) : List Event → Bool
  | [] => true
  | .mv file dest _ :: rest =>
    decide (file = iconFile) && decide (dest = path) && movesTo iconFile path rest
  | _ :: rest => movesTo iconFile path rest

/-- A run that answers: the handler returns and has sent exactly one response. -/
def RespondsOnce (handler : Prog σ Unit) (w : σ) : Prop :=
  (run handler w).1 = .ok () ∧ (responses (traceOf handler w)).length = 1

/-- A run that is left unanswered: the handler has caught an error without a
string `message`, throws the `TypeError` of reading `includes` of `undefined`,
and has sent no response. -/
def RejectsUnanswered (handler : Prog σ Unit) (w : σ) : Prop :=
  (run handler w).1 =
      .threw (typeError "Cannot read properties of undefined (reading 'includes')") ∧
    responses (traceOf handler w) = [] ∧
    ∃ error, caught (traceOf handler w) = some error ∧ error.message = none

/-- The `pageData` of a `createPage` request by the user `createdBy` with an
accepted icon file stored under `fileName`. -/
def iconPageData (req : Request) (createdBy : JsVal) (fileName : String) : PageData :=
  { name := req.body.name, url := req.body.url,
    icon := .str ("/uploads/icons/" ++ fileName),
    is_external := orDefault req.body.is_external (.bool false),
    status := orDefault req.body.status (.str "active"), created_by := createdBy }

/-- The property of a trace that the previous icon file is removed only after the
new one has been stored: whatever precedes an `unlinkSync` call holds an `mv` call
that returned, and a trace with an `mv` (or `mkdirSync`) call that threw has no
`unlinkSync` call. -/
def UnlinkAfterStore (t : List Event) : Prop :=
  (∀ pre post path res, t = pre ++ Event.unlinkSync path res :: post →
    ∃ file dest, Event.mv file dest (.ok ()) ∈ pre) ∧
  ((∃ ev ∈ t, ev.isStoreFailure = true) → ∀ ev ∈ t, ev.isUnlink = false)

end PageController

/-! ## A reference implementation of the collaborators

The `Page` and `ActivityLog` models are not part of the two source files; the
store below follows the data model and the operations of the specification. -/

namespace Store

open Js PageController

/-- Modelled from the spec: the state behind the `Page` model, the `ActivityLog`
model and `fs`, which are missing from the sources: the rows of the `pages` table,
the ids of the pages some role references, the files and directories on disk, the
append-only activity log, the clock, the next row id, and the pairs of a user id
and the id of a page one of the roles of that user is assigned. -/
structure World where
  pages : List Page := []
  assigned : List JsVal := []
  files : List String := []
  dirs : List String := []
  log : List LogEntry := []
  clock : Nat := 0
  nextId : Nat := 1
  granted : List (JsVal × JsVal) := []
deriving DecidableEq, Repr

/-- Modelled from the spec: whether the row id `rowId` is the id `id` a caller
gave, as a route parameter (a string) or as a number (the model is missing from
the sources). -/
def sameId (rowId id : JsVal) : Bool :=
  toStr rowId = toStr id

/-- Modelled from the spec: `Page.findById`, missing from the sources:
"entity or not found". -/
def findById (id : JsVal) (w : World) : Outcome (Option Page) × World :=
  (.ok (w.pages.find? (fun p => sameId p.id id)), w)

/-- Modelled from the spec: `Page.findAll`, missing from the sources: `search`
matches name or url substrings, `status` filters by exact match, the result is
one page of the matching rows, "invalid numeric params default to page=1,
limit=10". -/
def findAll (args : FindAllArgs) (w : World) : Outcome (List Page) × World :=
  let page := match args.page with
    | .int n => if 0 < n then n.toNat else 1
    | _ => 1
  let limit := match args.limit with
    | .int n => if 0 < n then n.toNat else 10
    | _ => 10
  let matching := w.pages.filter (fun p =>
    (strIncludes (toStr p.name) (toStr args.search) ||
      strIncludes (toStr p.url) (toStr args.search)) &&
    (args.status = .str "" || p.status = args.status))
  (.ok ((matching.drop ((page - 1) * limit)).take limit), w)

/-- Modelled from the spec: the error of a unique-constraint violation on `url`
(the model is missing from the sources). -/
def dupEntry : JsError :=
  { code := some "ER_DUP_ENTRY", message := some "Duplicate entry for key 'url'" }

/-- Modelled from the spec: `Page.create`, missing from the sources: `url` is
unique, a duplicate is rejected; otherwise a row with a fresh id is added. -/
def create (data : PageData) (w : World) : Outcome JsVal × World :=
  if w.pages.any (fun p => p.url = data.url) then (.threw dupEntry, w)
  else
    let id := JsVal.num (.int w.nextId)
    let row : Page :=
      { id := id, name := data.name, url := data.url, icon := data.icon,
        is_external := data.is_external, status := data.status,
        created_by := data.created_by }
    (.ok id, { w with pages := w.pages ++ [row], nextId := w.nextId + 1 })

/-- Modelled from the spec: one provided field overwrites the field of that name
(the model is missing from the sources). -/
def applyField (p : Page) (field : String × JsVal) : Page :=
  if field.1 = "name" then { p with name := field.2 }
  else if field.1 = "url" then { p with url := field.2 }
  else if field.1 = "icon" then { p with icon := field.2 }
  else if field.1 = "is_external" then { p with is_external := field.2 }
  else if field.1 = "status" then { p with status := field.2 }
  else p

/-- Modelled from the spec: `Page.update`, missing from the sources: "updated
fields are a sparse patch (only provided fields overwrite)", `url` stays unique,
and the updated entity is returned. -/
def update (id : JsVal) (patch : Obj) (w : World) : Outcome (Option Page) × World :=
  match w.pages.find? (fun p => sameId p.id id) with
  | none => (.ok none, w)
  | some old =>
    let new := patch.foldl applyField old
    if new.url ≠ old.url ∧ w.pages.any (fun p => p.url = new.url) then (.threw dupEntry, w)
    else
      let pages := w.pages.map (fun p => if sameId p.id id then patch.foldl applyField p else p)
      (.ok (pages.find? (fun p => sameId p.id id)), { w with pages := pages })

/-- Modelled from the spec: `Page.delete`, missing from the sources: "deleted only
if no role currently references it (referential guard)"; the result says whether
a row was removed. -/
def delete (id : JsVal) (w : World) : Outcome Bool × World :=
  if w.assigned.any (fun a => sameId a id) then
    (.threw { code := none, message := some "Cannot delete page with assigned roles" }, w)
  else
    (.ok (w.pages.any (fun p => sameId p.id id)),
      { w with pages := w.pages.filter (fun p => !sameId p.id id) })

/-- Modelled from the spec: `ActivityLog.logUserAction`, missing from the
sources: an append to the audit trail. -/
def logUserAction (entry : LogEntry) (w : World) : Outcome Unit × World :=
  (.ok (), { w with log := w.log ++ [entry] })

/-- Modelled from the spec: `iconFile.mv` of the upload library, which is not
part of the sources: the file is stored at `path`. -/
def mv (_file : IconFile) (path : String) (w : World) : Outcome Unit × World :=
  (.ok (), { w with files := w.files ++ [path] })

/-- Modelled from the spec: `fs.mkdirSync(path, { recursive: true })`, which is
not part of the sources: "directory creation is idempotent". -/
def mkdirSync (path : String) (w : World) : Outcome Unit × World :=
  (.ok (), if w.dirs.contains path then w else { w with dirs := w.dirs ++ [path] })

/-- Modelled from the spec: `fs.unlinkSync(path)`, which is not part of the
sources: the file is removed, and a missing file is an error. -/
def unlinkSync (path : String) (w : World) : Outcome Unit × World :=
  if w.files.contains path then (.ok (), { w with files := w.files.filter (fun f => f ≠ path) })
  else (.threw { code := some "ENOENT", message := some "no such file or directory" }, w)

/-- Modelled from the spec: `Page.getPagesByUser`, missing from the sources:
"pages reachable through the user's role memberships", each once. -/
def getPagesByUser (userId : JsVal) (w : World) : Outcome (List Page) × World :=
  (.ok (w.pages.filter (fun p => w.granted.any (fun g => sameId g.1 userId && sameId g.2 p.id))),
    w)

/-- Modelled from the spec: `Page.checkPageAccess`, missing from the sources:
whether a page with this url is among the pages of the user. -/
def checkPageAccess (userId : JsVal) (pageUrl : String) (w : World) : Outcome JsVal × World :=
  (.ok (.bool (w.pages.any (fun p => p.url = .str pageUrl &&
    w.granted.any (fun g => sameId g.1 userId && sameId g.2 p.id)))), w)

/-- Modelled from the spec: `Page.getStats`, missing from the sources: "aggregate
counts (e.g., total/active/inactive)". -/
def getStats (w : World) : Outcome Obj × World :=
  (.ok [("total", .num (.int w.pages.length)),
        ("active", .num (.int (w.pages.filter (fun p => p.status = .str "active")).length)),
        ("inactive", .num (.int (w.pages.filter (fun p => p.status = .str "inactive")).length))],
    w)

/-- Modelled from the spec: `Page.getAllSimple`, missing from the sources: the
rows, only the active ones when `activeOnly` is set. -/
def getAllSimple (activeOnly : Bool) (w : World) : Outcome (List Page) × World :=
  (.ok (w.pages.filter (fun p => !activeOnly || p.status = .str "active")), w)

/-- Modelled from the spec: the collaborators over the store, for a controller
that lives in `/srv/backend/src/controllers` (the models, the upload library and
the deployment are missing from the sources). -/
def collab (nodeEnv : Option String) : Collab World where
  dirname := "/srv/backend/src/controllers"
  nodeEnv := nodeEnv
  dateNow := fun w => w.clock
  existsSync := fun path w => w.files.contains path || w.dirs.contains path
  mkdirSync := mkdirSync
  mv := mv
  unlinkSync := unlinkSync
  findAll := findAll
  findById := findById
  create := create
  update := update
  delete := delete
  logUserAction := logUserAction
  getPagesByUser := getPagesByUser
  checkPageAccess := checkPageAccess
  getStats := getStats
  getAllSimple := getAllSimple

/-- Modelled from the spec: the same collaborators when `Page.delete` removes no
row and returns a falsy value, as it does when another request has removed the
row since `Page.findById` ("no multi-statement transaction spans a controller
action"; the model is missing from the sources). -/
def collabRowGone (nodeEnv : Option String) : Collab World :=
  { collab nodeEnv with delete := fun _ w => (.ok false, w) }

/-- Modelled from the spec: the same collaborators at a time the database cannot
be reached, so that `Page.findById` throws `error` (the model and the database
driver are missing from the sources). -/
def collabDown (nodeEnv : Option String) (error : JsError) : Collab World :=
  { collab nodeEnv with findById := fun _ w => (.threw error, w) }

/-- Modelled from the spec: the same collaborators at a time the activity log
cannot be written, so that `ActivityLog.logUserAction` throws `error` ("a logging
failure"; the model is missing from the sources). -/
def collabLogDown (nodeEnv : Option String) (error : JsError) : Collab World :=
  { collab nodeEnv with logUserAction := fun _ w => (.threw error, w) }

end Store

/-! ## Sample requests and stores -/

namespace Sample

open Js PageController

/-- The page `/docs`, row 1, without an icon. -/
def docsPage : Page :=
  { id := .num (.int 1), name := .str "Docs", url := .str "/docs", icon := .null,
    is_external := .bool false, status := .str "active", created_by := .num (.int 7) }

/-- The page `/docs` with an icon file stored. -/
def docsPageWithIcon : Page :=
  { docsPage with icon := .str "/uploads/icons/page_1600_old.png" }

/-- The user every sample request is made by. -/
def ann : ReqUser :=
  { id := .num (.int 7), username := .str "ann" }

/-- A store that holds the page `/docs`. -/
def docsWorld : Store.World :=
  { pages := [docsPage], nextId := 2, clock := 1700 }

/-- A store that holds the page `/docs` with its icon file, assigned to a role. -/
def assignedWorld : Store.World :=
  { pages := [docsPageWithIcon], assigned := [.num (.int 1)], nextId := 2, clock := 1700,
    dirs := ["/srv/backend/uploads/icons"],
    files := ["/srv/backend/uploads/icons/page_1600_old.png"] }

/-- A thrown value that has a code and no message. -/
def refused : JsError :=
  { code := some "ECONNREFUSED", message := none }

/-- The error of a lost database connection. -/
def connReset : JsError :=
  { code := some "ECONNRESET", message := some "read ECONNRESET" }

/-- A request to create the page `/docs`. -/
def createDocs : Request :=
  { body := { name := .str "Docs", url := .str "/docs" }, user := some ann }

/-- A request to create the page `/docs` with the image `logo.png` as its icon. -/
def createDocsIcon : Request :=
  { body := { name := .str "Docs", url := .str "/docs" }, user := some ann,
    icon := some { name := "logo.png", mimetype := .str "image/png" } }

/-- A request to create the page `/blog` with an icon whose file name climbs out
of the directory it is joined to. -/
def createEscaping : Request :=
  { body := { name := .str "Blog", url := .str "/blog" }, user := some ann,
    icon := some { name := "a/../../escaped.png", mimetype := .str "image/png" } }

/-- A request to create the page `/blog`. -/
def createBlog : Request :=
  { body := { name := .str "Blog", url := .str "/blog" }, user := some ann }

/-- A request to update page 1 with nothing in its body. -/
def updateNothing : Request :=
  { id := "1", user := some ann }

/-- A request to rename page 1 and clear its status with an explicit `null`. -/
def updateRename : Request :=
  { id := "1", body := { name := .str "Manual", status := .null }, user := some ann }

/-- A request to update page 1 with a text file as its icon. -/
def updateTextIcon : Request :=
  { id := "1", user := some ann,
    icon := some { name := "notes.txt", mimetype := .str "text/plain" } }

/-- A request to update page 1 with a new icon, the image `logo.png`. -/
def updateIcon : Request :=
  { id := "1", user := some ann,
    icon := some { name := "logo.png", mimetype := .str "image/png" } }

/-- A store that holds the page `/docs` with an icon whose file is no longer on
disk. -/
def lostIconWorld : Store.World :=
  { pages := [docsPageWithIcon], nextId := 2, clock := 1700,
    dirs := ["/srv/backend/uploads/icons"] }

/-- The page `/blog`, row 2. -/
def blogPage : Page :=
  { id := .num (.int 2), name := .str "Blog", url := .str "/blog", icon := .null,
    is_external := .bool false, status := .str "active", created_by := .num (.int 7) }

/-- A store that holds the page `/docs` with its icon file, and the page `/blog`. -/
def twoPagesWorld : Store.World :=
  { pages := [docsPageWithIcon, blogPage], nextId := 3, clock := 1700,
    dirs := ["/srv/backend/uploads/icons"],
    files := ["/srv/backend/uploads/icons/page_1600_old.png"] }

/-- A request to move page 1 to the url of page 2, with a new icon. -/
def updateClash : Request :=
  { id := "1", body := { url := .str "/blog" }, user := some ann,
    icon := some { name := "logo.png", mimetype := .str "image/png" } }

/-- A request to delete page 1. -/
def deleteDocs : Request :=
  { id := "1", user := some ann }

/-- A request for the page list with parameters that are not numbers. -/
def listInvalid : Request :=
  { query := { page := .str "abc", limit := .str "" } }

end Sample

/-! ## Theorems -/

namespace Js

theorem digitChar_isDigit (d : Nat) : (digitChar d).isDigit = true := by
  have h : d % 10 < 10 := Nat.mod_lt _ (by decide)
  unfold digitChar
  generalize d % 10 = k at h
  interval_cases k <;> decide

theorem natDigits_mem (fuel n : Nat) (acc : List Char) :
    ∀ c ∈ natDigits fuel n acc, c ∈ acc ∨ c.isDigit = true := by
  induction fuel generalizing n acc with
  | zero => intro c hc; exact Or.inl hc
  | succ k ih =>
    intro c hc
    unfold natDigits at hc
    split at hc
    · rcases List.mem_cons.mp hc with h | h
      · exact Or.inr (h ▸ digitChar_isDigit n)
      · exact Or.inl h
    · rcases ih _ _ c hc with h | h
      · rcases List.mem_cons.mp h with h | h
        · exact Or.inr (h ▸ digitChar_isDigit n)
        · exact Or.inl h
      · exact Or.inr h

theorem natToString_digits (n : Nat) : ∀ c ∈ (natToString n).data, c.isDigit = true := by
  intro c hc
  rcases natDigits_mem (n + 1) n [] c hc with h | h
  · exact absurd h (List.not_mem_nil c)
  · exact h

theorem intToString_chars (n : Int) :
    ∀ c ∈ (intToString n).data, c = '-' ∨ c.isDigit = true := by
  intro c hc
  unfold intToString at hc
  split at hc
  · rcases List.mem_cons.mp hc with h | h
    · exact Or.inl h
    · exact Or.inr (natToString_digits _ c h)
  · exact Or.inr (natToString_digits _ c hc)

/-- No decimal numeral is spelled with a letter. -/
theorem intToString_ne (n : Int) (s : String) (c : Char) (hc : c ∈ s.data)
    (h1 : c ≠ '-') (h2 : c.isDigit = false) : intToString n ≠ s := by
  intro h
  subst h
  rcases intToString_chars n c hc with h | h
  · exact h1 h
  · rw [h] at h2; exact Bool.noConfusion h2

end Js

namespace Sidebar

open Js

theorem displayRole_int (n : Int) : displayRole (.num (.int n)) = .val (.num (.int n)) := by
  have e1 : intToString n ≠ "super_admin" := intToString_ne n _ 's' (by decide) (by decide) (by decide)
  have e2 : intToString n ≠ "admin" := intToString_ne n _ 'a' (by decide) (by decide) (by decide)
  have e3 : intToString n ≠ "manager" := intToString_ne n _ 'm' (by decide) (by decide) (by decide)
  have e4 : intToString n ≠ "user" := intToString_ne n _ 'u' (by decide) (by decide) (by decide)
  have k : ∀ s ∈ objectPrototypeKeys, intToString n ≠ s := by
    intro s hs
    simp only [objectPrototypeKeys, List.mem_cons, List.mem_singleton, List.not_mem_nil, or_false] at hs
    rcases hs with h | h | h | h | h | h | h | h | h | h | h | h <;> subst h
    · exact intToString_ne n _ 'c' (by decide) (by decide) (by decide)
    · exact intToString_ne n _ 'd' (by decide) (by decide) (by decide)
    · exact intToString_ne n _ 'd' (by decide) (by decide) (by decide)
    · exact intToString_ne n _ 'h' (by decide) (by decide) (by decide)
    · exact intToString_ne n _ 'l' (by decide) (by decide) (by decide)
    · exact intToString_ne n _ 'l' (by decide) (by decide) (by decide)
    · exact intToString_ne n _ 'i' (by decide) (by decide) (by decide)
    · exact intToString_ne n _ 'p' (by decide) (by decide) (by decide)
    · exact intToString_ne n _ 't' (by decide) (by decide) (by decide)
    · exact intToString_ne n _ 'v' (by decide) (by decide) (by decide)
    · exact intToString_ne n _ 'p' (by decide) (by decide) (by decide)
    · exact intToString_ne n _ 't' (by decide) (by decide) (by decide)
  have hc : intToString n ∉ objectPrototypeKeys := fun h => k _ h rfl
  have b1 : (intToString n == "super_admin") = false := by simpa using e1
  have b2 : (intToString n == "admin") = false := by simpa using e2
  have b3 : (intToString n == "manager") = false := by simpa using e3
  have b4 : (intToString n == "user") = false := by simpa using e4
  simp [displayRole, toStr, numToString, roleMapping, List.lookup, b1, b2, b3, b4, hc]

/-- A role name that is not a string never matches an allow-list. -/
theorem includesDisplay_nonstring (roles : List String) (v : JsVal)
    (hv : ∀ s, v ≠ .str s) : includesDisplay roles (displayRole v) = false := by
  cases v with
  | undefined => rfl
  | null => rfl
  | bool b => cases b <;> rfl
  | num n =>
    cases n with
    | nan => rfl
    | inf b => cases b <;> rfl
    | int n => rw [displayRole_int]; rfl
  | str s => exact absurd rfl (hv s)

/-- The display names used by the allow-lists of the static menu. -/
theorem menuItems_roles (item : MenuItem) (h : item ∈ menuItems) :
    ∀ r ∈ item.roles, r = "Super Admin" ∨ r = "Admin" ∨ r = "Manager" ∨ r = "User" := by
  simp only [menuItems, List.mem_cons, List.mem_singleton, List.not_mem_nil, or_false] at h
  rcases h with h | h | h | h <;> subst h <;> intro r hr <;>
    simp only [List.mem_cons, List.mem_singleton, List.not_mem_nil, or_false] at hr <;> tauto

theorem includesDisplay_str (roles : List String) (s : String)
    (hroles : ∀ r ∈ roles, r = "Super Admin" ∨ r = "Admin" ∨ r = "Manager" ∨ r = "User") :
    includesDisplay roles (displayRole (.str s)) = true ↔
      ∃ d, specNormalize (.str s) = .str d ∧ d ∈ roles := by
  by_cases h1 : s = "super_admin"
  · subst h1
    simp [displayRole, toStr, roleMapping, List.lookup, truthy, includesDisplay,
      specNormalize]
  by_cases h2 : s = "admin"
  · subst h2
    simp [displayRole, toStr, roleMapping, List.lookup, truthy, includesDisplay,
      specNormalize]
  by_cases h3 : s = "manager"
  · subst h3
    simp [displayRole, toStr, roleMapping, List.lookup, truthy, includesDisplay,
      specNormalize]
  by_cases h4 : s = "user"
  · subst h4
    simp [displayRole, toStr, roleMapping, List.lookup, truthy, includesDisplay,
      specNormalize]
  have b1 : (s == "super_admin") = false := by simpa using h1
  have b2 : (s == "admin") = false := by simpa using h2
  have b3 : (s == "manager") = false := by simpa using h3
  have b4 : (s == "user") = false := by simpa using h4
  have hspec : specNormalize (.str s) = .str s := by simp [specNormalize, h1, h2, h3, h4]
  by_cases hp : s ∈ objectPrototypeKeys
  · have hnot : s ∉ roles := by
      intro hs
      have := hroles s hs
      simp only [objectPrototypeKeys, List.mem_cons, List.mem_singleton, List.not_mem_nil,
        or_false] at hp
      rcases this with h | h | h | h <;> subst h <;> revert hp <;> decide
    simp [displayRole, toStr, roleMapping, List.lookup, b1, b2, b3, b4, hp,
      includesDisplay, hspec, hnot]
  · simp [displayRole, toStr, roleMapping, List.lookup, b1, b2, b3, b4, hp,
      includesDisplay, hspec]

theorem includesDisplay_iff (roles : List String) (role : Role)
    (hroles : ∀ r ∈ roles, r = "Super Admin" ∨ r = "Admin" ∨ r = "Manager" ∨ r = "User") :
    includesDisplay roles (displayRole (roleName role)) = true ↔
      ∃ d, specNormalize (roleName role) = .str d ∧ d ∈ roles := by
  by_cases hs : ∃ s, roleName role = .str s
  · obtain ⟨s, hs⟩ := hs
    rw [hs]
    exact includesDisplay_str roles s hroles
  · have hv : ∀ s, roleName role ≠ .str s := fun s h => hs ⟨s, h⟩
    rw [includesDisplay_nonstring roles _ hv]
    constructor
    · intro h; exact Bool.noConfusion h
    · rintro ⟨d, hd, -⟩
      cases hr : roleName role with
      | str s => exact absurd hr (hv s)
      | undefined => rw [hr] at hd; simp [specNormalize] at hd
      | null => rw [hr] at hd; simp [specNormalize] at hd
      | bool b => rw [hr] at hd; simp [specNormalize] at hd
      | num n => rw [hr] at hd; simp [specNormalize] at hd

/-- C1. A static menu entry is in `filteredMenuItems` exactly when the user has a
defined role list and one of the roles (a string, or the `name` of an object),
with `super_admin`, `admin`, `manager`, `user` mapped to their display names and
every other name unchanged, is in the allow-list of the entry; a user without a
role list sees no entry. -/
theorem filteredMenuItems_iff (user : Option User) (item : MenuItem) :
    item ∈ filteredMenuItems user ↔
      item ∈ menuItems ∧
        ∃ roles, user.bind (fun u => u.roles) = some roles ∧ SpecVisible roles item := by
  unfold filteredMenuItems
  rw [List.mem_filter]
  refine and_congr_right ?_
  intro hitem
  have hroles := menuItems_roles item hitem
  unfold menuVisible SpecVisible
  cases user.bind (fun u => u.roles) with
  | none => simp
  | some roles =>
    simp only [List.any_eq_true, Option.some.injEq, exists_eq_left']
    constructor
    · rintro ⟨role, hmem, hinc⟩
      exact ⟨role, hmem, (includesDisplay_iff item.roles role hroles).mp hinc⟩
    · rintro ⟨role, hmem, hd⟩
      exact ⟨role, hmem, (includesDisplay_iff item.roles role hroles).mpr hd⟩

/-- C2. A user whose role list holds nothing but the role `user`, as a string or
as an object named `user`, sees Dashboard only: Users, Roles and Pages, which are
allow-listed to Super Admin and Admin, are hidden. -/
theorem filteredMenuItems_user_only (roles : List Role) (hne : roles ≠ [])
    (honly : ∀ r ∈ roles, r = .str "user" ∨ r = .obj (.str "user")) :
    filteredMenuItems (some { roles := some roles }) =
      [{ name := "Dashboard", path := "/dashboard",
         roles := ["Super Admin", "Admin", "Manager", "User"] }] := by
  have hname : ∀ r ∈ roles, displayRole (roleName r) = .val (.str "User") := by
    intro r hr
    rcases honly r hr with h | h <;> subst h <;> rfl
  have hany : ∀ allow : List String,
      roles.any (fun role => includesDisplay allow (displayRole (roleName role)))
        = allow.contains "User" := by
    intro allow
    cases roles with
    | nil => exact absurd rfl hne
    | cons r rs =>
      by_cases hc : allow.contains "User" = true
      · rw [hc, List.any_eq_true]
        exact ⟨r, List.mem_cons_self _ _, by rw [hname r (List.mem_cons_self _ _)]; exact hc⟩
      · rw [Bool.not_eq_true] at hc
        rw [hc, List.any_eq_false]
        intro x hx
        rw [hname x hx]
        show ¬ allow.contains "User" = true
        rw [hc]
        exact Bool.noConfusion
  simp only [filteredMenuItems, menuItems, List.filter, menuVisible, Option.bind, hany]
  rfl

theorem filteredMenuItems_user_only_witness :
    filteredMenuItems (some { roles := some [.str "user", .obj (.str "user")] }) =
      [{ name := "Dashboard", path := "/dashboard",
         roles := ["Super Admin", "Admin", "Manager", "User"] }] :=
  filteredMenuItems_user_only [.str "user", .obj (.str "user")] (by decide) (by decide)

theorem renderPage_ok (p : AssignedPage) (href : String) (h : formatUrl p.url = .ok href) :
    renderPage p =
      .ok (if isExternal p then .button p.id p.name href else .link p.id href p.name) := by
  simp only [renderPage, h]
  rfl

theorem renderPage_error (p : AssignedPage) (e : String) (h : formatUrl p.url = .error e) :
    renderPage p = .error e := by
  simp only [renderPage, h]
  rfl

theorem formatUrl_ok (url : JsVal) (h : truthy url = false ∨ ∃ s, url = .str s) :
    ∃ href, formatUrl url = .ok href := by
  rcases h with h | ⟨s, rfl⟩
  · exact ⟨"#", by simp [formatUrl, h]⟩
  · by_cases h0 : (!truthy (.str s)) = true
    · exact ⟨"#", by simp only [formatUrl, h0, if_true]⟩
    · by_cases h1 : (startsWith s "http://" || startsWith s "https://") = true
      · exact ⟨s, by simp [formatUrl, h0, h1]⟩
      · exact ⟨if startsWith s "/" then s else "/" ++ s, by simp [formatUrl, h0, h1]⟩

theorem formatUrl_error (url : JsVal) (htruthy : truthy url = true)
    (hstr : ∀ s, url ≠ .str s) :
    formatUrl url = .error "TypeError: url.startsWith is not a function" := by
  cases url with
  | str s => exact absurd rfl (hstr s)
  | _ => simp_all [formatUrl]

/-- C16. The sidebar classifies a page of the dynamic list as external if and
only if its `is_external` flag is truthy or its url is a string that starts with
`http://` or `https://`. A page whose url is a string or falsy is rendered with
`formatUrl(url)` as its target: as a button that opens the overlay viewer when it
is external, as a client-side route link when it is internal. A page whose url is
truthy and not a string is classified by its flag alone, and rendering it throws
the `TypeError` of `formatUrl`. -/
theorem renderPage_classifies (p : AssignedPage) :
    (isExternal p = true ↔
      truthy p.is_external = true ∨
        ∃ url, p.url = .str url ∧
          (startsWith url "http://" = true ∨ startsWith url "https://" = true)) ∧
    (truthy p.url = false ∨ (∃ url, p.url = .str url) →
      ∃ href, formatUrl p.url = .ok href ∧
        (isExternal p = true → renderPage p = .ok (.button p.id p.name href)) ∧
        (isExternal p = false → renderPage p = .ok (.link p.id href p.name))) ∧
    (truthy p.url = true → (∀ url, p.url ≠ .str url) →
      isExternal p = truthy p.is_external ∧
      renderPage p = .error "TypeError: url.startsWith is not a function") := by
  refine ⟨?_, ?_, ?_⟩
  · unfold isExternal
    cases hurl : p.url <;> simp
  · intro h
    obtain ⟨href, hhref⟩ := formatUrl_ok p.url h
    refine ⟨href, hhref, fun hext => ?_, fun hint => ?_⟩
    · rw [renderPage_ok p href hhref, hext]; rfl
    · rw [renderPage_ok p href hhref, hint]; rfl
  · intro htruthy hstr
    refine ⟨?_, renderPage_error p _ (formatUrl_error p.url htruthy hstr)⟩
    unfold isExternal
    cases hurl : p.url with
    | str s => exact absurd hurl (hstr s)
    | _ => simp

/-- C16 fails for a url that is not a string: a page whose flag is falsy and whose
url is the number 42 is classified internal and is not rendered as a link:
`formatUrl` calls `url.startsWith` without the `typeof` test of the
classification, so rendering the page, and with it the section, throws. -/
theorem renderPage_number_url :
    isExternal ⟨.num (.int 3), .str "Reports", .num (.int 42), .bool false⟩ = false ∧
    renderPage ⟨.num (.int 3), .str "Reports", .num (.int 42), .bool false⟩ =
      .error "TypeError: url.startsWith is not a function" ∧
    assignedPages false [⟨.num (.int 3), .str "Reports", .num (.int 42), .bool false⟩] =
      .error "TypeError: url.startsWith is not a function" :=
  ⟨rfl, rfl, rfl⟩

theorem listIncludes_excluded (name : JsVal) :
    listIncludes excludedPages name = true ↔
      name = .str "Activity Logs" ∨ name = .str "Company Website" ∨
        name = .str "Documentation" ∨ name = .str "Help Center" := by
  cases name <;> simp [listIncludes, excludedPages]

theorem renderPage_name (p : AssignedPage) (entry : Entry) (h : renderPage p = .ok entry) :
    entry.name = p.name ∧ entry.key = p.id := by
  cases hf : formatUrl p.url with
  | error e => rw [renderPage_error p e hf] at h; cases h
  | ok href =>
    rw [renderPage_ok p href hf] at h
    injection h with h
    subst h
    split <;> exact ⟨rfl, rfl⟩

theorem renderAll_names (pages : List AssignedPage) (entries : List Entry)
    (h : renderAll pages = .ok entries) :
    entries.map Entry.name = pages.map AssignedPage.name ∧
      entries.map Entry.key = pages.map AssignedPage.id := by
  induction pages generalizing entries with
  | nil =>
    simp only [renderAll] at h
    injection h with h
    subst h
    exact ⟨rfl, rfl⟩
  | cons p rest ih =>
    simp only [renderAll] at h
    cases hp : renderPage p with
    | error e => simp [hp] at h
    | ok entry =>
      cases hr : renderAll rest with
      | error e => simp [hp, hr] at h
      | ok tail =>
        simp only [hp, hr] at h
        injection h with h
        subst h
        obtain ⟨h1, h2⟩ := ih tail hr
        obtain ⟨h3, h4⟩ := renderPage_name p entry hp
        simp [h1, h2, h3, h4]

/-- C17. The pages rendered under "Assigned Pages" are those of the fetched list
whose name is none of "Activity Logs", "Company Website", "Documentation" and
"Help Center", in their original order: the filter keeps exactly these pages,
whatever their url and `is_external` flag, the kept pages are a sublist of the
fetched list, and the rendered list has one item for each kept page, in the same
order, with the name and the key of that page. -/
theorem shownPages_spec (myPages : List AssignedPage) :
    shownPages myPages = specShown myPages ∧
    (shownPages myPages).Sublist myPages ∧
    (∀ p, p ∈ shownPages myPages ↔
      p ∈ myPages ∧ p.name ≠ .str "Activity Logs" ∧ p.name ≠ .str "Company Website" ∧
        p.name ≠ .str "Documentation" ∧ p.name ≠ .str "Help Center") ∧
    (∀ entries, assignedPages false myPages = .ok (.list entries) →
      entries.map Entry.name = (shownPages myPages).map AssignedPage.name ∧
      entries.map Entry.key = (shownPages myPages).map AssignedPage.id) ∧
    ((∀ p ∈ myPages, truthy p.url = false ∨ ∃ url, p.url = .str url) → myPages ≠ [] →
      ∃ entries, assignedPages false myPages = .ok (.list entries)) := by
  have hfilter : ∀ p : AssignedPage, (!listIncludes excludedPages p.name) =
      decide (p.name ≠ .str "Activity Logs" ∧ p.name ≠ .str "Company Website" ∧
        p.name ≠ .str "Documentation" ∧ p.name ≠ .str "Help Center") := by
    intro p
    have h := listIncludes_excluded p.name
    by_cases hin : listIncludes excludedPages p.name = true
    · have := h.mp hin
      simp only [hin, Bool.not_true]
      symm
      rw [decide_eq_false_iff_not]
      tauto
    · rw [Bool.not_eq_true] at hin
      have hnot : ¬ (p.name = .str "Activity Logs" ∨ p.name = .str "Company Website" ∨
          p.name = .str "Documentation" ∨ p.name = .str "Help Center") := by
        intro hx
        have := h.mpr hx
        rw [hin] at this
        exact Bool.noConfusion this
      simp only [hin, Bool.not_false]
      symm
      rw [decide_eq_true_iff]
      tauto
  have hspec : shownPages myPages = specShown myPages := by
    unfold shownPages specShown
    exact List.filter_congr (fun p _ => hfilter p)
  refine ⟨hspec, List.filter_sublist _, ?_, ?_, ?_⟩
  · intro p
    rw [hspec]
    simp [specShown, List.mem_filter]
  · intro entries h
    unfold assignedPages at h
    simp only [Bool.false_eq_true, if_false] at h
    split at h
    · cases h
    · cases hr : renderAll (shownPages myPages) with
      | error e => simp [hr] at h
      | ok es =>
        simp only [hr] at h
        injection h with h
        injection h with h
        subst h
        exact renderAll_names _ _ hr
  · intro hurls hne
    have hall : ∀ pages : List AssignedPage,
        (∀ p ∈ pages, truthy p.url = false ∨ ∃ url, p.url = .str url) →
        ∃ entries, renderAll pages = .ok entries := by
      intro pages
      induction pages with
      | nil => intro _; exact ⟨[], rfl⟩
      | cons p rest ih =>
        intro hp
        obtain ⟨href, hhref⟩ := formatUrl_ok p.url (hp p (List.mem_cons_self _ _))
        obtain ⟨es, hes⟩ := ih (fun q hq => hp q (List.mem_cons_of_mem _ hq))
        refine ⟨(if isExternal p then .button p.id p.name href
          else .link p.id href p.name) :: es, ?_⟩
        simp only [renderAll, renderPage_ok p href hhref, hes]
    obtain ⟨es, hes⟩ := hall (shownPages myPages)
      (fun p hp => hurls p (List.mem_of_mem_filter hp))
    refine ⟨es, ?_⟩
    unfold assignedPages
    have hlen : ¬ myPages.length = 0 := by
      intro h0
      exact hne (List.length_eq_zero.mp h0)
    simp only [Bool.false_eq_true, if_false, hlen, hes]

theorem startsWith_append (s start : String) : startsWith (start ++ s) start = true := by
  simp [startsWith, String.data_append]

/-- C20. `formatUrl` returns `#` for a missing or empty url. For every non-empty
string url it returns a string that starts with `http://`, `https://` or `/`:
the url itself when it starts with one of the three, and `/` followed by the url
otherwise. Formatting the result again changes nothing. -/
theorem formatUrl_idempotent :
    formatUrl .undefined = .ok "#" ∧ formatUrl .null = .ok "#" ∧
    formatUrl (.str "") = .ok "#" ∧
    ∀ url : String, url ≠ "" →
      ∃ href, formatUrl (.str url) = .ok href ∧
        (startsWith href "http://" = true ∨ startsWith href "https://" = true ∨
          startsWith href "/" = true) ∧
        (startsWith url "http://" = true ∨ startsWith url "https://" = true ∨
          startsWith url "/" = true → href = url) ∧
        (startsWith url "http://" = false ∧ startsWith url "https://" = false ∧
          startsWith url "/" = false → href = "/" ++ url) ∧
        formatUrl (.str href) = .ok href := by
  refine ⟨rfl, rfl, rfl, ?_⟩
  intro url hne
  have htruthy : truthy (.str url) = true := by simp [truthy, hne]
  have hslash : startsWith ("/" ++ url) "/" = true := startsWith_append url "/"
  have hne2 : truthy (.str ("/" ++ url)) = true := by
    simp only [truthy, bne_iff_ne, ne_eq]
    intro h
    have := congrArg String.length h
    simp at this
    exact absurd this.1 (by decide)
  by_cases h1 : startsWith url "http://" = true
  · exact ⟨url, by simp [formatUrl, htruthy, h1], Or.inl h1, fun _ => rfl, by simp [h1],
      by simp [formatUrl, htruthy, h1]⟩
  by_cases h2 : startsWith url "https://" = true
  · exact ⟨url, by simp [formatUrl, htruthy, h2], Or.inr (Or.inl h2), fun _ => rfl,
      by simp [h2], by simp [formatUrl, htruthy, h2]⟩
  by_cases h3 : startsWith url "/" = true
  · exact ⟨url, by simp [formatUrl, htruthy, h1, h2, h3], Or.inr (Or.inr h3), fun _ => rfl,
      by simp [h3], by simp [formatUrl, htruthy, h1, h2, h3]⟩
  · refine ⟨"/" ++ url, by simp [formatUrl, htruthy, h1, h2, h3], Or.inr (Or.inr hslash),
      ?_, fun _ => rfl, ?_⟩
    · rintro (h | h | h) <;> simp_all
    · simp only [formatUrl, hne2, Bool.not_true, Bool.false_eq_true, if_false, hslash, if_true]
      split <;> rfl

theorem menuVisible_mono (roles1 roles2 : List Role) (h : ∀ role ∈ roles1, role ∈ roles2)
    (item : MenuItem) (hvis : menuVisible (some { roles := some roles1 }) item = true) :
    menuVisible (some { roles := some roles2 }) item = true := by
  simp only [menuVisible, Option.bind, List.any_eq_true] at hvis ⊢
  obtain ⟨role, hmem, hrole⟩ := hvis
  exact ⟨role, h role hmem, hrole⟩

/-- C21. The static menu filter is monotone in the roles of the user and keeps
the order of `menuItems`. When every role of a first list occurs in a second
one, every entry visible for the first list is visible for the second, and the
entries visible for the first are a subsequence of those visible for the second.
For every user the visible entries are a subsequence of `menuItems`, whose order
is Dashboard, Users, Roles, Pages. -/
theorem filteredMenuItems_monotone :
    (∀ roles1 roles2 : List Role, (∀ role ∈ roles1, role ∈ roles2) →
      (∀ item, item ∈ filteredMenuItems (some { roles := some roles1 }) →
        item ∈ filteredMenuItems (some { roles := some roles2 })) ∧
      (filteredMenuItems (some { roles := some roles1 })).Sublist
        (filteredMenuItems (some { roles := some roles2 }))) ∧
    (∀ user, (filteredMenuItems user).Sublist menuItems) ∧
    menuItems.map MenuItem.name = ["Dashboard", "Users", "Roles", "Pages"] := by
  refine ⟨fun roles1 roles2 h => ⟨fun item hitem => ?_, ?_⟩,
    fun user => List.filter_sublist _, rfl⟩
  · unfold filteredMenuItems at hitem ⊢
    rw [List.mem_filter] at hitem ⊢
    exact ⟨hitem.1, menuVisible_mono roles1 roles2 h item hitem.2⟩
  · unfold filteredMenuItems
    exact List.monotone_filter_right _ (fun item hvis => menuVisible_mono roles1 roles2 h item hvis)

theorem filteredMenuItems_monotone_witness :
    (filteredMenuItems (some { roles := some [.str "user"] })).Sublist
        (filteredMenuItems (some { roles := some [.obj (.str "admin"), .str "user"] })) ∧
    filteredMenuItems (some { roles := some [.str "user"] }) =
      [{ name := "Dashboard", path := "/dashboard",
         roles := ["Super Admin", "Admin", "Manager", "User"] }] ∧
    filteredMenuItems (some { roles := some [.obj (.str "admin"), .str "user"] }) =
      menuItems :=
  ⟨(filteredMenuItems_monotone.1 [.str "user"] [.obj (.str "admin"), .str "user"]
      (by decide)).2, by decide, by decide⟩

end Sidebar


namespace Path

theorem splitSlash_ne_nil (cs : List Char) : splitSlash cs ≠ [] := by
  cases cs with
  | nil => simp [splitSlash]
  | cons c cs =>
    unfold splitSlash
    split
    · simp
    · split <;> simp

theorem splitSlash_append (a b : List Char) :
    splitSlash (a ++ '/' :: b) = splitSlash a ++ splitSlash b := by
  induction a with
  | nil => simp [splitSlash]
  | cons c a ih =>
    by_cases hc : c = '/'
    · simp [splitSlash, hc, ih]
    · cases hs : splitSlash a with
      | nil => exact absurd hs (splitSlash_ne_nil a)
      | cons seg rest =>
        rw [hs] at ih
        simp [splitSlash, hc, ih, hs]

theorem splitSlash_segment (n : List Char) (h : '/' ∉ n) : splitSlash n = [n] := by
  induction n with
  | nil => rfl
  | cons c n ih =>
    have hc : c ≠ '/' := fun hc => h (hc ▸ List.mem_cons_self _ _)
    have hn : '/' ∉ n := fun hn => h (List.mem_cons_of_mem _ hn)
    simp [splitSlash, hc, ih hn]

theorem intercalate_cons_cons (sep a b : List Char) (rest : List (List Char)) :
    List.intercalate sep (a :: b :: rest) = a ++ sep ++ List.intercalate sep (b :: rest) := by
  simp [List.intercalate, List.intersperse]

theorem intercalate_snoc (sep : List Char) (segs : List (List Char)) (seg : List Char)
    (h : segs ≠ []) :
    List.intercalate sep (segs ++ [seg]) = List.intercalate sep segs ++ sep ++ seg := by
  induction segs with
  | nil => exact absurd rfl h
  | cons a rest ih =>
    cases rest with
    | nil => simp [List.intercalate, List.intersperse]
    | cons b rest =>
      have hrest := ih (by simp)
      rw [List.cons_append, List.cons_append, intercalate_cons_cons, ← List.cons_append, hrest,
        intercalate_cons_cons]
      simp only [List.append_assoc]

theorem pushSegment_plain (allowAboveRoot : Bool) (stack : List (List Char)) (seg : List Char)
    (h0 : seg ≠ []) (h1 : seg ≠ ['.']) (h2 : seg ≠ ['.', '.']) :
    pushSegment allowAboveRoot stack seg = seg :: stack := by
  simp [pushSegment, h0, h1, h2]

theorem pushSegment_empty (allowAboveRoot : Bool) (stack : List (List Char)) :
    pushSegment allowAboveRoot stack [] = stack := by
  simp [pushSegment]

theorem getLast?_snoc (cs : List Char) (c : Char) : (cs ++ [c]).getLast? = some c := by
  induction cs with
  | nil => rfl
  | cons a cs ih =>
    cases cs with
    | nil => rfl
    | cons b cs => simp [List.getLast?]

theorem normalize_data (cs : List Char) (hcs : cs ≠ [])
    (hbody : normalizeString cs (!decide (cs.head? = some '/')) ≠ []) :
    (normalize ⟨cs⟩).data =
      (if cs.head? = some '/' then ['/'] else []) ++
        normalizeString cs (!decide (cs.head? = some '/')) ++
        (if cs.getLast? = some '/' then ['/'] else []) := by
  unfold normalize
  simp only [hcs, if_false, hbody]
  split_ifs <;> simp

/-- Appending one plain segment to a path that ends in a plain segment and a
slash: `normalize` appends the segment to the normal form of the path. -/
theorem normalize_append_segment (p last n : List Char)
    (hl : '/' ∉ last) (hl0 : last ≠ []) (hl1 : last ≠ ['.']) (hl2 : last ≠ ['.', '.'])
    (hn : '/' ∉ n) (hn0 : n ≠ []) (hn1 : n ≠ ['.']) (hn2 : n ≠ ['.', '.']) :
    normalize ⟨(p ++ '/' :: (last ++ ['/'])) ++ '/' :: n⟩ =
      normalize ⟨p ++ '/' :: (last ++ ['/'])⟩ ++ ⟨n⟩ := by
  have hsplit : splitSlash (p ++ '/' :: (last ++ ['/'])) = splitSlash p ++ [last, []] := by
    rw [splitSlash_append, splitSlash_append, splitSlash_segment last hl]
    rfl
  have hsplit2 : splitSlash ((p ++ '/' :: (last ++ ['/'])) ++ '/' :: n) =
      splitSlash p ++ [last, []] ++ [n] := by
    rw [splitSlash_append, hsplit, splitSlash_segment n hn]
  have hcs : p ++ '/' :: (last ++ ['/']) ≠ [] := by simp
  have hfull : (p ++ '/' :: (last ++ ['/'])) ++ '/' :: n ≠ [] := by simp
  have hhead : ((p ++ '/' :: (last ++ ['/'])) ++ '/' :: n).head? =
      (p ++ '/' :: (last ++ ['/'])).head? := by
    cases p <;> simp
  have htrail : (p ++ '/' :: (last ++ ['/'])).getLast? = some '/' := by
    have h : p ++ '/' :: (last ++ ['/']) = (p ++ '/' :: last) ++ ['/'] := by simp
    rw [h, getLast?_snoc]
  have htrail2 : ((p ++ '/' :: (last ++ ['/'])) ++ '/' :: n).getLast? ≠ some '/' := by
    obtain ⟨front, c, rfl⟩ : ∃ front c, n = front ++ [c] :=
      ⟨n.dropLast, n.getLast hn0, (List.dropLast_append_getLast hn0).symm⟩
    have hc : c ≠ '/' := fun hc => hn (by simp [hc])
    have h : (p ++ '/' :: (last ++ ['/'])) ++ '/' :: (front ++ [c]) =
        ((p ++ '/' :: (last ++ ['/'])) ++ '/' :: front) ++ [c] := by simp
    rw [h, getLast?_snoc]
    simp [hc]
  have hstack : ∀ allow, (splitSlash (p ++ '/' :: (last ++ ['/']))).foldl (pushSegment allow) [] =
      last :: (splitSlash p).foldl (pushSegment allow) [] := by
    intro allow
    rw [hsplit, List.foldl_append]
    simp only [List.foldl_cons, List.foldl_nil, pushSegment_plain _ _ last hl0 hl1 hl2,
      pushSegment_empty]
  have hstack2 : ∀ allow,
      (splitSlash ((p ++ '/' :: (last ++ ['/'])) ++ '/' :: n)).foldl (pushSegment allow) [] =
        n :: last :: (splitSlash p).foldl (pushSegment allow) [] := by
    intro allow
    rw [hsplit2, List.foldl_append, ← hsplit, hstack]
    simp only [List.foldl_cons, List.foldl_nil, pushSegment_plain _ _ n hn0 hn1 hn2]
  have hbody : ∀ allow, normalizeString (p ++ '/' :: (last ++ ['/'])) allow ≠ [] := by
    intro allow
    simp only [normalizeString, hstack, List.reverse_cons]
    cases hrev : ((splitSlash p).foldl (pushSegment allow) []).reverse with
    | nil => simpa [List.intercalate, List.intersperse] using hl0
    | cons a rest =>
      rw [intercalate_snoc _ _ _ (by simp)]
      simp [hl0]
  have hbody2 : ∀ allow, normalizeString ((p ++ '/' :: (last ++ ['/'])) ++ '/' :: n) allow =
      normalizeString (p ++ '/' :: (last ++ ['/'])) allow ++ ['/'] ++ n := by
    intro allow
    simp only [normalizeString, hstack, hstack2, List.reverse_cons]
    rw [intercalate_snoc _ _ _ (by simp)]
  have hbody3 : ∀ allow,
      normalizeString ((p ++ '/' :: (last ++ ['/'])) ++ '/' :: n) allow ≠ [] := by
    intro allow
    rw [hbody2]
    simp
  apply String.ext
  rw [String.data_append, normalize_data _ hfull (hbody3 _), normalize_data _ hcs (hbody _),
    hhead, if_neg htrail2, htrail, hbody2]
  simp

/-- Joined to the uploads directory, a file name that is one plain segment gives
the normal form of the directory followed by the name. -/
theorem join_segment (dirname fileName : String) (hn : '/' ∉ fileName.data)
    (hn0 : fileName.data ≠ []) (hn1 : fileName.data ≠ ['.'])
    (hn2 : fileName.data ≠ ['.', '.']) :
    join [dirname, "../../uploads/icons/", fileName] =
      join [dirname, "../../uploads/icons/"] ++ fileName := by
  have hu0 : "../../uploads/icons/".data ≠ [] := by decide
  have hicons : '/' ∉ "icons".data ∧ "icons".data ≠ [] ∧ "icons".data ≠ ['.'] ∧
      "icons".data ≠ ['.', '.'] := by decide
  obtain ⟨hi, hi0, hi1, hi2⟩ := hicons
  by_cases hd : dirname.data = []
  · have hfull := normalize_append_segment "../../uploads".data "icons".data fileName.data
      hi hi0 hi1 hi2 hn hn0 hn1 hn2
    simp only [join, List.filter, hd, hu0, hn0, ne_eq, not_true_eq_false, not_false_eq_true,
      decide_True, decide_False, List.map, List.intercalate, List.intersperse,
      List.flatten_cons, List.flatten_nil, List.append_nil]
    simpa using hfull
  · have hfull := normalize_append_segment (dirname.data ++ '/' :: "../../uploads".data)
      "icons".data fileName.data hi hi0 hi1 hi2 hn hn0 hn1 hn2
    simp only [join, List.filter, hd, hu0, hn0, ne_eq, not_true_eq_false, not_false_eq_true,
      decide_True, decide_False, List.map, List.intercalate, List.intersperse,
      List.flatten_cons, List.flatten_nil, List.append_nil]
    simpa using hfull

end Path
/-! ### Reasoning about handlers

`Prog.Post m r Q` says that `Q` holds of the result of running `m` from `r`. The
`post_*` lemmas push it through the constructs the handlers are written in, one
branch per outcome of each call; `storeIcon` and `removeIcon` are summarised by
the events they add (`post_storeIcon`, `post_removeIcon`), which are all calls
into `fs` (`storeIcon_fs`, `removeIcon_fs`). A property of every run of a handler
is proved by rewriting with these lemmas and closing each branch by
simplification. -/

namespace PageController

open Js

variable {σ α β γ : Type}

theorem Prog.post_ret (a : α) (r : Run σ) (Q : Outcome α → Run σ → Prop) :
    (Prog.ret a).Post r Q ↔ Q (.ok a) r := Iff.rfl

theorem Prog.post_pure (a : α) (r : Run σ) (Q : Outcome α → Run σ → Prop) :
    Prog.Post (pure a) r Q ↔ Q (.ok a) r := Iff.rfl

theorem Prog.post_throw (e : JsError) (r : Run σ) (Q : Outcome α → Run σ → Prop) :
    (Prog.throw e).Post r Q ↔ Q (.threw e) r := Iff.rfl

theorem Prog.post_emit (ev : Event) (r : Run σ) (Q : Outcome Unit → Run σ → Prop) :
    (Prog.emit ev).Post r Q ↔ Q (.ok ()) { world := r.world, trace := r.trace ++ [ev] } :=
  Iff.rfl

theorem Prog.post_read (f : σ → α) (r : Run σ) (Q : Outcome α → Run σ → Prop) :
    (Prog.read f).Post r Q ↔ Q (.ok (f r.world)) r := Iff.rfl

theorem post_existsSync (C : Collab σ) (path : String) (r : Run σ)
    (Q : Outcome Bool → Run σ → Prop) :
    (existsSync C path).Post r Q ↔
      Q (.ok (C.existsSync path r.world))
        { world := r.world,
          trace := r.trace ++ [.existsSync path (C.existsSync path r.world)] } := Iff.rfl

theorem Prog.post_call (f : σ → Outcome α × σ) (ev : Outcome α → Event) (r : Run σ)
    (Q : Outcome α → Run σ → Prop) :
    (Prog.call f ev).Post r Q ↔
      (∀ a, (f r.world).1 = .ok a →
        Q (.ok a) { world := (f r.world).2, trace := r.trace ++ [ev (.ok a)] }) ∧
      (∀ e, (f r.world).1 = .threw e →
        Q (.threw e) { world := (f r.world).2, trace := r.trace ++ [ev (.threw e)] }) := by
  unfold Prog.Post Prog.call
  constructor
  · intro h
    constructor
    · intro a ha; simpa only [ha] using h
    · intro e he; simpa only [he] using h
  · rintro ⟨h1, h2⟩
    cases ho : (f r.world).1 with
    | ok a => exact h1 a ho
    | threw e => exact h2 e ho

theorem Prog.post_andThen (m : Prog σ α) (k : α → Prog σ β) (r : Run σ)
    (Q : Outcome β → Run σ → Prop) :
    (m.andThen k).Post r Q ↔
      m.Post r (fun o r1 =>
        match o with
        | .ok a => (k a).Post r1 Q
        | .threw e => Q (.threw e) r1) := by
  unfold Prog.Post Prog.andThen
  rcases m r with ⟨o, r1⟩
  cases o <;> exact Iff.rfl

theorem Prog.post_bind (m : Prog σ α) (k : α → Prog σ β) (r : Run σ)
    (Q : Outcome β → Run σ → Prop) :
    Prog.Post (m >>= k) r Q ↔
      m.Post r (fun o r1 =>
        match o with
        | .ok a => (k a).Post r1 Q
        | .threw e => Q (.threw e) r1) :=
  Prog.post_andThen m k r Q

theorem Prog.post_tryCatch (m : Prog σ α) (h : JsError → Prog σ α) (r : Run σ)
    (Q : Outcome α → Run σ → Prop) :
    (Prog.tryCatch m h).Post r Q ↔
      m.Post r (fun o r1 =>
        match o with
        | .ok a => Q (.ok a) r1
        | .threw e => (h e).Post r1 Q) := by
  unfold Prog.Post Prog.tryCatch
  rcases m r with ⟨o, r1⟩
  cases o <;> exact Iff.rfl

theorem Prog.post_ite (c : Prop) [Decidable c] (a b : Prog σ α) (r : Run σ)
    (Q : Outcome α → Run σ → Prop) :
    Prog.Post (if c then a else b) r Q ↔ (c → a.Post r Q) ∧ (¬ c → b.Post r Q) := by
  by_cases hc : c <;> simp [hc]

theorem responses_append (xs ys : List Event) :
    responses (xs ++ ys) = responses xs ++ responses ys := by
  induction xs with
  | nil => rfl
  | cons x xs ih => cases x <;> simp [responses, ih]

theorem post_createCatch (C : Collab σ) (e : JsError) (r : Run σ)
    (Q : Outcome Unit → Run σ → Prop) :
    (createCatch C e).Post r Q ↔
      Q (.ok ()) { world := r.world, trace := r.trace ++
        [.consoleError "Create page error:" e,
         .respond (catchResponse C "Failed to create page" e).1
           (catchResponse C "Failed to create page" e).2] } := by
  unfold createCatch catchResponse
  by_cases h : e.code = some "ER_DUP_ENTRY" <;>
    simp [h, respond, Prog.post_bind, Prog.post_ite, Prog.post_emit, Prog.post_pure]

theorem post_updateCatch (C : Collab σ) (e : JsError) (r : Run σ)
    (Q : Outcome Unit → Run σ → Prop) :
    (updateCatch C e).Post r Q ↔
      Q (.ok ()) { world := r.world, trace := r.trace ++
        [.consoleError "Update page error:" e,
         .respond (catchResponse C "Failed to update page" e).1
           (catchResponse C "Failed to update page" e).2] } := by
  unfold updateCatch catchResponse
  by_cases h : e.code = some "ER_DUP_ENTRY" <;>
    simp [h, respond, Prog.post_bind, Prog.post_ite, Prog.post_emit, Prog.post_pure]

theorem post_deleteCatch (C : Collab σ) (e : JsError) (r : Run σ)
    (Q : Outcome Unit → Run σ → Prop) :
    (deleteCatch C e).Post r Q ↔
      (e.message = none →
        Q (.threw (typeError "Cannot read properties of undefined (reading 'includes')"))
          { world := r.world, trace := r.trace ++ [.consoleError "Delete page error:" e] }) ∧
      (∀ message, e.message = some message →
        Q (.ok ()) { world := r.world, trace := r.trace ++
          [.consoleError "Delete page error:" e,
           .respond (deleteCatchResponse C e message).1 (deleteCatchResponse C e message).2] }) := by
  unfold deleteCatch deleteCatchResponse
  cases hm : e.message with
  | none => simp [Prog.post_bind, Prog.post_emit, Prog.post_throw]
  | some m =>
    by_cases h : strIncludes m "assigned roles" = true <;>
      simp [h, respond, Prog.post_bind, Prog.post_ite, Prog.post_emit, Prog.post_pure]

theorem post_of_traceBlind (m : Prog σ α) (hm : TraceBlind m) (r : Run σ)
    (Q : Outcome α → Run σ → Prop) :
    m.Post r Q ↔
      (∀ a, (m.fresh r.world).1 = .ok a →
        Q (.ok a) { world := (m.fresh r.world).2.world,
                    trace := r.trace ++ (m.fresh r.world).2.trace }) ∧
      (∀ e, (m.fresh r.world).1 = .threw e →
        Q (.threw e) { world := (m.fresh r.world).2.world,
                       trace := r.trace ++ (m.fresh r.world).2.trace }) := by
  unfold Prog.Post
  rw [hm r]
  constructor
  · intro h
    exact ⟨fun a ha => by simpa only [ha] using h, fun e he => by simpa only [he] using h⟩
  · rintro ⟨h1, h2⟩
    cases ho : (m.fresh r.world).1 with
    | ok a => exact h1 a ho
    | threw e => exact h2 e ho

theorem traceBlind_ret (a : α) : TraceBlind (Prog.ret a : Prog σ α) := by
  intro r; simp [Prog.fresh, Prog.ret]

theorem traceBlind_pure (a : α) : TraceBlind (pure a : Prog σ α) :=
  traceBlind_ret a

theorem traceBlind_throw (e : JsError) : TraceBlind (Prog.throw e : Prog σ α) := by
  intro r; simp [Prog.fresh, Prog.throw]

theorem traceBlind_emit (ev : Event) : TraceBlind (Prog.emit ev : Prog σ Unit) := by
  intro r; simp [Prog.fresh, Prog.emit]

theorem traceBlind_call (f : σ → Outcome α × σ) (ev : Outcome α → Event) :
    TraceBlind (Prog.call f ev) := by
  intro r; simp [Prog.fresh, Prog.call]

theorem traceBlind_read (f : σ → α) : TraceBlind (Prog.read f) := by
  intro r; simp [Prog.fresh, Prog.read]

theorem traceBlind_existsSync (C : Collab σ) (path : String) :
    TraceBlind (existsSync C path) := by
  intro r; simp [Prog.fresh, existsSync]

theorem traceBlind_andThen (m : Prog σ α) (k : α → Prog σ β) (hm : TraceBlind m)
    (hk : ∀ a, TraceBlind (k a)) : TraceBlind (m.andThen k) := by
  intro r
  simp only [Prog.fresh, Prog.andThen]
  rw [hm r]
  cases ho : (m.fresh r.world).1 with
  | threw e =>
    have h0 : m { world := r.world, trace := [] } = (.threw e, (m.fresh r.world).2) := by
      rw [← ho]; rfl
    simp [h0]
  | ok a =>
    have h0 : m { world := r.world, trace := [] } = (.ok a, (m.fresh r.world).2) := by
      rw [← ho]; rfl
    simp only [h0]
    rw [hk a _, hk a (m.fresh r.world).2]
    simp

theorem traceBlind_bind (m : Prog σ α) (k : α → Prog σ β) (hm : TraceBlind m)
    (hk : ∀ a, TraceBlind (k a)) : TraceBlind (m >>= k) :=
  traceBlind_andThen m k hm hk

theorem traceBlind_ite (c : Prop) [Decidable c] (a b : Prog σ α) (ha : TraceBlind a)
    (hb : TraceBlind b) : TraceBlind (if c then a else b) := by
  split
  · exact ha
  · exact hb

theorem storeIcon_traceBlind (C : Collab σ) (iconFile : IconFile) :
    TraceBlind (storeIcon C iconFile) := by
  unfold storeIcon
  refine traceBlind_bind _ _ (traceBlind_read _) (fun now => ?_)
  refine traceBlind_bind _ _ (traceBlind_existsSync _ _) (fun found => ?_)
  have hmv : TraceBlind (do
      Prog.call (C.mv iconFile (Path.join [C.dirname, "../../uploads/icons/",
          iconFileName now iconFile]))
        (Event.mv iconFile (Path.join [C.dirname, "../../uploads/icons/",
          iconFileName now iconFile]))
      pure (iconFileName now iconFile) : Prog σ String) :=
    traceBlind_bind _ _ (traceBlind_call _ _) (fun _ => traceBlind_pure _)
  simp only []
  split
  · exact traceBlind_bind _ _ (traceBlind_call _ _) (fun _ => hmv)
  · exact traceBlind_bind _ _ (traceBlind_pure _) (fun _ => hmv)

theorem removeIcon_traceBlind (C : Collab σ) (existingPage : Page) :
    TraceBlind (removeIcon C existingPage) := by
  unfold removeIcon
  split
  · split
    · refine traceBlind_bind _ _ (traceBlind_existsSync _ _) (fun found => ?_)
      split
      · exact traceBlind_call _ _
      · exact traceBlind_pure _
    · exact traceBlind_throw _
  · exact traceBlind_pure _

theorem storeIcon_name (C : Collab σ) (iconFile : IconFile) (w : σ) (name : String)
    (h : ((storeIcon C iconFile).fresh w).1 = .ok name) :
    name = iconFileName (C.dateNow w) iconFile := by
  revert h
  show (storeIcon C iconFile).Post ⟨w, []⟩ (fun o _ => o = .ok name → _)
  simp only [storeIcon, Prog.post_bind, Prog.post_ite, Prog.post_call, Prog.post_read,
    post_existsSync, Prog.post_pure]
  simp
  exact ⟨fun _ _ _ _ _ h => h.symm, fun _ _ _ h => h.symm⟩

/-- Running `storeIcon`: the outcome and the events it adds. -/
theorem post_storeIcon (C : Collab σ) (iconFile : IconFile) (r : Run σ)
    (Q : Outcome String → Run σ → Prop) :
    (storeIcon C iconFile).Post r Q ↔
      (((storeIcon C iconFile).fresh r.world).1 =
          .ok (iconFileName (C.dateNow r.world) iconFile) →
        Q (.ok (iconFileName (C.dateNow r.world) iconFile))
          { world := ((storeIcon C iconFile).fresh r.world).2.world,
            trace := r.trace ++ ((storeIcon C iconFile).fresh r.world).2.trace }) ∧
      (∀ e, ((storeIcon C iconFile).fresh r.world).1 = .threw e →
        Q (.threw e) { world := ((storeIcon C iconFile).fresh r.world).2.world,
                       trace := r.trace ++ ((storeIcon C iconFile).fresh r.world).2.trace }) := by
  rw [post_of_traceBlind _ (storeIcon_traceBlind C iconFile) r Q]
  refine and_congr_left (fun _ => ?_)
  constructor
  · intro h hok
    exact h _ hok
  · intro h a ha
    have hname := storeIcon_name C iconFile r.world a ha
    subst hname
    exact h ha

/-- Running `removeIcon`: the outcome and the events it adds. -/
theorem post_removeIcon (C : Collab σ) (existingPage : Page) (r : Run σ)
    (Q : Outcome Unit → Run σ → Prop) :
    (removeIcon C existingPage).Post r Q ↔
      (∀ a, ((removeIcon C existingPage).fresh r.world).1 = .ok a →
        Q (.ok a) { world := ((removeIcon C existingPage).fresh r.world).2.world,
                    trace := r.trace ++ ((removeIcon C existingPage).fresh r.world).2.trace }) ∧
      (∀ e, ((removeIcon C existingPage).fresh r.world).1 = .threw e →
        Q (.threw e) { world := ((removeIcon C existingPage).fresh r.world).2.world,
                       trace := r.trace ++ ((removeIcon C existingPage).fresh r.world).2.trace }) :=
  post_of_traceBlind _ (removeIcon_traceBlind C existingPage) r Q

theorem storeIcon_fs (C : Collab σ) (iconFile : IconFile) (w : σ) :
    ((storeIcon C iconFile).fresh w).2.trace.all Event.isFs = true := by
  show (storeIcon C iconFile).Post ⟨w, []⟩ (fun _ r => r.trace.all Event.isFs = true)
  simp only [storeIcon, Prog.post_bind, Prog.post_ite, Prog.post_call, Prog.post_read,
    post_existsSync, Prog.post_pure]
  simp [Event.isFs]

theorem removeIcon_fs (C : Collab σ) (existingPage : Page) (w : σ) :
    ((removeIcon C existingPage).fresh w).2.trace.all Event.isFs = true := by
  show (removeIcon C existingPage).Post ⟨w, []⟩ (fun _ r => r.trace.all Event.isFs = true)
  unfold removeIcon
  split
  · split
    · simp only [Prog.post_bind, Prog.post_ite, Prog.post_call, post_existsSync, Prog.post_pure]
      simp [Event.isFs]
    · simp [Prog.post_throw]
  · simp [Prog.post_pure]

theorem responses_fs (seg : List Event) (h : seg.all Event.isFs = true) : responses seg = [] := by
  induction seg with
  | nil => rfl
  | cons ev rest ih =>
    simp only [List.all_cons, Bool.and_eq_true] at h
    cases ev <;> simp_all [Event.isFs, responses]

theorem afterLog_fs (seg rest : List Event) (h : seg.all Event.isFs = true) :
    afterLog (seg ++ rest) = afterLog rest := by
  induction seg with
  | nil => rfl
  | cons ev tail ih =>
    simp only [List.all_cons, Bool.and_eq_true] at h
    cases ev <;> simp_all [Event.isFs, afterLog, Event.isLog]

theorem logsFollowMutation_fs (seg rest : List Event) (h : seg.all Event.isFs = true) :
    logsFollowMutation (seg ++ rest) = logsFollowMutation rest := by
  induction seg with
  | nil => rfl
  | cons ev tail ih =>
    simp only [List.all_cons, Bool.and_eq_true] at h
    cases ev <;> simp_all [Event.isFs, logsFollowMutation, Event.isLog, Event.isMutationOk]

theorem mem_fs (seg : List Event) (h : seg.all Event.isFs = true) (ev : Event)
    (hev : ev.isFs = false) : ev ∉ seg := by
  intro hmem
  rw [List.all_eq_true] at h
  rw [h ev hmem] at hev
  exact Bool.noConfusion hev


/-- C3. When `Page.create` rejects the insert of a `createPage` request with an
error whose code is `ER_DUP_ENTRY`, the one response sent is status 400 with
`success: false` and the message "Page URL already exists"; it is not the generic
500 "Failed to create page". -/
theorem createPage_duplicate_url (C : Collab σ) (req : Request) (w : σ) (data : PageData)
    (e : JsError) (hcode : e.code = some "ER_DUP_ENTRY")
    (h : Event.create data (.threw e) ∈ traceOf (createPage C req) w) :
    responses (traceOf (createPage C req) w) =
      [(400, .envelope false "Page URL already exists" .absent none)] := by
  revert h
  show (createPage C req).Post ⟨w, []⟩ (fun _ r => Event.create data (.threw e) ∈ r.trace →
    responses r.trace = [(400, .envelope false "Page URL already exists" .absent none)])
  rcases req with ⟨id, pageUrl, query, body, verrs, icon, user⟩
  cases user <;> cases icon <;>
  simp only [createPage, respond, reqUser, typeError, post_storeIcon, post_createCatch,
    Prog.post_tryCatch, Prog.post_bind, Prog.post_ite, Prog.post_call, Prog.post_emit,
    Prog.post_ret, Prog.post_pure, Prog.post_throw] <;>
  (repeat' (first | apply And.intro | intro _)) <;>
  simp_all [responses_append, responses, responses_fs, storeIcon_fs, mem_fs, Event.isFs,
    catchResponse]

theorem createPage_duplicate_url_witness :
    responses (traceOf (createPage (Store.collab none) Sample.createDocs) Sample.docsWorld) =
      [(400, .envelope false "Page URL already exists" .absent none)] :=
  createPage_duplicate_url (Store.collab none) Sample.createDocs Sample.docsWorld
    { name := .str "Docs", url := .str "/docs", icon := .null, is_external := .bool false,
      status := .str "active", created_by := .num (.int 7) }
    Store.dupEntry rfl (by decide)


/-- C4. When `Page.delete` throws an error whose message contains "assigned
roles", `deletePage` has found the page, made that one call, logged the error and
answered status 400 "Cannot delete page with assigned roles", and nothing else:
no icon file is unlinked, no activity is logged, and the world is the one
`Page.delete` left when it refused. -/
theorem deletePage_assigned_roles (C : Collab σ) (req : Request) (w : σ) (id : JsVal)
    (e : JsError) (message : String) (hmsg : e.message = some message)
    (hinc : strIncludes message "assigned roles" = true)
    (h : Event.delete id (.threw e) ∈ traceOf (deletePage C req) w) :
    (∃ page, traceOf (deletePage C req) w =
      [.findById (.str req.id) (.ok (some page)), .delete (.str req.id) (.threw e),
       .consoleError "Delete page error:" e,
       .respond 400 (.envelope false "Cannot delete page with assigned roles" .absent none)]) ∧
    (run (deletePage C req) w).2.world =
      (C.delete (.str req.id) (C.findById (.str req.id) w).2).2 := by
  revert h
  show (deletePage C req).Post ⟨w, []⟩ (fun _ r => Event.delete id (.threw e) ∈ r.trace →
    (∃ page, r.trace =
      [.findById (.str req.id) (.ok (some page)), .delete (.str req.id) (.threw e),
       .consoleError "Delete page error:" e,
       .respond 400 (.envelope false "Cannot delete page with assigned roles" .absent none)]) ∧
    r.world = (C.delete (.str req.id) (C.findById (.str req.id) w).2).2)
  rcases req with ⟨rid, pageUrl, query, body, verrs, icon, user⟩
  cases user <;>
  simp only [deletePage, respond, reqUser, typeError, post_removeIcon, post_deleteCatch,
    Prog.post_tryCatch, Prog.post_bind, Option.forall, Bool.forall_bool,
    Prog.post_ite, Prog.post_call, Prog.post_emit, Prog.post_ret, Prog.post_pure,
    Prog.post_throw] <;>
  (repeat' (first | apply And.intro | intro _)) <;>
  simp_all [removeIcon_fs, mem_fs, Event.isFs, deleteCatchResponse]

theorem deletePage_assigned_roles_witness :
    (∃ page, traceOf (deletePage (Store.collab none) Sample.deleteDocs) Sample.assignedWorld =
      [.findById (.str "1") (.ok (some page)),
       .delete (.str "1")
         (.threw { code := none, message := some "Cannot delete page with assigned roles" }),
       .consoleError "Delete page error:"
         { code := none, message := some "Cannot delete page with assigned roles" },
       .respond 400 (.envelope false "Cannot delete page with assigned roles" .absent none)]) ∧
    (run (deletePage (Store.collab none) Sample.deleteDocs) Sample.assignedWorld).2.world =
      Sample.assignedWorld :=
  deletePage_assigned_roles (Store.collab none) Sample.deleteDocs Sample.assignedWorld (.str "1")
    { code := none, message := some "Cannot delete page with assigned roles" }
    "Cannot delete page with assigned roles" rfl (by decide) (by decide)
theorem catchResponse_status (C : Collab σ) (generic : String) (e : JsError) :
    400 ≤ (catchResponse C generic e).1 := by
  unfold catchResponse
  split <;> simp

theorem createPage_invalid_icon (C : Collab σ) (req : Request) (w : σ) (iconFile : IconFile)
    (hicon : req.icon = some iconFile)
    (hmime : listIncludes allowedTypes iconFile.mimetype = false) :
    (∀ ev ∈ traceOf (createPage C req) w,
      ev.isFsWrite = false ∧ ev.isMutation = false ∧ ev.isLog = false) ∧
    (∀ response ∈ responses (traceOf (createPage C req) w), 400 ≤ response.1) ∧
    (req.validationErrors = [] → req.user ≠ none →
      traceOf (createPage C req) w = [.respond 400 invalidFileType] ∧
      (run (createPage C req) w).2.world = w) := by
  rcases req with ⟨rid, pageUrl, query, body, verrs, icon, user⟩
  simp only at hicon
  subst hicon
  show (createPage C _).Post ⟨w, []⟩ (fun _ r =>
    (∀ ev ∈ r.trace, ev.isFsWrite = false ∧ ev.isMutation = false ∧ ev.isLog = false) ∧
    (∀ response ∈ responses r.trace, 400 ≤ response.1) ∧
    (verrs = [] → user ≠ none → r.trace = [.respond 400 invalidFileType] ∧ r.world = w))
  cases user <;>
  simp only [createPage, respond, reqUser, typeError, post_createCatch, Prog.post_tryCatch,
    Prog.post_bind, Prog.post_ite, Prog.post_emit, Prog.post_ret, Prog.post_pure,
    Prog.post_throw, hmime] <;>
  simp +contextual [Event.isFsWrite, Event.isMutation, Event.isLog, responses,
    catchResponse_status]

theorem updatePage_invalid_icon (C : Collab σ) (req : Request) (w : σ) (iconFile : IconFile)
    (hicon : req.icon = some iconFile)
    (hmime : listIncludes allowedTypes iconFile.mimetype = false) :
    (∀ ev ∈ traceOf (updatePage C req) w,
      ev.isFsWrite = false ∧ ev.isMutation = false ∧ ev.isLog = false) ∧
    (∀ response ∈ responses (traceOf (updatePage C req) w), 400 ≤ response.1) ∧
    (req.validationErrors = [] →
      ∀ page, (C.findById (.str req.id) w).1 = .ok (some page) →
        traceOf (updatePage C req) w =
          [.findById (.str req.id) (.ok (some page)), .respond 400 invalidFileType] ∧
        (run (updatePage C req) w).2.world = (C.findById (.str req.id) w).2) := by
  rcases req with ⟨rid, pageUrl, query, body, verrs, icon, user⟩
  simp only at hicon
  subst hicon
  show (updatePage C _).Post ⟨w, []⟩ (fun _ r =>
    (∀ ev ∈ r.trace, ev.isFsWrite = false ∧ ev.isMutation = false ∧ ev.isLog = false) ∧
    (∀ response ∈ responses r.trace, 400 ≤ response.1) ∧
    (verrs = [] → ∀ page, (C.findById (.str rid) w).1 = .ok (some page) →
      r.trace = [.findById (.str rid) (.ok (some page)), .respond 400 invalidFileType] ∧
      r.world = (C.findById (.str rid) w).2))
  simp only [updatePage, respond, typeError, post_updateCatch, Prog.post_tryCatch,
    Prog.post_bind, Prog.post_call, Option.forall, Prog.post_ite, Prog.post_emit,
    Prog.post_ret, Prog.post_pure, Prog.post_throw, hmime]
  simp +contextual [Event.isFsWrite, Event.isMutation, Event.isLog, responses,
    catchResponse_status]

/-- C5. A `createPage` or `updatePage` request whose icon file has a MIME type
outside the allow-list is rejected before any write: it causes no file-system
write (no directory is created, no file is moved, none is unlinked), no call of
`Page.create`, `Page.update` or `Page.delete` and no activity log call, and every
response to it is an error (status 400 or above). When it reaches the icon check,
having passed validation (and, for `createPage`, carrying a user; for
`updatePage`, naming an existing page), the handler answers 400 "Invalid file
type..." having done nothing but, in `updatePage`, read the page. -/
theorem invalid_icon_rejected (C : Collab σ) (req : Request) (w : σ) (iconFile : IconFile)
    (hicon : req.icon = some iconFile)
    (hmime : listIncludes allowedTypes iconFile.mimetype = false) :
    (∀ ev ∈ traceOf (createPage C req) w,
      ev.isFsWrite = false ∧ ev.isMutation = false ∧ ev.isLog = false) ∧
    (∀ response ∈ responses (traceOf (createPage C req) w), 400 ≤ response.1) ∧
    (∀ response ∈ responses (traceOf (updatePage C req) w), 400 ≤ response.1) ∧
    (req.validationErrors = [] → req.user ≠ none →
      traceOf (createPage C req) w = [.respond 400 invalidFileType] ∧
      (run (createPage C req) w).2.world = w) ∧
    (∀ ev ∈ traceOf (updatePage C req) w,
      ev.isFsWrite = false ∧ ev.isMutation = false ∧ ev.isLog = false) ∧
    (req.validationErrors = [] →
      ∀ page, (C.findById (.str req.id) w).1 = .ok (some page) →
        traceOf (updatePage C req) w =
          [.findById (.str req.id) (.ok (some page)), .respond 400 invalidFileType] ∧
        (run (updatePage C req) w).2.world = (C.findById (.str req.id) w).2) :=
  have hc := createPage_invalid_icon C req w iconFile hicon hmime
  have hu := updatePage_invalid_icon C req w iconFile hicon hmime
  ⟨hc.1, hc.2.1, hu.2.1, hc.2.2, hu.1, hu.2.2⟩

theorem invalid_icon_rejected_witness :
    (∀ ev ∈ traceOf (createPage (Store.collab none) Sample.updateTextIcon) Sample.docsWorld,
      ev.isFsWrite = false ∧ ev.isMutation = false ∧ ev.isLog = false) ∧
    (∀ response ∈
      responses (traceOf (createPage (Store.collab none) Sample.updateTextIcon) Sample.docsWorld),
      400 ≤ response.1) ∧
    (∀ response ∈
      responses (traceOf (updatePage (Store.collab none) Sample.updateTextIcon) Sample.docsWorld),
      400 ≤ response.1) ∧
    (Sample.updateTextIcon.validationErrors = [] → Sample.updateTextIcon.user ≠ none →
      traceOf (createPage (Store.collab none) Sample.updateTextIcon) Sample.docsWorld =
        [.respond 400 invalidFileType] ∧
      (run (createPage (Store.collab none) Sample.updateTextIcon) Sample.docsWorld).2.world =
        Sample.docsWorld) ∧
    (∀ ev ∈ traceOf (updatePage (Store.collab none) Sample.updateTextIcon) Sample.docsWorld,
      ev.isFsWrite = false ∧ ev.isMutation = false ∧ ev.isLog = false) ∧
    (Sample.updateTextIcon.validationErrors = [] →
      ∀ page, (Store.findById (.str Sample.updateTextIcon.id) Sample.docsWorld).1 =
          .ok (some page) →
        traceOf (updatePage (Store.collab none) Sample.updateTextIcon) Sample.docsWorld =
          [.findById (.str Sample.updateTextIcon.id) (.ok (some page)),
           .respond 400 invalidFileType] ∧
        (run (updatePage (Store.collab none) Sample.updateTextIcon) Sample.docsWorld).2.world =
          (Store.findById (.str Sample.updateTextIcon.id) Sample.docsWorld).2) :=
  invalid_icon_rejected (Store.collab none) Sample.updateTextIcon Sample.docsWorld
    { name := "notes.txt", mimetype := .str "text/plain" } rfl (by decide)

theorem Obj.lookup_set (o : Obj) (key : String) (value : JsVal) (k : String) :
    List.lookup k (Obj.set o key value) = if k = key then some value else List.lookup k o := by
  induction o with
  | nil =>
    by_cases h : k = key
    · simp [Obj.set, List.lookup, h]
    · have hb : (k == key) = false := by simpa using h
      simp [Obj.set, List.lookup, h, hb]
  | cons kv rest ih =>
    obtain ⟨k1, v1⟩ := kv
    by_cases h1 : k1 = key
    · subst h1
      by_cases h : k = k1
      · simp [Obj.set, List.lookup, h]
      · have hb : (k == k1) = false := by simpa using h
        simp [Obj.set, List.lookup, h, hb]
    · by_cases h : k = k1
      · subst h
        simp [Obj.set, List.lookup, h1]
      · have hb : (k == k1) = false := by simpa using h
        simp [Obj.set, List.lookup, h1, hb, ih]

theorem Obj.keys_set (o : Obj) (key : String) (value : JsVal) :
    (Obj.set o key value).map Prod.fst =
      if key ∈ o.map Prod.fst then o.map Prod.fst else o.map Prod.fst ++ [key] := by
  induction o with
  | nil => simp [Obj.set]
  | cons kv rest ih =>
    obtain ⟨k1, v1⟩ := kv
    by_cases h1 : k1 = key
    · subst h1
      simp [Obj.set]
    · have h2 : ¬ key = k1 := fun h => h1 h.symm
      by_cases hm : key ∈ rest.map Prod.fst
      · simp only [Obj.set, h1, if_false, List.map_cons, ih, hm, if_true, List.mem_cons, or_true]
      · simp only [Obj.set, h1, if_false, List.map_cons, ih, hm, List.mem_cons, h2, or_self,
          List.cons_append]

theorem Obj.nodup_set (o : Obj) (key : String) (value : JsVal)
    (h : (o.map Prod.fst).Nodup) : ((Obj.set o key value).map Prod.fst).Nodup := by
  rw [Obj.keys_set]
  split
  · exact h
  · rename_i hk
    rw [List.nodup_append]
    refine ⟨h, List.nodup_singleton _, ?_⟩
    intro a ha hb
    rw [List.mem_singleton] at hb
    exact hk (hb ▸ ha)

theorem bodyPatch_lookup (name url is_external status : JsVal) (key : String) :
    List.lookup key (bodyPatch name url is_external status) =
      if key = "status" then (if status = .undefined then none else some status)
      else if key = "is_external" then
        (if is_external = .undefined then none else some is_external)
      else if key = "url" then (if url = .undefined then none else some url)
      else if key = "name" then (if name = .undefined then none else some name)
      else none := by
  unfold bodyPatch
  by_cases h1 : name = .undefined <;> by_cases h2 : url = .undefined <;>
    by_cases h3 : is_external = .undefined <;> by_cases h4 : status = .undefined <;>
    simp only [h1, h2, h3, h4, ne_eq, not_true_eq_false, not_false_eq_true, if_true, if_false,
      Obj.lookup_set, List.lookup_nil] <;>
    split_ifs <;> first | rfl | simp_all

theorem bodyPatch_nodup (name url is_external status : JsVal) :
    ((bodyPatch name url is_external status).map Prod.fst).Nodup := by
  unfold bodyPatch
  have h0 : ((([] : Obj)).map Prod.fst).Nodup := List.nodup_nil
  by_cases h1 : name = .undefined <;> by_cases h2 : url = .undefined <;>
    by_cases h3 : is_external = .undefined <;> by_cases h4 : status = .undefined <;>
    simp only [h1, h2, h3, h4, ne_eq, not_true_eq_false, not_false_eq_true, if_true, if_false] <;>
    first
    | exact h0
    | exact Obj.nodup_set _ _ _ h0
    | exact Obj.nodup_set _ _ _ (Obj.nodup_set _ _ _ h0)
    | exact Obj.nodup_set _ _ _ (Obj.nodup_set _ _ _ (Obj.nodup_set _ _ _ h0))
    | exact Obj.nodup_set _ _ _ (Obj.nodup_set _ _ _ (Obj.nodup_set _ _ _ (Obj.nodup_set _ _ _ h0)))

/-- The patch `updatePage` hands to `Page.update`, read off the request. -/
theorem updatePage_patch_eq (C : Collab σ) (req : Request) (w : σ) (id : JsVal) (patch : Obj)
    (res : Outcome (Option Page)) (h : Event.update id patch res ∈ traceOf (updatePage C req) w) :
    id = .str req.id ∧
    patch = (match req.icon with
      | none => bodyPatch req.body.name req.body.url req.body.is_external req.body.status
      | some iconFile =>
        (bodyPatch req.body.name req.body.url req.body.is_external req.body.status).set "icon"
          (.str ("/uploads/icons/" ++
            iconFileName (C.dateNow (C.findById (.str req.id) w).2) iconFile))) ∧
    (∀ iconFile, req.icon = some iconFile →
      listIncludes allowedTypes iconFile.mimetype = true) := by
  revert h
  show (updatePage C req).Post ⟨w, []⟩ (fun _ r => Event.update id patch res ∈ r.trace → _)
  rcases req with ⟨rid, pageUrl, query, body, verrs, icon, user⟩
  cases user <;> cases icon <;>
  simp only [updatePage, respond, reqUser, typeError, post_storeIcon, post_removeIcon,
    post_updateCatch, Prog.post_tryCatch, Prog.post_bind, Option.forall,
    Prog.post_ite, Prog.post_call, Prog.post_emit, Prog.post_ret, Prog.post_pure,
    Prog.post_throw] <;>
  (repeat' (first | apply And.intro | intro _)) <;>
  simp_all [storeIcon_fs, removeIcon_fs, mem_fs, Event.isFs]

/-- C6. The patch `updatePage` hands to `Page.update` holds `name`, `url`,
`is_external`, `status` exactly when the field of the request body is not
`undefined` (an explicit `null` is included and carries `null`), each with the
value of the body; it holds `icon` exactly when an icon file was uploaded, which
then had an allowed type, with the path the file was stored under; it holds no
other key, and no key twice. -/
theorem updatePage_patch (C : Collab σ) (req : Request) (w : σ) (id : JsVal) (patch : Obj)
    (res : Outcome (Option Page)) (h : Event.update id patch res ∈ traceOf (updatePage C req) w) :
    (List.lookup "name" patch =
      if req.body.name = .undefined then none else some req.body.name) ∧
    (List.lookup "url" patch =
      if req.body.url = .undefined then none else some req.body.url) ∧
    (List.lookup "is_external" patch =
      if req.body.is_external = .undefined then none else some req.body.is_external) ∧
    (List.lookup "status" patch =
      if req.body.status = .undefined then none else some req.body.status) ∧
    (List.lookup "icon" patch = req.icon.map (fun iconFile =>
      JsVal.str ("/uploads/icons/" ++
        iconFileName (C.dateNow (C.findById (.str req.id) w).2) iconFile))) ∧
    (∀ iconFile, req.icon = some iconFile →
      listIncludes allowedTypes iconFile.mimetype = true) ∧
    (∀ key, key ∉ ["name", "url", "is_external", "status", "icon"] →
      List.lookup key patch = none) ∧
    (patch.map Prod.fst).Nodup := by
  obtain ⟨-, hpatch, hvalid⟩ := updatePage_patch_eq C req w id patch res h
  subst hpatch
  cases hicon : req.icon with
  | none =>
    simp only [bodyPatch_lookup, Option.map_none']
    refine ⟨by simp, by simp, by simp, by simp, by simp, ?_, ?_, bodyPatch_nodup _ _ _ _⟩
    · intro iconFile hf; exact absurd hf (by simp)
    · intro key hkey
      simp only [List.mem_cons, List.mem_singleton, List.not_mem_nil, or_false, not_or] at hkey
      simp [hkey.1, hkey.2.1, hkey.2.2.1, hkey.2.2.2.1]
  | some iconFile =>
    simp only [Obj.lookup_set, bodyPatch_lookup, Option.map_some']
    refine ⟨by simp, by simp, by simp, by simp, by simp, ?_, ?_,
      Obj.nodup_set _ _ _ (bodyPatch_nodup _ _ _ _)⟩
    · intro f hf; exact hvalid f (hicon ▸ hf)
    · intro key hkey
      simp only [List.mem_cons, List.mem_singleton, List.not_mem_nil, or_false, not_or] at hkey
      simp [hkey.1, hkey.2.1, hkey.2.2.1, hkey.2.2.2.1, hkey.2.2.2.2]

theorem updatePage_patch_witness :
    (List.lookup "name" [("name", JsVal.str "Manual"), ("status", JsVal.null)] =
      if Sample.updateRename.body.name = .undefined then none
      else some Sample.updateRename.body.name) ∧
    (List.lookup "url" [("name", JsVal.str "Manual"), ("status", JsVal.null)] =
      if Sample.updateRename.body.url = .undefined then none
      else some Sample.updateRename.body.url) ∧
    (List.lookup "is_external" [("name", JsVal.str "Manual"), ("status", JsVal.null)] =
      if Sample.updateRename.body.is_external = .undefined then none
      else some Sample.updateRename.body.is_external) ∧
    (List.lookup "status" [("name", JsVal.str "Manual"), ("status", JsVal.null)] =
      if Sample.updateRename.body.status = .undefined then none
      else some Sample.updateRename.body.status) ∧
    (List.lookup "icon" [("name", JsVal.str "Manual"), ("status", JsVal.null)] =
      Sample.updateRename.icon.map (fun iconFile =>
        JsVal.str ("/uploads/icons/" ++
          iconFileName ((Store.collab none).dateNow
            ((Store.collab none).findById (.str Sample.updateRename.id) Sample.docsWorld).2)
            iconFile))) ∧
    (∀ iconFile, Sample.updateRename.icon = some iconFile →
      listIncludes allowedTypes iconFile.mimetype = true) ∧
    (∀ key, key ∉ ["name", "url", "is_external", "status", "icon"] →
      List.lookup key [("name", JsVal.str "Manual"), ("status", JsVal.null)] = none) ∧
    (([("name", JsVal.str "Manual"), ("status", JsVal.null)] : Obj).map Prod.fst).Nodup :=
  updatePage_patch (Store.collab none) Sample.updateRename Sample.docsWorld (.str "1")
    [("name", .str "Manual"), ("status", .null)]
    (.ok (some { Sample.docsPage with name := .str "Manual", status := .null }))
    (by decide)

/-- C7. Over the store that follows the specification: `updatePage` with an empty
patch (no `name`, `url`, `is_external`, `status` in the body and no icon file) on
an existing page leaves every row of the `pages` table and every file as it was,
hands `Page.update` the empty patch, and answers 200 with the unmodified page in
`data.page`. -/
theorem updatePage_empty_patch (nodeEnv : Option String) (w : Store.World) (req : Request)
    (page : Page) (user : ReqUser)
    (hval : req.validationErrors = []) (hbody : req.body = {}) (hicon : req.icon = none)
    (huser : req.user = some user)
    (hfind : w.pages.find? (fun p => Store.sameId p.id (.str req.id)) = some page) :
    (run (updatePage (Store.collab nodeEnv) req) w).2.world.pages = w.pages ∧
    (run (updatePage (Store.collab nodeEnv) req) w).2.world.files = w.files ∧
    Event.update (.str req.id) [] (.ok (some page)) ∈
      traceOf (updatePage (Store.collab nodeEnv) req) w ∧
    responses (traceOf (updatePage (Store.collab nodeEnv) req) w) =
      [(200, .envelope true "Page updated successfully" (.page (some page)) none)] := by
  rcases req with ⟨rid, pageUrl, query, body, verrs, icon, ruser⟩
  simp only at hval hbody hicon huser hfind
  subst hval hbody hicon huser
  have hmap : w.pages.map
      (fun p => if Store.sameId p.id (.str rid) = true then List.foldl Store.applyField p [] else p)
      = w.pages := by
    simp
  have hupd : Store.update (.str rid) [] w = (.ok (some page), w) := by
    simp [Store.update, hfind]
  show (updatePage (Store.collab nodeEnv) _).Post ⟨w, []⟩ (fun _ r =>
    r.world.pages = w.pages ∧ r.world.files = w.files ∧
    Event.update (.str rid) [] (.ok (some page)) ∈ r.trace ∧
    responses r.trace =
      [(200, .envelope true "Page updated successfully" (.page (some page)) none)])
  simp only [updatePage, respond, reqUser, post_updateCatch, Prog.post_tryCatch, Prog.post_bind,
    Option.forall, Prog.post_ite, Prog.post_call, Prog.post_emit, Prog.post_ret,
    Prog.post_pure, Prog.post_throw]
  simp +contextual [Store.collab, Store.findById, hfind, bodyPatch, hupd, Store.logUserAction,
    responses]

theorem updatePage_empty_patch_witness :
    (run (updatePage (Store.collab none) Sample.updateNothing) Sample.docsWorld).2.world.pages =
      Sample.docsWorld.pages ∧
    (run (updatePage (Store.collab none) Sample.updateNothing) Sample.docsWorld).2.world.files =
      Sample.docsWorld.files ∧
    Event.update (.str Sample.updateNothing.id) [] (.ok (some Sample.docsPage)) ∈
      traceOf (updatePage (Store.collab none) Sample.updateNothing) Sample.docsWorld ∧
    responses (traceOf (updatePage (Store.collab none) Sample.updateNothing) Sample.docsWorld) =
      [(200, .envelope true "Page updated successfully" (.page (some Sample.docsPage)) none)] :=
  updatePage_empty_patch none Sample.docsWorld Sample.updateNothing Sample.docsPage Sample.ann
    rfl rfl rfl rfl (by decide)

/-- In a trace whose log calls follow a successful mutation, whatever precedes a
log call holds a successful mutation. -/
theorem logsFollowMutation_split (t : List Event) (h : logsFollowMutation t = true)
    (pre post : List Event) (entry : LogEntry) (res : Outcome Unit)
    (hsplit : t = pre ++ .logUserAction entry res :: post) :
    ∃ ev ∈ pre, ev.isMutationOk = true := by
  induction t generalizing pre with
  | nil => cases pre <;> simp at hsplit
  | cons ev rest ih =>
    cases pre with
    | nil =>
      simp only [List.nil_append, List.cons.injEq] at hsplit
      obtain ⟨rfl, -⟩ := hsplit
      simp [logsFollowMutation, Event.isMutationOk, Event.isLog] at h
    | cons p pre1 =>
      simp only [List.cons_append, List.cons.injEq] at hsplit
      obtain ⟨rfl, hrest⟩ := hsplit
      by_cases hok : ev.isMutationOk = true
      · exact ⟨ev, List.mem_cons_self _ _, hok⟩
      · simp only [logsFollowMutation, hok, if_false, Bool.false_eq_true] at h
        by_cases hlog : ev.isLog = true
        · simp [hlog] at h
        · simp only [hlog, if_false, Bool.false_eq_true] at h
          obtain ⟨e1, he1, hok1⟩ := ih h pre1 hrest
          exact ⟨e1, List.mem_cons_of_mem _ he1, hok1⟩

theorem hasLog_fs (seg rest : List Event) (h : seg.all Event.isFs = true) :
    hasLog (seg ++ rest) = hasLog rest := by
  induction seg with
  | nil => rfl
  | cons ev tail ih =>
    simp only [List.all_cons, Bool.and_eq_true] at h
    cases ev <;> simp_all [Event.isFs, hasLog, Event.isLog]

theorem hasFailedMutation_fs (seg rest : List Event) (h : seg.all Event.isFs = true) :
    hasFailedMutation (seg ++ rest) = hasFailedMutation rest := by
  induction seg with
  | nil => rfl
  | cons ev tail ih =>
    simp only [List.all_cons, Bool.and_eq_true] at h
    cases ev <;> simp_all [Event.isFs, hasFailedMutation, Event.isMutation]

theorem hasLog_false (t : List Event) (h : hasLog t = false) : ∀ ev ∈ t, ev.isLog = false := by
  induction t with
  | nil => intro ev hev; cases hev
  | cons ev rest ih =>
    simp only [hasLog, Bool.or_eq_false_iff] at h
    intro x hx
    rcases List.mem_cons.mp hx with rfl | hx
    · exact h.1
    · exact ih h.2 x hx

theorem hasFailedMutation_false (t : List Event) (h : hasFailedMutation t = false) :
    ∀ ev ∈ t, ev.isMutation = true → ev.isMutationOk = true := by
  induction t with
  | nil => intro ev hev; cases hev
  | cons ev rest ih =>
    simp only [hasFailedMutation, Bool.or_eq_false_iff, Bool.and_eq_false_imp,
      Bool.not_eq_eq_eq_not, Bool.not_false] at h
    intro x hx
    rcases List.mem_cons.mp hx with rfl | hx
    · exact h.1
    · exact ih h.2 x hx

theorem createPage_logDiscipline (C : Collab σ) (req : Request) (w : σ) :
    logDiscipline (traceOf (createPage C req) w) = true := by
  show (createPage C req).Post ⟨w, []⟩ (fun _ r => logDiscipline r.trace = true)
  rcases req with ⟨id, pageUrl, query, body, verrs, icon, user⟩
  cases user <;> cases icon <;>
  simp only [createPage, respond, reqUser, typeError, post_storeIcon, post_createCatch,
    Prog.post_tryCatch, Prog.post_bind, Prog.post_ite, Prog.post_call, Prog.post_emit,
    Prog.post_ret, Prog.post_pure, Prog.post_throw] <;>
  (repeat' (first | apply And.intro | intro _)) <;>
  simp [logDiscipline, logsFollowMutation_fs, hasLog_fs, hasFailedMutation_fs, storeIcon_fs,
    noLogWhenMutationFailed, hasLog, hasFailedMutation, logsFollowMutation,
    Event.isMutationOk, Event.isLog, Event.isMutation]

theorem updatePage_logDiscipline (C : Collab σ) (req : Request) (w : σ) :
    logDiscipline (traceOf (updatePage C req) w) = true := by
  show (updatePage C req).Post ⟨w, []⟩ (fun _ r => logDiscipline r.trace = true)
  rcases req with ⟨id, pageUrl, query, body, verrs, icon, user⟩
  cases user <;> cases icon <;>
  simp only [updatePage, respond, reqUser, typeError, post_storeIcon, post_removeIcon,
    post_updateCatch, Prog.post_tryCatch, Prog.post_bind, Option.forall,
    Prog.post_ite, Prog.post_call, Prog.post_emit, Prog.post_ret, Prog.post_pure,
    Prog.post_throw] <;>
  (repeat' (first | apply And.intro | intro _)) <;>
  simp [logDiscipline, logsFollowMutation_fs, hasLog_fs, hasFailedMutation_fs, storeIcon_fs,
    removeIcon_fs, noLogWhenMutationFailed, hasLog, hasFailedMutation, logsFollowMutation,
    Event.isMutationOk, Event.isLog, Event.isMutation]

theorem deletePage_logDiscipline (C : Collab σ) (req : Request) (w : σ) :
    logDiscipline (traceOf (deletePage C req) w) = true := by
  show (deletePage C req).Post ⟨w, []⟩ (fun _ r => logDiscipline r.trace = true)
  rcases req with ⟨id, pageUrl, query, body, verrs, icon, user⟩
  cases user <;>
  simp only [deletePage, respond, reqUser, typeError, post_removeIcon, post_deleteCatch,
    Prog.post_tryCatch, Prog.post_bind, Option.forall, Bool.forall_bool,
    Prog.post_ite, Prog.post_call, Prog.post_emit, Prog.post_ret, Prog.post_pure,
    Prog.post_throw] <;>
  (repeat' (first | apply And.intro | intro _)) <;>
  simp_all [logDiscipline, logsFollowMutation_fs, hasLog_fs, hasFailedMutation_fs,
    removeIcon_fs, noLogWhenMutationFailed, hasLog, hasFailedMutation, logsFollowMutation,
    Event.isMutationOk, Event.isLog, Event.isMutation]

theorem logDiscipline_sound (t : List Event) (h : logDiscipline t = true) :
    LogsAfterMutation t := by
  simp only [logDiscipline, Bool.and_eq_true] at h
  obtain ⟨h1, h2⟩ := h
  have hsplit : ∀ pre post entry res, t = pre ++ Event.logUserAction entry res :: post →
      ∃ ev ∈ pre, ev.isMutationOk = true :=
    fun pre post entry res hs => logsFollowMutation_split t h1 pre post entry res hs
  refine ⟨hsplit, ?_, ?_⟩
  · rintro ⟨ev, hev, hm, hok⟩ ev1 hev1
    simp only [noLogWhenMutationFailed, Bool.or_eq_true, Bool.not_eq_true'] at h2
    rcases h2 with h2 | h2
    · have := hasFailedMutation_false t h2 ev hev hm
      rw [hok] at this
      exact Bool.noConfusion this
    · exact hasLog_false t h2 ev1 hev1
  · intro hnone ev hev
    by_contra hlog
    rw [Bool.not_eq_false] at hlog
    obtain ⟨pre, post, hs⟩ := List.append_of_mem hev
    cases ev with
    | logUserAction entry res =>
      obtain ⟨m, hm, hok⟩ := hsplit pre post entry res hs
      have hmt : m ∈ t := by rw [hs]; exact List.mem_append_left _ hm
      have := hnone m hmt
      cases m <;> simp_all [Event.isMutation, Event.isMutationOk]
    | _ => simp [Event.isLog] at hlog

/-- C8. In `createPage`, `updatePage` and `deletePage` the activity log is written
only after the mutation has succeeded: whatever precedes a `logUserAction` call
holds a `Page.create` or `Page.update` call that returned, or a `Page.delete` call
that returned a truthy value; when the mutation call throws (or `Page.delete`
returns a falsy value) no log call is made; and when the handler returns before
the mutation call (validation failure, icon type, page not found) no log call is
made. -/
theorem log_only_after_mutation (C : Collab σ) (req : Request) (w : σ) :
    LogsAfterMutation (traceOf (createPage C req) w) ∧
    LogsAfterMutation (traceOf (updatePage C req) w) ∧
    LogsAfterMutation (traceOf (deletePage C req) w) :=
  ⟨logDiscipline_sound _ (createPage_logDiscipline C req w),
   logDiscipline_sound _ (updatePage_logDiscipline C req w),
   logDiscipline_sound _ (deletePage_logDiscipline C req w)⟩

theorem createPage_after_log (C : Collab σ) (req : Request) (w : σ) :
    (∀ entry, Event.logUserAction entry (.ok ()) ∈ traceOf (createPage C req) w →
      ∃ page, responses (traceOf (createPage C req) w) =
        [(201, .envelope true "Page created successfully" (.page page) none)]) ∧
    (∀ entry e, Event.logUserAction entry (.threw e) ∈ traceOf (createPage C req) w →
      afterLog (traceOf (createPage C req) w) =
        [.consoleError "Create page error:" e,
         .respond (catchResponse C "Failed to create page" e).1
           (catchResponse C "Failed to create page" e).2] ∧
      responses (traceOf (createPage C req) w) = [catchResponse C "Failed to create page" e]) := by
  show (createPage C req).Post ⟨w, []⟩ (fun _ r =>
    (∀ entry, Event.logUserAction entry (.ok ()) ∈ r.trace →
      ∃ page, responses r.trace =
        [(201, .envelope true "Page created successfully" (.page page) none)]) ∧
    (∀ entry e, Event.logUserAction entry (.threw e) ∈ r.trace →
      afterLog r.trace =
        [.consoleError "Create page error:" e,
         .respond (catchResponse C "Failed to create page" e).1
           (catchResponse C "Failed to create page" e).2] ∧
      responses r.trace = [catchResponse C "Failed to create page" e]))
  rcases req with ⟨id, pageUrl, query, body, verrs, icon, user⟩
  cases user <;> cases icon <;>
  simp only [createPage, respond, reqUser, typeError, post_storeIcon, post_createCatch,
    Prog.post_tryCatch, Prog.post_bind, Prog.post_ite, Prog.post_call, Prog.post_emit,
    Prog.post_ret, Prog.post_pure, Prog.post_throw] <;>
  (repeat' (first | apply And.intro | intro _)) <;>
  simp_all [afterLog, afterLog_fs, Event.isLog, responses, responses_append, responses_fs,
    storeIcon_fs, mem_fs, Event.isFs]

theorem updatePage_after_log (C : Collab σ) (req : Request) (w : σ) :
    (∀ entry, Event.logUserAction entry (.ok ()) ∈ traceOf (updatePage C req) w →
      ∃ page, responses (traceOf (updatePage C req) w) =
        [(200, .envelope true "Page updated successfully" (.page page) none)]) ∧
    (∀ entry e, Event.logUserAction entry (.threw e) ∈ traceOf (updatePage C req) w →
      afterLog (traceOf (updatePage C req) w) =
        [.consoleError "Update page error:" e,
         .respond (catchResponse C "Failed to update page" e).1
           (catchResponse C "Failed to update page" e).2] ∧
      responses (traceOf (updatePage C req) w) = [catchResponse C "Failed to update page" e]) := by
  show (updatePage C req).Post ⟨w, []⟩ (fun _ r =>
    (∀ entry, Event.logUserAction entry (.ok ()) ∈ r.trace →
      ∃ page, responses r.trace =
        [(200, .envelope true "Page updated successfully" (.page page) none)]) ∧
    (∀ entry e, Event.logUserAction entry (.threw e) ∈ r.trace →
      afterLog r.trace =
        [.consoleError "Update page error:" e,
         .respond (catchResponse C "Failed to update page" e).1
           (catchResponse C "Failed to update page" e).2] ∧
      responses r.trace = [catchResponse C "Failed to update page" e]))
  rcases req with ⟨id, pageUrl, query, body, verrs, icon, user⟩
  cases user <;> cases icon <;>
  simp only [updatePage, respond, reqUser, typeError, post_storeIcon, post_removeIcon,
    post_updateCatch, Prog.post_tryCatch, Prog.post_bind, Option.forall,
    Prog.post_ite, Prog.post_call, Prog.post_emit, Prog.post_ret, Prog.post_pure,
    Prog.post_throw] <;>
  (repeat' (first | apply And.intro | intro _)) <;>
  simp_all [afterLog, afterLog_fs, Event.isLog, responses, responses_append, responses_fs,
    storeIcon_fs, removeIcon_fs, mem_fs, Event.isFs]

theorem deletePage_after_log (C : Collab σ) (req : Request) (w : σ) :
    (∀ entry, Event.logUserAction entry (.ok ()) ∈ traceOf (deletePage C req) w →
      responses (traceOf (deletePage C req) w) =
        [(200, .envelope true "Page deleted successfully" .absent none)]) ∧
    (∀ entry e message, Event.logUserAction entry (.threw e) ∈ traceOf (deletePage C req) w →
      e.message = some message →
      afterLog (traceOf (deletePage C req) w) =
        [.consoleError "Delete page error:" e,
         .respond (deleteCatchResponse C e message).1 (deleteCatchResponse C e message).2] ∧
      responses (traceOf (deletePage C req) w) = [deleteCatchResponse C e message]) := by
  show (deletePage C req).Post ⟨w, []⟩ (fun _ r =>
    (∀ entry, Event.logUserAction entry (.ok ()) ∈ r.trace →
      responses r.trace = [(200, .envelope true "Page deleted successfully" .absent none)]) ∧
    (∀ entry e message, Event.logUserAction entry (.threw e) ∈ r.trace →
      e.message = some message →
      afterLog r.trace =
        [.consoleError "Delete page error:" e,
         .respond (deleteCatchResponse C e message).1 (deleteCatchResponse C e message).2] ∧
      responses r.trace = [deleteCatchResponse C e message]))
  rcases req with ⟨id, pageUrl, query, body, verrs, icon, user⟩
  cases user <;>
  simp only [deletePage, respond, reqUser, typeError, post_removeIcon, post_deleteCatch,
    Prog.post_tryCatch, Prog.post_bind, Option.forall, Bool.forall_bool,
    Prog.post_ite, Prog.post_call, Prog.post_emit, Prog.post_ret, Prog.post_pure,
    Prog.post_throw] <;>
  (repeat' (first | apply And.intro | intro _)) <;>
  simp_all [afterLog, afterLog_fs, Event.isLog, responses, responses_append, responses_fs,
    removeIcon_fs, mem_fs, Event.isFs]



/-- C9, as the code has it. When the mutation of `createPage`, `updatePage` or
`deletePage` has succeeded and `ActivityLog.logUserAction` returns, the handler
answers with the success envelope (201 for create, 200 for update and delete).
When `logUserAction` throws, the mutation has succeeded and nothing undoes it (the
only events after the failed log call are `console.error` and the response), and
the response is the one of the catch block: 400 "Page URL already exists" when the
thrown error has code `ER_DUP_ENTRY` and otherwise 500 "Failed to create page" or
"Failed to update page"; for `deletePage`, when the thrown error has a string
message, 400 "Cannot delete page with assigned roles" when the message contains
"assigned roles" and otherwise 500 "Failed to delete page". -/
theorem logging_failure_response (C : Collab σ) (req : Request) (w : σ) :
    ((∀ entry, Event.logUserAction entry (.ok ()) ∈ traceOf (createPage C req) w →
        ∃ page, responses (traceOf (createPage C req) w) =
          [(201, .envelope true "Page created successfully" (.page page) none)]) ∧
      (∀ entry e, Event.logUserAction entry (.threw e) ∈ traceOf (createPage C req) w →
        (∃ ev ∈ traceOf (createPage C req) w, ev.isMutationOk = true) ∧
        afterLog (traceOf (createPage C req) w) =
          [.consoleError "Create page error:" e,
           .respond (catchResponse C "Failed to create page" e).1
             (catchResponse C "Failed to create page" e).2] ∧
        responses (traceOf (createPage C req) w) =
          [catchResponse C "Failed to create page" e])) ∧
    ((∀ entry, Event.logUserAction entry (.ok ()) ∈ traceOf (updatePage C req) w →
        ∃ page, responses (traceOf (updatePage C req) w) =
          [(200, .envelope true "Page updated successfully" (.page page) none)]) ∧
      (∀ entry e, Event.logUserAction entry (.threw e) ∈ traceOf (updatePage C req) w →
        (∃ ev ∈ traceOf (updatePage C req) w, ev.isMutationOk = true) ∧
        afterLog (traceOf (updatePage C req) w) =
          [.consoleError "Update page error:" e,
           .respond (catchResponse C "Failed to update page" e).1
             (catchResponse C "Failed to update page" e).2] ∧
        responses (traceOf (updatePage C req) w) =
          [catchResponse C "Failed to update page" e])) ∧
    ((∀ entry, Event.logUserAction entry (.ok ()) ∈ traceOf (deletePage C req) w →
        responses (traceOf (deletePage C req) w) =
          [(200, .envelope true "Page deleted successfully" .absent none)]) ∧
      (∀ entry e message,
        Event.logUserAction entry (.threw e) ∈ traceOf (deletePage C req) w →
        e.message = some message →
        (∃ ev ∈ traceOf (deletePage C req) w, ev.isMutationOk = true) ∧
        afterLog (traceOf (deletePage C req) w) =
          [.consoleError "Delete page error:" e,
           .respond (deleteCatchResponse C e message).1 (deleteCatchResponse C e message).2] ∧
        responses (traceOf (deletePage C req) w) = [deleteCatchResponse C e message])) := by
  have hmut : ∀ t : List Event, logDiscipline t = true → ∀ entry res,
      Event.logUserAction entry res ∈ t → ∃ ev ∈ t, ev.isMutationOk = true := by
    intro t ht entry res hmem
    obtain ⟨pre, post, hs⟩ := List.append_of_mem hmem
    obtain ⟨ev, hev, hok⟩ := (logDiscipline_sound t ht).1 pre post entry res hs
    exact ⟨ev, by rw [hs]; exact List.mem_append_left _ hev, hok⟩
  refine ⟨⟨(createPage_after_log C req w).1, ?_⟩, ⟨(updatePage_after_log C req w).1, ?_⟩,
    ⟨(deletePage_after_log C req w).1, ?_⟩⟩
  · intro entry e h
    exact ⟨hmut _ (createPage_logDiscipline C req w) entry _ h,
      (createPage_after_log C req w).2 entry e h⟩
  · intro entry e h
    exact ⟨hmut _ (updatePage_logDiscipline C req w) entry _ h,
      (updatePage_after_log C req w).2 entry e h⟩
  · intro entry e message h hm
    exact ⟨hmut _ (deletePage_logDiscipline C req w) entry _ h,
      (deletePage_after_log C req w).2 entry e message h hm⟩

/-- C9 fails as stated: with the activity log down, creating `/blog` inserts the
row and still answers 500 "Failed to create page". -/
theorem logging_failure_masks_success :
    Event.create
        { name := .str "Blog", url := .str "/blog", icon := .null, is_external := .bool false,
          status := .str "active", created_by := .num (.int 7) }
        (.ok (.num (.int 2))) ∈
      traceOf (createPage (Store.collabLogDown none Sample.connReset) Sample.createBlog)
        Sample.docsWorld ∧
    (run (createPage (Store.collabLogDown none Sample.connReset) Sample.createBlog)
        Sample.docsWorld).2.world.pages =
      [Sample.docsPage,
       { id := .num (.int 2), name := .str "Blog", url := .str "/blog", icon := .null,
         is_external := .bool false, status := .str "active", created_by := .num (.int 7) }] ∧
    responses (traceOf (createPage (Store.collabLogDown none Sample.connReset) Sample.createBlog)
        Sample.docsWorld) =
      [(500, .envelope false "Failed to create page" .absent none)] := by
  decide
theorem isDigit_iff (c : Char) : c.isDigit = true ↔ 48 ≤ c.toNat ∧ c.toNat ≤ 57 := by
  simp [Char.isDigit, Char.toNat, UInt32.le_def, BitVec.le_def, UInt32.toNat]

theorem digit_facts (c : Char) (h : c.isDigit = true) :
    Js.isWhiteSpace c = false ∧ c ≠ '-' ∧ c ≠ '+' ∧ c ≠ 'x' ∧ c ≠ 'X' ∧
    Js.isRadixDigit 10 c = true ∧ (Js.digitValue c).getD 0 = c.toNat - '0'.toNat := by
  rw [isDigit_iff] at h
  obtain ⟨h1, h2⟩ := h
  have hne : ∀ d : Char, (d.toNat < 48 ∨ 57 < d.toNat) → c ≠ d := by
    intro d hd hcd
    subst hcd
    omega
  refine ⟨?_, hne _ (by decide), hne _ (by decide), hne _ (by decide), hne _ (by decide), ?_, ?_⟩
  · simp only [Js.isWhiteSpace, Bool.or_eq_false_iff, decide_eq_false_iff_not,
      Bool.and_eq_false_imp, decide_eq_true_eq]
    omega
  · simp only [Js.isRadixDigit, Js.digitValue, h1, h2, and_self, if_true]
    simp
    omega
  · simp only [Js.digitValue, h1, h2, and_self, if_true, Option.getD_some]
    rfl

theorem takeWhile_all {α : Type} (p : α → Bool) (l : List α) (h : ∀ x ∈ l, p x = true) :
    l.takeWhile p = l := by
  induction l with
  | nil => rfl
  | cons x xs ih =>
    simp only [List.takeWhile, h x (List.mem_cons_self _ _)]
    rw [ih (fun y hy => h y (List.mem_cons_of_mem _ hy))]

theorem radixValue_digits (cs : List Char) (acc : Nat) (h : ∀ c ∈ cs, c.isDigit = true) :
    cs.foldl (fun a c => a * 10 + (Js.digitValue c).getD 0) acc =
      cs.foldl (fun n c => n * 10 + (c.toNat - '0'.toNat)) acc := by
  induction cs generalizing acc with
  | nil => rfl
  | cons c rest ih =>
    simp only [List.foldl_cons]
    rw [(digit_facts c (h c (List.mem_cons_self _ _))).2.2.2.2.2.2]
    exact ih _ (fun y hy => h y (List.mem_cons_of_mem _ hy))

/-- On a decimal numeral below `2^53`, `parseInt` returns its value. -/
theorem parseInt_decimal (s : String) (n : Nat) (h : s.toNat? = some n) (hn : n < 2 ^ 53) :
    Js.parseInt (.str s) = .int n := by
  unfold String.toNat? at h
  split at h
  · rename_i hnat
    simp only [String.isNat, Bool.and_eq_true, Bool.not_eq_true', String.all_eq,
      List.all_eq_true] at hnat
    obtain ⟨hne, hdig⟩ := hnat
    have hdata : s.data ≠ [] := by
      intro hd
      have : s = "" := by
        cases s
        simp_all
      rw [← Bool.not_eq_true, String.isEmpty_iff] at hne
      exact hne this
    simp only [Option.some.injEq, String.foldl_eq] at h
    obtain ⟨c, rest, hcs⟩ := List.exists_cons_of_ne_nil hdata
    have hc := digit_facts c (hdig c (by rw [hcs]; exact List.mem_cons_self _ _))
    have htake : (c :: rest).takeWhile (Js.isRadixDigit 10) = c :: rest :=
      takeWhile_all _ _ (fun x hx => (digit_facts x (hdig x (by rw [hcs]; exact hx))).2.2.2.2.2.1)
    have hval : Js.radixValue 10 (c :: rest) = n := by
      rw [← h, hcs]
      exact radixValue_digits _ 0 (fun x hx => hdig x (by rw [hcs]; exact hx))
    have hhex : ¬ ((c :: rest).take 2 = ['0', 'x'] ∨ (c :: rest).take 2 = ['0', 'X']) := by
      cases rest with
      | nil => simp
      | cons d rest2 =>
        have hd := digit_facts d (hdig d (by rw [hcs]; simp))
        simp [hd.2.2.2.1, hd.2.2.2.2.1]
    simp only [Js.parseInt, Js.toStr, hcs, List.dropWhile, hc.1, Js.parseIntTrimmed,
      List.head?_cons, Option.some.injEq, hc.2.1, hc.2.2.1, or_self, if_false, hhex,
      htake, List.isEmpty_cons, Bool.false_eq_true, hval, Js.roundToDouble, hn, if_true,
      decide_False]
  · exact absurd h (by simp)

/-- On a string that starts with neither white space, a sign nor a digit,
`parseInt` returns `NaN`. -/
theorem parseInt_nan (s : String)
    (h : ∀ c, s.data.head? = some c →
      Js.isWhiteSpace c = false ∧ c ≠ '+' ∧ c ≠ '-' ∧ c.isDigit = false) :
    Js.parseInt (.str s) = .nan := by
  cases hcs : s.data with
  | nil => simp [Js.parseInt, Js.toStr, hcs, Js.parseIntTrimmed]
  | cons c rest =>
    obtain ⟨hw, hplus, hminus, hdig⟩ := h c (by rw [hcs]; rfl)
    have hrad : Js.isRadixDigit 10 c = false := by
      have hnd : ¬ (48 ≤ c.toNat ∧ c.toNat ≤ 57) := by
        rw [← isDigit_iff, hdig]; exact Bool.noConfusion
      simp only [Js.isRadixDigit, Js.digitValue, hnd, if_false]
      split_ifs <;> simp
    have hzero : c ≠ '0' := by
      intro h0
      subst h0
      exact absurd hdig (by decide)
    simp [Js.parseInt, Js.toStr, hcs, List.dropWhile, hw, Js.parseIntTrimmed, hplus, hminus,
      hzero, List.takeWhile, hrad]

/-- C10, as the code has it. `getPages` calls `Page.findAll` first, with `search`
and `status` defaulting to the empty string and with `page` and `limit` run
through `parseInt`: 1 and 10 when the parameter is absent, the value of a decimal
numeral (below `2^53`), and `NaN`, not the default, when the parameter is a
string that starts with neither white space, a sign nor a digit, such as `abc` or
the empty string. -/
theorem getPages_params (C : Collab σ) (req : Request) (w : σ) :
    ∃ args, (traceOf (getPages C req) w).head? = some (.findAll args (C.findAll args w).1) ∧
      args.search = orDefault req.query.search (.str "") ∧
      args.status = orDefault req.query.status (.str "") ∧
      ParamPassed req.query.page 1 args.page ∧
      ParamPassed req.query.limit 10 args.limit := by
  have hparam : ∀ (param : JsVal) (dflt : Nat), parseInt (.num (.int dflt)) = .int dflt →
      ParamPassed param dflt (parseInt (orDefault param (.num (.int dflt)))) := by
    intro param dflt hd
    refine ⟨?_, ?_, ?_⟩
    · intro hp
      rw [hp]
      exact hd
    · intro s n hp hs hn
      rw [hp]
      exact parseInt_decimal s n hs hn
    · intro s hp hs
      rw [hp]
      exact parseInt_nan s hs
  refine ⟨{ page := parseInt (orDefault req.query.page (.num (.int 1))),
            limit := parseInt (orDefault req.query.limit (.num (.int 10))),
            search := orDefault req.query.search (.str ""),
            status := orDefault req.query.status (.str "") }, ?_, rfl, rfl,
    hparam _ 1 (by decide), hparam _ 10 (by decide)⟩
  show (getPages C req).Post ⟨w, []⟩ (fun _ r => r.trace.head? = some _)
  simp only [getPages, respond, Prog.post_tryCatch, Prog.post_bind, Prog.post_call,
    Prog.post_emit]
  simp +contextual

/-- C10 fails as stated: for `page=abc` and an empty `limit` the handler passes
`NaN` and `NaN` to `Page.findAll`, not 1 and 10. -/
theorem getPages_invalid_params :
    (traceOf (getPages (Store.collab none) Sample.listInvalid) Sample.docsWorld).head? =
      some (.findAll { page := .nan, limit := .nan, search := .str "", status := .str "" }
        (.ok [Sample.docsPage])) := by
  decide


theorem caught_fs (seg rest : List Event) (h : seg.all Event.isFs = true) :
    caught (seg ++ rest) = caught rest := by
  induction seg with
  | nil => rfl
  | cons ev tail ih =>
    simp only [List.all_cons, Bool.and_eq_true] at h
    cases ev <;> simp_all [Event.isFs, caught]

theorem getPages_respondsOnce (C : Collab σ) (req : Request) (w : σ) :
    RespondsOnce (getPages C req) w := by
  show (getPages C req).Post ⟨w, []⟩ (fun o r => o = .ok () ∧ (responses r.trace).length = 1)
  simp only [getPages, respond, Prog.post_tryCatch, Prog.post_bind, Prog.post_call,
    Prog.post_emit, Prog.post_ret, Prog.post_pure]
  (repeat' (first | apply And.intro | intro _)) <;>
  simp_all [responses, responses_append]

theorem getPageById_respondsOnce (C : Collab σ) (req : Request) (w : σ) :
    RespondsOnce (getPageById C req) w := by
  show (getPageById C req).Post ⟨w, []⟩ (fun o r =>
    o = .ok () ∧ (responses r.trace).length = 1)
  simp only [getPageById, respond, Prog.post_tryCatch, Prog.post_bind, Option.forall,
    Prog.post_call, Prog.post_emit, Prog.post_ret, Prog.post_pure]
  (repeat' (first | apply And.intro | intro _)) <;>
  simp_all [responses, responses_append]

theorem getPagesByUser_respondsOnce (C : Collab σ) (req : Request) (w : σ) :
    RespondsOnce (getPagesByUser C req) w := by
  show (getPagesByUser C req).Post ⟨w, []⟩ (fun o r =>
    o = .ok () ∧ (responses r.trace).length = 1)
  rcases req with ⟨id, pageUrl, query, body, verrs, icon, user⟩
  cases user <;>
  simp only [getPagesByUser, respond, reqUser, typeError, Prog.post_tryCatch, Prog.post_bind,
    Prog.post_call, Prog.post_emit, Prog.post_ret, Prog.post_pure, Prog.post_throw] <;>
  (repeat' (first | apply And.intro | intro _)) <;>
  simp_all [responses, responses_append]

theorem checkPageAccess_respondsOnce (C : Collab σ) (req : Request) (w : σ) :
    RespondsOnce (checkPageAccess C req) w := by
  show (checkPageAccess C req).Post ⟨w, []⟩ (fun o r =>
    o = .ok () ∧ (responses r.trace).length = 1)
  rcases req with ⟨id, pageUrl, query, body, verrs, icon, user⟩
  cases user <;>
  simp only [checkPageAccess, respond, reqUser, typeError, Prog.post_tryCatch, Prog.post_bind,
    Prog.post_call, Prog.post_emit, Prog.post_ret, Prog.post_pure, Prog.post_throw] <;>
  (repeat' (first | apply And.intro | intro _)) <;>
  simp_all [responses, responses_append]

theorem getStats_respondsOnce (C : Collab σ) (req : Request) (w : σ) :
    RespondsOnce (getStats C req) w := by
  show (getStats C req).Post ⟨w, []⟩ (fun o r => o = .ok () ∧ (responses r.trace).length = 1)
  simp only [getStats, respond, Prog.post_tryCatch, Prog.post_bind, Prog.post_call,
    Prog.post_emit, Prog.post_ret, Prog.post_pure]
  (repeat' (first | apply And.intro | intro _)) <;>
  simp_all [responses, responses_append]

theorem getAllSimple_respondsOnce (C : Collab σ) (req : Request) (w : σ) :
    RespondsOnce (getAllSimple C req) w := by
  show (getAllSimple C req).Post ⟨w, []⟩ (fun o r =>
    o = .ok () ∧ (responses r.trace).length = 1)
  simp only [getAllSimple, respond, Prog.post_tryCatch, Prog.post_bind, Prog.post_call,
    Prog.post_emit, Prog.post_ret, Prog.post_pure]
  (repeat' (first | apply And.intro | intro _)) <;>
  simp_all [responses, responses_append]

theorem createPage_respondsOnce (C : Collab σ) (req : Request) (w : σ) :
    RespondsOnce (createPage C req) w := by
  show (createPage C req).Post ⟨w, []⟩ (fun o r =>
    o = .ok () ∧ (responses r.trace).length = 1)
  rcases req with ⟨id, pageUrl, query, body, verrs, icon, user⟩
  cases user <;> cases icon <;>
  simp only [createPage, respond, reqUser, typeError, post_storeIcon, post_createCatch,
    Prog.post_tryCatch, Prog.post_bind, Prog.post_ite, Prog.post_call, Prog.post_emit,
    Prog.post_ret, Prog.post_pure, Prog.post_throw] <;>
  (repeat' (first | apply And.intro | intro _)) <;>
  simp_all [responses, responses_append, responses_fs, storeIcon_fs]

theorem updatePage_respondsOnce (C : Collab σ) (req : Request) (w : σ) :
    RespondsOnce (updatePage C req) w := by
  show (updatePage C req).Post ⟨w, []⟩ (fun o r =>
    o = .ok () ∧ (responses r.trace).length = 1)
  rcases req with ⟨id, pageUrl, query, body, verrs, icon, user⟩
  cases user <;> cases icon <;>
  simp only [updatePage, respond, reqUser, typeError, post_storeIcon, post_removeIcon,
    post_updateCatch, Prog.post_tryCatch, Prog.post_bind, Option.forall,
    Prog.post_ite, Prog.post_call, Prog.post_emit, Prog.post_ret, Prog.post_pure,
    Prog.post_throw] <;>
  (repeat' (first | apply And.intro | intro _)) <;>
  simp_all [responses, responses_append, responses_fs, storeIcon_fs, removeIcon_fs]

theorem deletePage_responds_or_rejects (C : Collab σ) (req : Request) (w : σ) :
    (RespondsOnce (deletePage C req) w ∨ RejectsUnanswered (deletePage C req) w) ∧
    (∀ error, caught (traceOf (deletePage C req) w) = some error → error.message = none →
      RejectsUnanswered (deletePage C req) w) := by
  show (deletePage C req).Post ⟨w, []⟩ (fun o r =>
    ((o = .ok () ∧ (responses r.trace).length = 1) ∨
      (o = .threw (typeError "Cannot read properties of undefined (reading 'includes')") ∧
        responses r.trace = [] ∧ ∃ error, caught r.trace = some error ∧ error.message = none)) ∧
    (∀ error, caught r.trace = some error → error.message = none →
      (o = .threw (typeError "Cannot read properties of undefined (reading 'includes')") ∧
        responses r.trace = [] ∧ ∃ error, caught r.trace = some error ∧ error.message = none)))
  rcases req with ⟨id, pageUrl, query, body, verrs, icon, user⟩
  cases user <;>
  simp only [deletePage, respond, reqUser, typeError, post_removeIcon, post_deleteCatch,
    Prog.post_tryCatch, Prog.post_bind, Option.forall, Bool.forall_bool,
    Prog.post_ite, Prog.post_call, Prog.post_emit, Prog.post_ret, Prog.post_pure,
    Prog.post_throw] <;>
  (repeat' (first | apply And.intro | intro _)) <;>
  simp_all [responses, responses_append, responses_fs, removeIcon_fs, caught, caught_fs] <;>
  (subst_vars; simp_all)

/-- C11. With thrown values that are neither `null` nor `undefined`, whatever the
`Page` model, `ActivityLog` and the file system do, `getPages`, `getPageById`,
`createPage`, `updatePage`, `getPagesByUser`, `checkPageAccess`, `getStats` and
`getAllSimple` return after sending exactly one response. `deletePage` does so as
well unless the error it has caught has no string `message`: then its `catch`
block throws a `TypeError`, the handler rejects and no response is sent. -/
theorem handlers_answer (C : Collab σ) (req : Request) (w : σ) :
    RespondsOnce (getPages C req) w ∧ RespondsOnce (getPageById C req) w ∧
    RespondsOnce (createPage C req) w ∧ RespondsOnce (updatePage C req) w ∧
    RespondsOnce (getPagesByUser C req) w ∧ RespondsOnce (checkPageAccess C req) w ∧
    RespondsOnce (getStats C req) w ∧ RespondsOnce (getAllSimple C req) w ∧
    (RespondsOnce (deletePage C req) w ∨ RejectsUnanswered (deletePage C req) w) ∧
    (∀ error, caught (traceOf (deletePage C req) w) = some error → error.message = none →
      RejectsUnanswered (deletePage C req) w) :=
  ⟨getPages_respondsOnce C req w, getPageById_respondsOnce C req w,
   createPage_respondsOnce C req w, updatePage_respondsOnce C req w,
   getPagesByUser_respondsOnce C req w, checkPageAccess_respondsOnce C req w,
   getStats_respondsOnce C req w, getAllSimple_respondsOnce C req w,
   (deletePage_responds_or_rejects C req w).1, (deletePage_responds_or_rejects C req w).2⟩

/-- C11 fails for `deletePage`: when the database is down and `Page.findById`
throws a value with a code and no message, `getPageById` answers 500, while
`deletePage` logs the error, throws a `TypeError` from its `catch` block and
sends no response. -/
theorem deletePage_rejects :
    responses (traceOf (getPageById (Store.collabDown none Sample.refused) Sample.deleteDocs)
        Sample.docsWorld) =
      [(500, .envelope false "Failed to retrieve page" .absent none)] ∧
    (run (deletePage (Store.collabDown none Sample.refused) Sample.deleteDocs)
        Sample.docsWorld).1 =
      .threw (typeError "Cannot read properties of undefined (reading 'includes')") ∧
    traceOf (deletePage (Store.collabDown none Sample.refused) Sample.deleteDocs)
        Sample.docsWorld =
      [.findById (.str "1") (.threw Sample.refused),
       .consoleError "Delete page error:" Sample.refused] := by
  decide

theorem iconFileName_segment (now : Nat) (iconFile : IconFile)
    (h : '/' ∉ iconFile.name.data) :
    '/' ∉ (iconFileName now iconFile).data ∧ (iconFileName now iconFile).data ≠ [] ∧
      (iconFileName now iconFile).data ≠ ['.'] ∧
      (iconFileName now iconFile).data ≠ ['.', '.'] := by
  have hdata : (iconFileName now iconFile).data =
      'p' :: 'a' :: 'g' :: 'e' :: '_' :: ((natToString now).data ++ '_' :: iconFile.name.data) := by
    simp [iconFileName, String.data_append]
  rw [hdata]
  refine ⟨?_, by simp, by simp, by simp⟩
  simp only [List.mem_cons, List.mem_append, not_or]
  refine ⟨by decide, by decide, by decide, by decide, by decide, ?_, by decide, h⟩
  intro hmem
  have := natToString_digits now _ hmem
  exact absurd this (by decide)

theorem uploadPath_inside (C : Collab σ) (now : Nat) (iconFile : IconFile)
    (h : '/' ∉ iconFile.name.data) :
    uploadPath C now iconFile =
      Path.join [C.dirname, "../../uploads/icons/"] ++ iconFileName now iconFile := by
  obtain ⟨h0, h1, h2, h3⟩ := iconFileName_segment now iconFile h
  exact Path.join_segment C.dirname (iconFileName now iconFile) h0 h1 h2 h3

theorem movesTo_append (iconFile : IconFile) (path : String) (xs ys : List Event) :
    movesTo iconFile path (xs ++ ys) = (movesTo iconFile path xs && movesTo iconFile path ys) := by
  induction xs with
  | nil => rfl
  | cons x xs ih => cases x <;> simp [movesTo, ih, Bool.and_assoc]

theorem movesTo_store (C : Collab σ) (iconFile : IconFile) (w : σ) :
    movesTo iconFile (uploadPath C (C.dateNow w) iconFile)
      ((storeIcon C iconFile).fresh w).2.trace = true := by
  show (storeIcon C iconFile).Post ⟨w, []⟩ (fun _ r =>
    movesTo iconFile (uploadPath C (C.dateNow w) iconFile) r.trace = true)
  simp only [storeIcon, Prog.post_bind, Prog.post_ite, Prog.post_call, Prog.post_read,
    post_existsSync, Prog.post_pure]
  simp [movesTo, uploadPath]

theorem movesTo_remove (C : Collab σ) (existingPage : Page) (w : σ) (iconFile : IconFile)
    (path : String) :
    movesTo iconFile path ((removeIcon C existingPage).fresh w).2.trace = true := by
  show (removeIcon C existingPage).Post ⟨w, []⟩ (fun _ r => movesTo iconFile path r.trace = true)
  unfold removeIcon
  split
  · split
    · simp only [Prog.post_bind, Prog.post_ite, Prog.post_call, post_existsSync, Prog.post_pure]
      simp [movesTo]
    · simp [Prog.post_throw, movesTo]
  · simp [Prog.post_pure, movesTo]

theorem movesTo_sound (iconFile : IconFile) (path : String) (t : List Event)
    (h : movesTo iconFile path t = true) (file : IconFile) (dest : String)
    (res : Outcome Unit) (hmem : Event.mv file dest res ∈ t) :
    file = iconFile ∧ dest = path := by
  induction t with
  | nil => cases hmem
  | cons ev rest ih =>
    rcases List.mem_cons.mp hmem with rfl | hrest
    · simp only [movesTo, Bool.and_eq_true, decide_eq_true_eq] at h
      exact ⟨h.1.1, h.1.2⟩
    · apply ih _ hrest
      cases ev <;> simp_all [movesTo]

theorem createPage_movesTo (C : Collab σ) (req : Request) (w : σ) (iconFile : IconFile)
    (hicon : req.icon = some iconFile) :
    movesTo iconFile (uploadPath C (C.dateNow w) iconFile) (traceOf (createPage C req) w) = true ∧
    ∀ data res, Event.create data res ∈ traceOf (createPage C req) w →
      data.icon = .str ("/uploads/icons/" ++ iconFileName (C.dateNow w) iconFile) := by
  show (createPage C req).Post ⟨w, []⟩ (fun _ r =>
    movesTo iconFile (uploadPath C (C.dateNow w) iconFile) r.trace = true ∧
    ∀ data res, Event.create data res ∈ r.trace →
      data.icon = .str ("/uploads/icons/" ++ iconFileName (C.dateNow w) iconFile))
  obtain ⟨rid, pageUrl, query, body, verrs, ricon, user⟩ := req
  simp only at hicon
  subst hicon
  cases user <;>
  simp only [createPage, respond, reqUser, typeError, post_storeIcon, post_createCatch,
    Prog.post_tryCatch, Prog.post_bind, Prog.post_ite, Prog.post_call, Prog.post_emit,
    Prog.post_ret, Prog.post_pure, Prog.post_throw] <;>
  (repeat' (first | apply And.intro | intro _)) <;>
  simp_all [movesTo, movesTo_append, movesTo_store, storeIcon_fs, mem_fs, Event.isFs]

theorem updatePage_movesTo (C : Collab σ) (req : Request) (w : σ) (iconFile : IconFile)
    (hicon : req.icon = some iconFile) :
    movesTo iconFile (uploadPath C (C.dateNow (C.findById (.str req.id) w).2) iconFile)
      (traceOf (updatePage C req) w) = true ∧
    ∀ id patch res, Event.update id patch res ∈ traceOf (updatePage C req) w →
      patch = iconPatch req (iconFileName (C.dateNow (C.findById (.str req.id) w).2) iconFile) := by
  show (updatePage C req).Post ⟨w, []⟩ (fun _ r =>
    movesTo iconFile (uploadPath C (C.dateNow (C.findById (.str req.id) w).2) iconFile)
      r.trace = true ∧
    ∀ id patch res, Event.update id patch res ∈ r.trace →
      patch = iconPatch req (iconFileName (C.dateNow (C.findById (.str req.id) w).2) iconFile))
  obtain ⟨rid, pageUrl, query, body, verrs, ricon, user⟩ := req
  simp only at hicon
  subst hicon
  cases user <;>
  simp only [updatePage, respond, reqUser, typeError, post_storeIcon, post_removeIcon,
    post_updateCatch, Prog.post_tryCatch, Prog.post_bind, Option.forall,
    Prog.post_ite, Prog.post_call, Prog.post_emit, Prog.post_ret, Prog.post_pure,
    Prog.post_throw] <;>
  (repeat' (first | apply And.intro | intro _)) <;>
  simp_all [movesTo, movesTo_append, movesTo_store, movesTo_remove, storeIcon_fs,
    removeIcon_fs, mem_fs, Event.isFs, iconPatch]

/-- C12. For a `createPage` or `updatePage` request with an icon file, of an
allowed type or not, every `mv` call moves that file to
`path.join(__dirname, '../../uploads/icons/', fileName)`, where `fileName` is
`page_<timestamp>_<name>`, and the icon `Page.create` and `Page.update` are given
is `/uploads/icons/` followed by `fileName`, for every original file name. When
the original file name holds no `/`, that path is the uploads directory
`path.join(__dirname, '../../uploads/icons/')` followed by `fileName`, which holds
no `/`: the file lies in the uploads directory. -/
theorem icon_upload_path (C : Collab σ) (req : Request) (w : σ) (iconFile : IconFile)
    (hicon : req.icon = some iconFile) :
    (∀ file dest res, Event.mv file dest res ∈ traceOf (createPage C req) w →
      file = iconFile ∧ dest = uploadPath C (C.dateNow w) iconFile) ∧
    (∀ data res, Event.create data res ∈ traceOf (createPage C req) w →
      data.icon = .str ("/uploads/icons/" ++ iconFileName (C.dateNow w) iconFile)) ∧
    (∀ file dest res, Event.mv file dest res ∈ traceOf (updatePage C req) w →
      file = iconFile ∧
        dest = uploadPath C (C.dateNow (C.findById (.str req.id) w).2) iconFile) ∧
    (∀ id patch res, Event.update id patch res ∈ traceOf (updatePage C req) w →
      List.lookup "icon" patch = some (.str ("/uploads/icons/" ++
        iconFileName (C.dateNow (C.findById (.str req.id) w).2) iconFile))) ∧
    (∀ now, '/' ∉ iconFile.name.data →
      uploadPath C now iconFile =
        Path.join [C.dirname, "../../uploads/icons/"] ++ iconFileName now iconFile ∧
      '/' ∉ (iconFileName now iconFile).data) := by
  refine ⟨?_, (createPage_movesTo C req w iconFile hicon).2, ?_, ?_, ?_⟩
  · intro file dest res hmem
    exact movesTo_sound _ _ _ (createPage_movesTo C req w iconFile hicon).1 file dest res hmem
  · intro file dest res hmem
    exact movesTo_sound _ _ _ (updatePage_movesTo C req w iconFile hicon).1 file dest res hmem
  · intro id patch res hmem
    rw [(updatePage_movesTo C req w iconFile hicon).2 id patch res hmem, iconPatch,
      Obj.lookup_set]
    simp
  · intro now hname
    exact ⟨uploadPath_inside C now iconFile hname, (iconFileName_segment now iconFile hname).1⟩

theorem icon_upload_path_witness :
    uploadPath (Store.collab none) 1700 { name := "logo.png", mimetype := .str "image/png" } =
        Path.join ["/srv/backend/src/controllers", "../../uploads/icons/"] ++
          iconFileName 1700 { name := "logo.png", mimetype := .str "image/png" } ∧
      '/' ∉ (iconFileName 1700 { name := "logo.png", mimetype := .str "image/png" }).data :=
  (icon_upload_path (Store.collab none) Sample.createDocsIcon Sample.docsWorld
    { name := "logo.png", mimetype := .str "image/png" } rfl).2.2.2.2 1700 (by decide)

/-- C12 fails as stated: an icon whose file name is `a/../../escaped.png` has an
allowed type and is moved to a path outside the uploads directory
`/srv/backend/uploads/icons/`. -/
theorem createPage_escapes_uploads :
    listIncludes allowedTypes (.str "image/png") = true ∧
    Path.join [(Store.collab none).dirname, "../../uploads/icons/"] =
      "/srv/backend/uploads/icons/" ∧
    Event.mv { name := "a/../../escaped.png", mimetype := .str "image/png" }
        "/srv/backend/uploads/escaped.png" (.ok ()) ∈
      traceOf (createPage (Store.collab none) Sample.createEscaping) Sample.docsWorld ∧
    uploadPath (Store.collab none) 1700
        { name := "a/../../escaped.png", mimetype := .str "image/png" } =
      "/srv/backend/uploads/escaped.png" ∧
    "/srv/backend/uploads/icons/".data.isPrefixOf
        (uploadPath (Store.collab none) 1700
          { name := "a/../../escaped.png", mimetype := .str "image/png" }).data = false := by
  decide

/-- C13. When `Page.findById` returns no page for the id of the request,
`getPageById`, `updatePage` (on a request that passes validation) and `deletePage`
call `Page.findById` and answer 404 "Page not found", and do nothing else: no
`Page.update` or `Page.delete` call, no file-system write or unlink, no activity
log write. When `Page.findById` returns a page, `getPageById` answers 200 with
that page in `data.page`. -/
theorem page_not_found (C : Collab σ) (req : Request) (w : σ) :
    ((C.findById (.str req.id) w).1 = .ok none →
      (traceOf (getPageById C req) w =
          [.findById (.str req.id) (.ok none),
           .respond 404 (.envelope false "Page not found" .absent none)] ∧
        (req.validationErrors = [] →
          traceOf (updatePage C req) w =
            [.findById (.str req.id) (.ok none),
             .respond 404 (.envelope false "Page not found" .absent none)]) ∧
        traceOf (deletePage C req) w =
          [.findById (.str req.id) (.ok none),
           .respond 404 (.envelope false "Page not found" .absent none)]) ∧
      (∀ ev, (ev ∈ traceOf (getPageById C req) w ∨
            (req.validationErrors = [] ∧ ev ∈ traceOf (updatePage C req) w) ∨
            ev ∈ traceOf (deletePage C req) w) →
          ev.isMutation = false ∧ ev.isFsWrite = false ∧ ev.isLog = false)) ∧
    (∀ page, (C.findById (.str req.id) w).1 = .ok (some page) →
      responses (traceOf (getPageById C req) w) =
        [(200, .envelope true "Page retrieved successfully" (.page (some page)) none)]) := by
  have hget : (C.findById (.str req.id) w).1 = .ok none →
      traceOf (getPageById C req) w =
        [.findById (.str req.id) (.ok none),
         .respond 404 (.envelope false "Page not found" .absent none)] := by
    show (getPageById C req).Post ⟨w, []⟩ (fun _ r => _ → r.trace = _)
    simp only [getPageById, respond, Prog.post_tryCatch, Prog.post_bind, Option.forall,
      Prog.post_call, Prog.post_emit, Prog.post_ret, Prog.post_pure]
    (repeat' (first | apply And.intro | intro _)) <;> simp_all
  have hupd : (C.findById (.str req.id) w).1 = .ok none → req.validationErrors = [] →
      traceOf (updatePage C req) w =
        [.findById (.str req.id) (.ok none),
         .respond 404 (.envelope false "Page not found" .absent none)] := by
    show (updatePage C req).Post ⟨w, []⟩ (fun _ r => _ → _ → r.trace = _)
    rcases req with ⟨id, pageUrl, query, body, verrs, icon, user⟩
    cases user <;> cases icon <;>
    simp only [updatePage, respond, reqUser, typeError, post_storeIcon, post_removeIcon,
      post_updateCatch, Prog.post_tryCatch, Prog.post_bind, Option.forall,
      Prog.post_ite, Prog.post_call, Prog.post_emit, Prog.post_ret, Prog.post_pure,
      Prog.post_throw] <;>
    (repeat' (first | apply And.intro | intro _)) <;> simp_all
  have hdel : (C.findById (.str req.id) w).1 = .ok none →
      traceOf (deletePage C req) w =
        [.findById (.str req.id) (.ok none),
         .respond 404 (.envelope false "Page not found" .absent none)] := by
    show (deletePage C req).Post ⟨w, []⟩ (fun _ r => _ → r.trace = _)
    rcases req with ⟨id, pageUrl, query, body, verrs, icon, user⟩
    cases user <;>
    simp only [deletePage, respond, reqUser, typeError, post_removeIcon, post_deleteCatch,
      Prog.post_tryCatch, Prog.post_bind, Option.forall, Bool.forall_bool,
      Prog.post_ite, Prog.post_call, Prog.post_emit, Prog.post_ret, Prog.post_pure,
      Prog.post_throw] <;>
    (repeat' (first | apply And.intro | intro _)) <;> simp_all
  refine ⟨fun hnone => ⟨⟨hget hnone, hupd hnone, hdel hnone⟩, ?_⟩, ?_⟩
  · rintro ev (hev | ⟨hv, hev⟩ | hev)
    · rw [hget hnone] at hev
      simp only [List.mem_cons, List.mem_singleton, List.not_mem_nil, or_false] at hev
      rcases hev with rfl | rfl <;> simp [Event.isMutation, Event.isFsWrite, Event.isLog]
    · rw [hupd hnone hv] at hev
      simp only [List.mem_cons, List.mem_singleton, List.not_mem_nil, or_false] at hev
      rcases hev with rfl | rfl <;> simp [Event.isMutation, Event.isFsWrite, Event.isLog]
    · rw [hdel hnone] at hev
      simp only [List.mem_cons, List.mem_singleton, List.not_mem_nil, or_false] at hev
      rcases hev with rfl | rfl <;> simp [Event.isMutation, Event.isFsWrite, Event.isLog]
  · intro page
    show (getPageById C req).Post ⟨w, []⟩ (fun _ r => _ → responses r.trace = _)
    simp only [getPageById, respond, Prog.post_tryCatch, Prog.post_bind, Option.forall,
      Prog.post_call, Prog.post_emit, Prog.post_ret, Prog.post_pure]
    (repeat' (first | apply And.intro | intro _)) <;> simp_all [responses]

theorem page_not_found_witness :
    traceOf (deletePage (Store.collab none) { id := "9", user := some Sample.ann })
        Sample.docsWorld =
      [.findById (.str "9") (.ok none),
       .respond 404 (.envelope false "Page not found" .absent none)] ∧
    responses (traceOf (getPageById (Store.collab none) { id := "1" }) Sample.docsWorld) =
      [(200, .envelope true "Page retrieved successfully" (.page (some Sample.docsPage)) none)] :=
  ⟨((page_not_found (Store.collab none) { id := "9", user := some Sample.ann }
      Sample.docsWorld).1 (by decide)).1.2.2,
   (page_not_found (Store.collab none) { id := "1" } Sample.docsWorld).2 Sample.docsPage
      (by decide)⟩

theorem unlinksFollowStore_store (C : Collab σ) (iconFile : IconFile) (w : σ)
    (rest : List Event) :
    unlinksFollowStore (((storeIcon C iconFile).fresh w).2.trace ++ rest) =
      match ((storeIcon C iconFile).fresh w).1 with
      | .ok _ => true
      | .threw _ => unlinksFollowStore rest := by
  revert rest
  show (storeIcon C iconFile).Post ⟨w, []⟩ (fun o r => ∀ rest,
    unlinksFollowStore (r.trace ++ rest) =
      match o with
      | .ok _ => true
      | .threw _ => unlinksFollowStore rest)
  simp only [storeIcon, Prog.post_bind, Prog.post_ite, Prog.post_call, Prog.post_read,
    post_existsSync, Prog.post_pure]
  simp [unlinksFollowStore, Event.isStored, Event.isUnlink]

theorem hasStoreFailure_store (C : Collab σ) (iconFile : IconFile) (w : σ)
    (rest : List Event) :
    hasStoreFailure (((storeIcon C iconFile).fresh w).2.trace ++ rest) =
      match ((storeIcon C iconFile).fresh w).1 with
      | .ok _ => hasStoreFailure rest
      | .threw _ => true := by
  revert rest
  show (storeIcon C iconFile).Post ⟨w, []⟩ (fun o r => ∀ rest,
    hasStoreFailure (r.trace ++ rest) =
      match o with
      | .ok _ => hasStoreFailure rest
      | .threw _ => true)
  simp only [storeIcon, Prog.post_bind, Prog.post_ite, Prog.post_call, Prog.post_read,
    post_existsSync, Prog.post_pure]
  simp [hasStoreFailure, Event.isStoreFailure]

theorem hasUnlink_store (C : Collab σ) (iconFile : IconFile) (w : σ) (rest : List Event) :
    hasUnlink (((storeIcon C iconFile).fresh w).2.trace ++ rest) = hasUnlink rest := by
  revert rest
  show (storeIcon C iconFile).Post ⟨w, []⟩ (fun _ r => ∀ rest,
    hasUnlink (r.trace ++ rest) = hasUnlink rest)
  simp only [storeIcon, Prog.post_bind, Prog.post_ite, Prog.post_call, Prog.post_read,
    post_existsSync, Prog.post_pure]
  simp [hasUnlink, Event.isUnlink]

theorem hasStoreFailure_remove (C : Collab σ) (existingPage : Page) (w : σ)
    (rest : List Event) :
    hasStoreFailure (((removeIcon C existingPage).fresh w).2.trace ++ rest) =
      hasStoreFailure rest := by
  revert rest
  show (removeIcon C existingPage).Post ⟨w, []⟩ (fun _ r => ∀ rest,
    hasStoreFailure (r.trace ++ rest) = hasStoreFailure rest)
  unfold removeIcon
  split
  · split
    · simp only [Prog.post_bind, Prog.post_ite, Prog.post_call, post_existsSync, Prog.post_pure]
      simp [hasStoreFailure, Event.isStoreFailure]
    · simp [Prog.post_throw]
  · simp [Prog.post_pure]

theorem updatePage_storeDiscipline (C : Collab σ) (req : Request) (w : σ) :
    storeDiscipline (traceOf (updatePage C req) w) = true := by
  show (updatePage C req).Post ⟨w, []⟩ (fun _ r => storeDiscipline r.trace = true)
  rcases req with ⟨id, pageUrl, query, body, verrs, icon, user⟩
  cases user <;> cases icon <;>
  simp only [updatePage, respond, reqUser, typeError, post_storeIcon, post_removeIcon,
    post_updateCatch, Prog.post_tryCatch, Prog.post_bind, Option.forall,
    Prog.post_ite, Prog.post_call, Prog.post_emit, Prog.post_ret, Prog.post_pure,
    Prog.post_throw] <;>
  (repeat' (first | apply And.intro | intro _)) <;>
  simp_all [storeDiscipline, unlinksFollowStore_store, hasStoreFailure_store, hasUnlink_store,
    hasStoreFailure_remove, unlinksFollowStore, hasUnlink, hasStoreFailure, Event.isStored,
    Event.isUnlink, Event.isStoreFailure]

/-- In a trace whose `unlinkSync` calls follow an `mv` call that returned,
whatever precedes an `unlinkSync` call holds such an `mv` call. -/
theorem unlinksFollowStore_split (t : List Event) (h : unlinksFollowStore t = true)
    (pre post : List Event) (path : String) (res : Outcome Unit)
    (hsplit : t = pre ++ .unlinkSync path res :: post) :
    ∃ file dest, Event.mv file dest (.ok ()) ∈ pre := by
  induction t generalizing pre with
  | nil => cases pre <;> simp at hsplit
  | cons ev rest ih =>
    cases pre with
    | nil =>
      simp only [List.nil_append, List.cons.injEq] at hsplit
      obtain ⟨rfl, -⟩ := hsplit
      simp [unlinksFollowStore, Event.isStored, Event.isUnlink] at h
    | cons p pre1 =>
      simp only [List.cons_append, List.cons.injEq] at hsplit
      obtain ⟨rfl, hrest⟩ := hsplit
      by_cases hok : ev.isStored = true
      · cases ev with
        | mv file dest result =>
          cases result with
          | ok u => exact ⟨file, dest, List.mem_cons_self _ _⟩
          | threw e => simp [Event.isStored] at hok
        | _ => simp [Event.isStored] at hok
      · simp only [unlinksFollowStore, hok, if_false, Bool.false_eq_true] at h
        by_cases hun : ev.isUnlink = true
        · simp [hun] at h
        · simp only [hun, if_false, Bool.false_eq_true] at h
          obtain ⟨file, dest, hmem⟩ := ih h pre1 hrest
          exact ⟨file, dest, List.mem_cons_of_mem _ hmem⟩

theorem hasUnlink_false (t : List Event) (h : hasUnlink t = false) :
    ∀ ev ∈ t, ev.isUnlink = false := by
  induction t with
  | nil => intro ev hev; cases hev
  | cons ev rest ih =>
    simp only [hasUnlink, Bool.or_eq_false_iff] at h
    intro x hx
    rcases List.mem_cons.mp hx with rfl | hx
    · exact h.1
    · exact ih h.2 x hx

theorem hasStoreFailure_false (t : List Event) (h : hasStoreFailure t = false) :
    ∀ ev ∈ t, ev.isStoreFailure = false := by
  induction t with
  | nil => intro ev hev; cases hev
  | cons ev rest ih =>
    simp only [hasStoreFailure, Bool.or_eq_false_iff] at h
    intro x hx
    rcases List.mem_cons.mp hx with rfl | hx
    · exact h.1
    · exact ih h.2 x hx

theorem storeDiscipline_sound (t : List Event) (h : storeDiscipline t = true) :
    UnlinkAfterStore t := by
  simp only [storeDiscipline, Bool.and_eq_true] at h
  obtain ⟨h1, h2⟩ := h
  refine ⟨fun pre post path res hs => unlinksFollowStore_split t h1 pre post path res hs, ?_⟩
  rintro ⟨ev, hev, hfail⟩ ev1 hev1
  simp only [Bool.or_eq_true, Bool.not_eq_true'] at h2
  rcases h2 with h2 | h2
  · have := hasStoreFailure_false t h2 ev hev
    rw [hfail] at this
    exact Bool.noConfusion this
  · exact hasUnlink_false t h2 ev1 hev1

/-- The lines that remove the previous icon file, run where that file is absent:
nothing is unlinked and nothing is thrown. -/
theorem removeIcon_absent (C : Collab σ) (existingPage : Page) (icon : String) (w : σ)
    (hicon : existingPage.icon = .str icon)
    (hex : C.existsSync (oldIconPath C icon) w = false) :
    (removeIcon C existingPage).fresh w =
      (.ok (), { world := w,
                 trace := if icon = "" then [] else [.existsSync (oldIconPath C icon) false] }) := by
  unfold removeIcon Prog.fresh
  by_cases hempty : icon = ""
  · simp [hicon, hempty, truthy]
    rfl
  · simp only [hicon, truthy, bne_iff_ne, ne_eq, hempty, not_false_eq_true, if_true, if_false]
    show (existsSync C (Path.join [C.dirname, "../..", icon]) >>= _) _ = _
    simp only [oldIconPath] at hex
    simp [bind, Prog.andThen, existsSync, hex, pure, Prog.ret, oldIconPath]

/-- The lines that remove the previous icon file, run where that file exists: the
file is unlinked. -/
theorem removeIcon_present (C : Collab σ) (existingPage : Page) (icon : String) (w : σ)
    (hicon : existingPage.icon = .str icon) (hne : icon ≠ "")
    (hex : C.existsSync (oldIconPath C icon) w = true) :
    (removeIcon C existingPage).fresh w =
      ((C.unlinkSync (oldIconPath C icon) w).1,
        { world := (C.unlinkSync (oldIconPath C icon) w).2,
          trace := [.existsSync (oldIconPath C icon) true,
                    .unlinkSync (oldIconPath C icon) (C.unlinkSync (oldIconPath C icon) w).1] }) := by
  unfold removeIcon Prog.fresh
  simp only [hicon, truthy, bne_iff_ne, ne_eq, hne, not_false_eq_true, if_true]
  show (existsSync C (Path.join [C.dirname, "../..", icon]) >>= _) _ = _
  simp only [oldIconPath] at hex
  simp [bind, Prog.andThen, existsSync, hex, Prog.call, oldIconPath]

/-- When the lines that store the new icon file return, the file has been moved
to its upload path. -/
theorem storeIcon_stored (C : Collab σ) (iconFile : IconFile) (w : σ) (name : String)
    (h : ((storeIcon C iconFile).fresh w).1 = .ok name) :
    Event.mv iconFile (uploadPath C (C.dateNow w) iconFile) (.ok ()) ∈
      ((storeIcon C iconFile).fresh w).2.trace := by
  revert h
  show (storeIcon C iconFile).Post ⟨w, []⟩ (fun o r => o = .ok name →
    Event.mv iconFile (uploadPath C (C.dateNow w) iconFile) (.ok ()) ∈ r.trace)
  simp only [storeIcon, Prog.post_bind, Prog.post_ite, Prog.post_call, Prog.post_read,
    post_existsSync, Prog.post_pure]
  simp [uploadPath]

theorem updatePage_store_failed (C : Collab σ) (req : Request) (w : σ) (iconFile : IconFile)
    (page : Page) (e : JsError) (hvalid : req.validationErrors = [])
    (hicon : req.icon = some iconFile)
    (htype : listIncludes allowedTypes iconFile.mimetype = true)
    (hfound : (C.findById (.str req.id) w).1 = .ok (some page))
    (hstore : ((storeIcon C iconFile).fresh (C.findById (.str req.id) w).2).1 = .threw e) :
    traceOf (updatePage C req) w =
      .findById (.str req.id) (.ok (some page)) ::
        (((storeIcon C iconFile).fresh (C.findById (.str req.id) w).2).2.trace ++
          [.consoleError "Update page error:" e,
           .respond (catchResponse C "Failed to update page" e).1
             (catchResponse C "Failed to update page" e).2]) := by
  revert hstore hfound
  show (updatePage C req).Post ⟨w, []⟩ (fun _ r => _ → _ → r.trace = _)
  obtain ⟨rid, pageUrl, query, body, verrs, ricon, user⟩ := req
  simp only at hvalid hicon
  subst hvalid hicon
  cases user <;>
  simp only [updatePage, respond, reqUser, typeError, post_storeIcon, post_removeIcon,
    post_updateCatch, Prog.post_tryCatch, Prog.post_bind, Option.forall,
    Prog.post_ite, Prog.post_call, Prog.post_emit, Prog.post_ret, Prog.post_pure,
    Prog.post_throw] <;>
  (repeat' (first | apply And.intro | intro _)) <;>
  simp_all

theorem updatePage_icon_absent (C : Collab σ) (req : Request) (w : σ) (iconFile : IconFile)
    (page : Page) (name icon : String) (hvalid : req.validationErrors = [])
    (hicon : req.icon = some iconFile)
    (htype : listIncludes allowedTypes iconFile.mimetype = true)
    (hfound : (C.findById (.str req.id) w).1 = .ok (some page))
    (hstore : ((storeIcon C iconFile).fresh (C.findById (.str req.id) w).2).1 = .ok name)
    (hpage : page.icon = .str icon)
    (hex : C.existsSync (oldIconPath C icon)
      ((storeIcon C iconFile).fresh (C.findById (.str req.id) w).2).2.world = false) :
    ∃ post, traceOf (updatePage C req) w =
      .findById (.str req.id) (.ok (some page)) ::
        (((storeIcon C iconFile).fresh (C.findById (.str req.id) w).2).2.trace ++
          ((if icon = "" then [] else [.existsSync (oldIconPath C icon) false]) ++
            .update (.str req.id) (iconPatch req name)
              (C.update (.str req.id) (iconPatch req name)
                ((storeIcon C iconFile).fresh (C.findById (.str req.id) w).2).2.world).1 ::
            post)) := by
  have hname := storeIcon_name C iconFile _ name hstore
  have hR := removeIcon_absent C page icon _ hpage hex
  revert hstore hfound
  show (updatePage C req).Post ⟨w, []⟩ (fun _ r =>
    (C.findById (.str req.id) w).1 = .ok (some page) →
    ((storeIcon C iconFile).fresh (C.findById (.str req.id) w).2).1 = .ok name →
    ∃ post, r.trace =
      .findById (.str req.id) (.ok (some page)) ::
        (((storeIcon C iconFile).fresh (C.findById (.str req.id) w).2).2.trace ++
          ((if icon = "" then [] else [.existsSync (oldIconPath C icon) false]) ++
            .update (.str req.id) (iconPatch req name)
              (C.update (.str req.id) (iconPatch req name)
                ((storeIcon C iconFile).fresh (C.findById (.str req.id) w).2).2.world).1 ::
            post)))
  obtain ⟨rid, pageUrl, query, body, verrs, ricon, user⟩ := req
  simp only at hvalid hicon
  subst hvalid hicon
  cases user <;>
  simp only [updatePage, respond, reqUser, typeError, post_storeIcon, post_removeIcon,
    post_updateCatch, Prog.post_tryCatch, Prog.post_bind, Option.forall,
    Prog.post_ite, Prog.post_call, Prog.post_emit, Prog.post_ret, Prog.post_pure,
    Prog.post_throw] <;>
  (repeat' (first | apply And.intro | intro _)) <;>
  simp_all [iconPatch]

theorem updatePage_icon_absent_unlink (C : Collab σ) (req : Request) (w : σ)
    (iconFile : IconFile) (page : Page) (name icon : String)
    (hvalid : req.validationErrors = []) (hicon : req.icon = some iconFile)
    (hfound : (C.findById (.str req.id) w).1 = .ok (some page))
    (hstore : ((storeIcon C iconFile).fresh (C.findById (.str req.id) w).2).1 = .ok name)
    (hpage : page.icon = .str icon)
    (hex : C.existsSync (oldIconPath C icon)
      ((storeIcon C iconFile).fresh (C.findById (.str req.id) w).2).2.world = false) :
    hasUnlink (traceOf (updatePage C req) w) = false := by
  have hR := removeIcon_absent C page icon _ hpage hex
  revert hstore hfound
  show (updatePage C req).Post ⟨w, []⟩ (fun _ r =>
    (C.findById (.str req.id) w).1 = .ok (some page) →
    ((storeIcon C iconFile).fresh (C.findById (.str req.id) w).2).1 = .ok name →
    hasUnlink r.trace = false)
  obtain ⟨rid, pageUrl, query, body, verrs, ricon, user⟩ := req
  simp only at hvalid hicon
  subst hvalid hicon
  cases user <;>
  simp only [updatePage, respond, reqUser, typeError, post_storeIcon, post_removeIcon,
    post_updateCatch, Prog.post_tryCatch, Prog.post_bind, Option.forall,
    Prog.post_ite, Prog.post_call, Prog.post_emit, Prog.post_ret, Prog.post_pure,
    Prog.post_throw] <;>
  (repeat' (first | apply And.intro | intro _)) <;>
  (by_cases hempty : icon = "" <;>
    simp_all [hasUnlink, hasUnlink_store, Event.isUnlink])

theorem updatePage_icon_present (C : Collab σ) (req : Request) (w : σ)
    (iconFile : IconFile) (page : Page) (name icon : String)
    (hvalid : req.validationErrors = []) (hicon : req.icon = some iconFile)
    (htype : listIncludes allowedTypes iconFile.mimetype = true)
    (hfound : (C.findById (.str req.id) w).1 = .ok (some page))
    (hstore : ((storeIcon C iconFile).fresh (C.findById (.str req.id) w).2).1 = .ok name)
    (hpage : page.icon = .str icon) (hne : icon ≠ "")
    (hex : C.existsSync (oldIconPath C icon)
      ((storeIcon C iconFile).fresh (C.findById (.str req.id) w).2).2.world = true) :
    ∃ post, traceOf (updatePage C req) w =
      .findById (.str req.id) (.ok (some page)) ::
        (((storeIcon C iconFile).fresh (C.findById (.str req.id) w).2).2.trace ++
          (.existsSync (oldIconPath C icon) true ::
            .unlinkSync (oldIconPath C icon)
              (C.unlinkSync (oldIconPath C icon) ((storeIcon C iconFile).fresh (C.findById (.str req.id) w).2).2.world).1 ::
            post)) := by
  have hname := storeIcon_name C iconFile _ name hstore
  have hR := removeIcon_present C page icon _ hpage hne hex
  revert hstore hfound
  show (updatePage C req).Post ⟨w, []⟩ (fun _ r =>
    (C.findById (.str req.id) w).1 = .ok (some page) →
    ((storeIcon C iconFile).fresh (C.findById (.str req.id) w).2).1 = .ok name →
    ∃ post, r.trace =
      .findById (.str req.id) (.ok (some page)) ::
        (((storeIcon C iconFile).fresh (C.findById (.str req.id) w).2).2.trace ++
          (.existsSync (oldIconPath C icon) true ::
            .unlinkSync (oldIconPath C icon)
              (C.unlinkSync (oldIconPath C icon) ((storeIcon C iconFile).fresh (C.findById (.str req.id) w).2).2.world).1 ::
            post)))
  obtain ⟨rid, pageUrl, query, body, verrs, ricon, user⟩ := req
  simp only at hvalid hicon
  subst hvalid hicon
  cases user <;>
  simp only [updatePage, respond, reqUser, typeError, post_storeIcon, post_removeIcon,
    post_updateCatch, Prog.post_tryCatch, Prog.post_bind, Option.forall,
    Prog.post_ite, Prog.post_call, Prog.post_emit, Prog.post_ret, Prog.post_pure,
    Prog.post_throw] <;>
  (repeat' (first | apply And.intro | intro _)) <;>
  simp_all [iconPatch]

theorem updatePage_icon_unlinked (C : Collab σ) (req : Request) (w : σ)
    (iconFile : IconFile) (page : Page) (name icon : String)
    (hvalid : req.validationErrors = []) (hicon : req.icon = some iconFile)
    (htype : listIncludes allowedTypes iconFile.mimetype = true)
    (hfound : (C.findById (.str req.id) w).1 = .ok (some page))
    (hstore : ((storeIcon C iconFile).fresh (C.findById (.str req.id) w).2).1 = .ok name)
    (hpage : page.icon = .str icon) (hne : icon ≠ "")
    (hex : C.existsSync (oldIconPath C icon)
      ((storeIcon C iconFile).fresh (C.findById (.str req.id) w).2).2.world = true)
    (hunlink : (C.unlinkSync (oldIconPath C icon)
      ((storeIcon C iconFile).fresh (C.findById (.str req.id) w).2).2.world).1 = .ok ()) :
    ∃ post, traceOf (updatePage C req) w =
      .findById (.str req.id) (.ok (some page)) ::
        (((storeIcon C iconFile).fresh (C.findById (.str req.id) w).2).2.trace ++
          (.existsSync (oldIconPath C icon) true ::
            .unlinkSync (oldIconPath C icon) (.ok ()) ::
            .update (.str req.id) (iconPatch req name)
              (C.update (.str req.id) (iconPatch req name)
                (C.unlinkSync (oldIconPath C icon) ((storeIcon C iconFile).fresh (C.findById (.str req.id) w).2).2.world).2).1 ::
            post)) := by
  have hname := storeIcon_name C iconFile _ name hstore
  have hR := removeIcon_present C page icon _ hpage hne hex
  revert hstore hfound
  show (updatePage C req).Post ⟨w, []⟩ (fun _ r =>
    (C.findById (.str req.id) w).1 = .ok (some page) →
    ((storeIcon C iconFile).fresh (C.findById (.str req.id) w).2).1 = .ok name →
    ∃ post, r.trace =
      .findById (.str req.id) (.ok (some page)) ::
        (((storeIcon C iconFile).fresh (C.findById (.str req.id) w).2).2.trace ++
          (.existsSync (oldIconPath C icon) true ::
            .unlinkSync (oldIconPath C icon) (.ok ()) ::
            .update (.str req.id) (iconPatch req name)
              (C.update (.str req.id) (iconPatch req name)
                (C.unlinkSync (oldIconPath C icon) ((storeIcon C iconFile).fresh (C.findById (.str req.id) w).2).2.world).2).1 ::
            post)))
  obtain ⟨rid, pageUrl, query, body, verrs, ricon, user⟩ := req
  simp only at hvalid hicon
  subst hvalid hicon
  cases user <;>
  simp only [updatePage, respond, reqUser, typeError, post_storeIcon, post_removeIcon,
    post_updateCatch, Prog.post_tryCatch, Prog.post_bind, Option.forall,
    Prog.post_ite, Prog.post_call, Prog.post_emit, Prog.post_ret, Prog.post_pure,
    Prog.post_throw] <;>
  (repeat' (first | apply And.intro | intro _)) <;>
  simp_all [iconPatch]

theorem updatePage_unlink_threw (C : Collab σ) (req : Request) (w : σ)
    (iconFile : IconFile) (page : Page) (name icon : String) (e : JsError)
    (hvalid : req.validationErrors = []) (hicon : req.icon = some iconFile)
    (htype : listIncludes allowedTypes iconFile.mimetype = true)
    (hfound : (C.findById (.str req.id) w).1 = .ok (some page))
    (hstore : ((storeIcon C iconFile).fresh (C.findById (.str req.id) w).2).1 = .ok name)
    (hpage : page.icon = .str icon) (hne : icon ≠ "")
    (hex : C.existsSync (oldIconPath C icon)
      ((storeIcon C iconFile).fresh (C.findById (.str req.id) w).2).2.world = true)
    (hunlink : (C.unlinkSync (oldIconPath C icon)
      ((storeIcon C iconFile).fresh (C.findById (.str req.id) w).2).2.world).1 = .threw e) :
    traceOf (updatePage C req) w =
      .findById (.str req.id) (.ok (some page)) ::
        (((storeIcon C iconFile).fresh (C.findById (.str req.id) w).2).2.trace ++
          [.existsSync (oldIconPath C icon) true,
           .unlinkSync (oldIconPath C icon) (.threw e),
           .consoleError "Update page error:" e,
           .respond (catchResponse C "Failed to update page" e).1
             (catchResponse C "Failed to update page" e).2]) := by
  have hname := storeIcon_name C iconFile _ name hstore
  have hR := removeIcon_present C page icon _ hpage hne hex
  revert hstore hfound
  show (updatePage C req).Post ⟨w, []⟩ (fun _ r =>
    (C.findById (.str req.id) w).1 = .ok (some page) →
    ((storeIcon C iconFile).fresh (C.findById (.str req.id) w).2).1 = .ok name →
    r.trace =
      .findById (.str req.id) (.ok (some page)) ::
        (((storeIcon C iconFile).fresh (C.findById (.str req.id) w).2).2.trace ++
          [.existsSync (oldIconPath C icon) true,
           .unlinkSync (oldIconPath C icon) (.threw e),
           .consoleError "Update page error:" e,
           .respond (catchResponse C "Failed to update page" e).1
             (catchResponse C "Failed to update page" e).2]))
  obtain ⟨rid, pageUrl, query, body, verrs, ricon, user⟩ := req
  simp only at hvalid hicon
  subst hvalid hicon
  cases user <;>
  simp only [updatePage, respond, reqUser, typeError, post_storeIcon, post_removeIcon,
    post_updateCatch, Prog.post_tryCatch, Prog.post_bind, Option.forall,
    Prog.post_ite, Prog.post_call, Prog.post_emit, Prog.post_ret, Prog.post_pure,
    Prog.post_throw] <;>
  (repeat' (first | apply And.intro | intro _)) <;>
  simp_all [iconPatch]

/-- C14. In an `updatePage` request that passes validation, carries an icon file
of an allowed type and names an existing page, the previous icon file is removed
after the new one has been stored, and only then: whatever precedes an
`unlinkSync` call holds an `mv` call that returned, and a run in which
`mkdirSync` or `mv` threw holds no `unlinkSync` call. When the lines that store
the new file throw `e`, no file is unlinked and the response is the one of the
`catch` block for `e`. When they return and the file of the previous icon is
absent from disk, no file is unlinked and the handler goes on to call
`Page.update` with the patch that names the new icon. When they return and the
page has an icon whose file is on disk, the new file has been moved to its path
and the next calls are `existsSync` and `unlinkSync` of the path of the previous
icon; when `unlinkSync` returns, `Page.update` is called next, in the world
`unlinkSync` left, and when it throws `e` the run ends with the response of the
`catch` block for `e`. -/
theorem updatePage_icon_replacement (C : Collab σ) (req : Request) (w : σ)
    (iconFile : IconFile) (page : Page) (hvalid : req.validationErrors = [])
    (hicon : req.icon = some iconFile)
    (htype : listIncludes allowedTypes iconFile.mimetype = true)
    (hfound : (C.findById (.str req.id) w).1 = .ok (some page)) :
    UnlinkAfterStore (traceOf (updatePage C req) w) ∧
    (∀ e, ((storeIcon C iconFile).fresh (C.findById (.str req.id) w).2).1 = .threw e →
      (∀ ev ∈ traceOf (updatePage C req) w, ev.isUnlink = false) ∧
      responses (traceOf (updatePage C req) w) = [catchResponse C "Failed to update page" e]) ∧
    (∀ name icon,
      ((storeIcon C iconFile).fresh (C.findById (.str req.id) w).2).1 = .ok name →
      page.icon = .str icon →
      C.existsSync (oldIconPath C icon)
        ((storeIcon C iconFile).fresh (C.findById (.str req.id) w).2).2.world = false →
      (∀ ev ∈ traceOf (updatePage C req) w, ev.isUnlink = false) ∧
      ∃ post, traceOf (updatePage C req) w =
        .findById (.str req.id) (.ok (some page)) ::
          (((storeIcon C iconFile).fresh (C.findById (.str req.id) w).2).2.trace ++
            ((if icon = "" then [] else [.existsSync (oldIconPath C icon) false]) ++
              .update (.str req.id) (iconPatch req name)
                (C.update (.str req.id) (iconPatch req name)
                  ((storeIcon C iconFile).fresh (C.findById (.str req.id) w).2).2.world).1 ::
              post))) ∧
    (∀ name icon,
      ((storeIcon C iconFile).fresh (C.findById (.str req.id) w).2).1 = .ok name →
      page.icon = .str icon → icon ≠ "" →
      C.existsSync (oldIconPath C icon)
        ((storeIcon C iconFile).fresh (C.findById (.str req.id) w).2).2.world = true →
      Event.mv iconFile (uploadPath C (C.dateNow (C.findById (.str req.id) w).2) iconFile)
          (.ok ()) ∈ ((storeIcon C iconFile).fresh (C.findById (.str req.id) w).2).2.trace ∧
      (∃ post, traceOf (updatePage C req) w =
        .findById (.str req.id) (.ok (some page)) ::
          (((storeIcon C iconFile).fresh (C.findById (.str req.id) w).2).2.trace ++
            (.existsSync (oldIconPath C icon) true ::
              .unlinkSync (oldIconPath C icon)
                (C.unlinkSync (oldIconPath C icon) ((storeIcon C iconFile).fresh (C.findById (.str req.id) w).2).2.world).1 ::
              post))) ∧
      ((C.unlinkSync (oldIconPath C icon) ((storeIcon C iconFile).fresh (C.findById (.str req.id) w).2).2.world).1 = .ok () →
        ∃ post, traceOf (updatePage C req) w =
          .findById (.str req.id) (.ok (some page)) ::
            (((storeIcon C iconFile).fresh (C.findById (.str req.id) w).2).2.trace ++
              (.existsSync (oldIconPath C icon) true ::
                .unlinkSync (oldIconPath C icon) (.ok ()) ::
                .update (.str req.id) (iconPatch req name)
                  (C.update (.str req.id) (iconPatch req name)
                    (C.unlinkSync (oldIconPath C icon) ((storeIcon C iconFile).fresh (C.findById (.str req.id) w).2).2.world).2).1 ::
                post))) ∧
      (∀ e, (C.unlinkSync (oldIconPath C icon) ((storeIcon C iconFile).fresh (C.findById (.str req.id) w).2).2.world).1 = .threw e →
        traceOf (updatePage C req) w =
          .findById (.str req.id) (.ok (some page)) ::
            (((storeIcon C iconFile).fresh (C.findById (.str req.id) w).2).2.trace ++
              [.existsSync (oldIconPath C icon) true,
               .unlinkSync (oldIconPath C icon) (.threw e),
               .consoleError "Update page error:" e,
               .respond (catchResponse C "Failed to update page" e).1
                 (catchResponse C "Failed to update page" e).2]))) := by
  refine ⟨storeDiscipline_sound _ (updatePage_storeDiscipline C req w), ?_, ?_, ?_⟩
  · intro e hstore
    have ht := updatePage_store_failed C req w iconFile page e hvalid hicon htype hfound hstore
    constructor
    · apply hasUnlink_false
      rw [ht]
      simp [hasUnlink, hasUnlink_store, Event.isUnlink]
    · rw [ht]
      simp [responses, responses_append, responses_fs, storeIcon_fs]
  · intro name icon hstore hpage hex
    exact ⟨hasUnlink_false _
        (updatePage_icon_absent_unlink C req w iconFile page name icon hvalid hicon hfound
          hstore hpage hex),
      updatePage_icon_absent C req w iconFile page name icon hvalid hicon htype hfound hstore
        hpage hex⟩
  · intro name icon hstore hpage hne hex
    exact ⟨storeIcon_stored C iconFile _ name hstore,
      updatePage_icon_present C req w iconFile page name icon hvalid hicon htype hfound hstore
        hpage hne hex,
      fun hunlink => updatePage_icon_unlinked C req w iconFile page name icon hvalid hicon
        htype hfound hstore hpage hne hex hunlink,
      fun e hunlink => updatePage_unlink_threw C req w iconFile page name icon e hvalid hicon
        htype hfound hstore hpage hne hex hunlink⟩

theorem updatePage_icon_replacement_witness :
    UnlinkAfterStore (traceOf (updatePage (Store.collab none) Sample.updateIcon)
      Sample.assignedWorld) ∧
    (∀ ev ∈ traceOf (updatePage (Store.collab none) Sample.updateIcon) Sample.lostIconWorld,
      ev.isUnlink = false) ∧
    ∃ post, traceOf (updatePage (Store.collab none) Sample.updateIcon) Sample.assignedWorld =
      .findById (.str "1") (.ok (some Sample.docsPageWithIcon)) ::
        ([.existsSync "/srv/backend/uploads/icons" true,
          .mv { name := "logo.png", mimetype := .str "image/png" }
            "/srv/backend/uploads/icons/page_1700_logo.png" (.ok ())] ++
          (.existsSync "/srv/backend/uploads/icons/page_1600_old.png" true ::
            .unlinkSync "/srv/backend/uploads/icons/page_1600_old.png" (.ok ()) ::
            .update (.str "1") [("icon", .str "/uploads/icons/page_1700_logo.png")]
              (.ok (some { Sample.docsPageWithIcon with
                icon := .str "/uploads/icons/page_1700_logo.png" })) ::
            post)) :=
  ⟨(updatePage_icon_replacement (Store.collab none) Sample.updateIcon Sample.assignedWorld
      { name := "logo.png", mimetype := .str "image/png" } Sample.docsPageWithIcon rfl rfl
      (by decide) (by decide)).1,
   ((updatePage_icon_replacement (Store.collab none) Sample.updateIcon Sample.lostIconWorld
      { name := "logo.png", mimetype := .str "image/png" } Sample.docsPageWithIcon rfl rfl
      (by decide) (by decide)).2.2.1 "page_1700_logo.png" "/uploads/icons/page_1600_old.png"
      (by decide) rfl (by decide)).1,
   ((updatePage_icon_replacement (Store.collab none) Sample.updateIcon Sample.assignedWorld
      { name := "logo.png", mimetype := .str "image/png" } Sample.docsPageWithIcon rfl rfl
      (by decide) (by decide)).2.2.2 "page_1700_logo.png" "/uploads/icons/page_1600_old.png"
      (by decide) rfl (by decide) (by decide)).2.2.1 (by decide)⟩

theorem getPages_errorReporting (C : Collab σ) (req : Request) (w : σ) :
    ErrorReporting C "Failed to retrieve pages" (traceOf (getPages C req) w) := by
  show (getPages C req).Post ⟨w, []⟩ (fun _ r =>
    ErrorReporting C "Failed to retrieve pages" r.trace)
  simp only [getPages, respond, Prog.post_tryCatch, Prog.post_bind, Prog.post_call,
    Prog.post_emit, Prog.post_ret, Prog.post_pure]
  (repeat' (first | apply And.intro | intro _)) <;>
  simp_all [ErrorReporting, errorField, caught, responses, responses_append]

theorem getPageById_errorReporting (C : Collab σ) (req : Request) (w : σ) :
    ErrorReporting C "Failed to retrieve page" (traceOf (getPageById C req) w) := by
  show (getPageById C req).Post ⟨w, []⟩ (fun _ r =>
    ErrorReporting C "Failed to retrieve page" r.trace)
  simp only [getPageById, respond, Prog.post_tryCatch, Prog.post_bind, Option.forall,
    Prog.post_call, Prog.post_emit, Prog.post_ret, Prog.post_pure]
  (repeat' (first | apply And.intro | intro _)) <;>
  simp_all [ErrorReporting, errorField, caught, responses, responses_append]

theorem getPagesByUser_errorReporting (C : Collab σ) (req : Request) (w : σ) :
    ErrorReporting C "Failed to retrieve user pages" (traceOf (getPagesByUser C req) w) := by
  show (getPagesByUser C req).Post ⟨w, []⟩ (fun _ r =>
    ErrorReporting C "Failed to retrieve user pages" r.trace)
  rcases req with ⟨id, pageUrl, query, body, verrs, icon, user⟩
  cases user <;>
  simp only [getPagesByUser, respond, reqUser, typeError, Prog.post_tryCatch, Prog.post_bind,
    Prog.post_call, Prog.post_emit, Prog.post_ret, Prog.post_pure, Prog.post_throw] <;>
  (repeat' (first | apply And.intro | intro _)) <;>
  simp_all [ErrorReporting, errorField, caught, responses, responses_append]

theorem checkPageAccess_errorReporting (C : Collab σ) (req : Request) (w : σ) :
    ErrorReporting C "Failed to check page access" (traceOf (checkPageAccess C req) w) := by
  show (checkPageAccess C req).Post ⟨w, []⟩ (fun _ r =>
    ErrorReporting C "Failed to check page access" r.trace)
  rcases req with ⟨id, pageUrl, query, body, verrs, icon, user⟩
  cases user <;>
  simp only [checkPageAccess, respond, reqUser, typeError, Prog.post_tryCatch, Prog.post_bind,
    Prog.post_call, Prog.post_emit, Prog.post_ret, Prog.post_pure, Prog.post_throw] <;>
  (repeat' (first | apply And.intro | intro _)) <;>
  simp_all [ErrorReporting, errorField, caught, responses, responses_append]

theorem getStats_errorReporting (C : Collab σ) (req : Request) (w : σ) :
    ErrorReporting C "Failed to retrieve page statistics" (traceOf (getStats C req) w) := by
  show (getStats C req).Post ⟨w, []⟩ (fun _ r =>
    ErrorReporting C "Failed to retrieve page statistics" r.trace)
  simp only [getStats, respond, Prog.post_tryCatch, Prog.post_bind, Prog.post_call,
    Prog.post_emit, Prog.post_ret, Prog.post_pure]
  (repeat' (first | apply And.intro | intro _)) <;>
  simp_all [ErrorReporting, errorField, caught, responses, responses_append]

theorem getAllSimple_errorReporting (C : Collab σ) (req : Request) (w : σ) :
    ErrorReporting C "Failed to retrieve pages" (traceOf (getAllSimple C req) w) := by
  show (getAllSimple C req).Post ⟨w, []⟩ (fun _ r =>
    ErrorReporting C "Failed to retrieve pages" r.trace)
  simp only [getAllSimple, respond, Prog.post_tryCatch, Prog.post_bind, Prog.post_call,
    Prog.post_emit, Prog.post_ret, Prog.post_pure]
  (repeat' (first | apply And.intro | intro _)) <;>
  simp_all [ErrorReporting, errorField, caught, responses, responses_append]

theorem createPage_errorReporting (C : Collab σ) (req : Request) (w : σ) :
    ErrorReporting C "Failed to create page" (traceOf (createPage C req) w) := by
  show (createPage C req).Post ⟨w, []⟩ (fun _ r =>
    ErrorReporting C "Failed to create page" r.trace)
  rcases req with ⟨id, pageUrl, query, body, verrs, icon, user⟩
  cases user <;> cases icon <;>
  simp only [createPage, respond, reqUser, typeError, post_storeIcon, post_createCatch,
    Prog.post_tryCatch, Prog.post_bind, Prog.post_ite, Prog.post_call, Prog.post_emit,
    Prog.post_ret, Prog.post_pure, Prog.post_throw] <;>
  (repeat' (first | apply And.intro | intro _)) <;>
  simp_all [ErrorReporting, errorField, caught, caught_fs, responses, responses_append,
    responses_fs, storeIcon_fs, catchResponse, invalidFileType] <;>
  (split_ifs at * <;> simp_all)

theorem updatePage_errorReporting (C : Collab σ) (req : Request) (w : σ) :
    ErrorReporting C "Failed to update page" (traceOf (updatePage C req) w) := by
  show (updatePage C req).Post ⟨w, []⟩ (fun _ r =>
    ErrorReporting C "Failed to update page" r.trace)
  rcases req with ⟨id, pageUrl, query, body, verrs, icon, user⟩
  cases user <;> cases icon <;>
  simp only [updatePage, respond, reqUser, typeError, post_storeIcon, post_removeIcon,
    post_updateCatch, Prog.post_tryCatch, Prog.post_bind, Option.forall,
    Prog.post_ite, Prog.post_call, Prog.post_emit, Prog.post_ret, Prog.post_pure,
    Prog.post_throw] <;>
  (repeat' (first | apply And.intro | intro _)) <;>
  simp_all [ErrorReporting, errorField, caught, caught_fs, responses, responses_append,
    responses_fs, storeIcon_fs, removeIcon_fs, catchResponse, invalidFileType] <;>
  (split_ifs at * <;> simp_all)

theorem deletePage_errorReporting (C : Collab σ) (req : Request) (w : σ) :
    ErrorReporting C "Failed to delete page" (traceOf (deletePage C req) w) := by
  show (deletePage C req).Post ⟨w, []⟩ (fun _ r =>
    ErrorReporting C "Failed to delete page" r.trace)
  rcases req with ⟨id, pageUrl, query, body, verrs, icon, user⟩
  cases user <;>
  simp only [deletePage, respond, reqUser, typeError, post_removeIcon, post_deleteCatch,
    Prog.post_tryCatch, Prog.post_bind, Option.forall, Bool.forall_bool,
    Prog.post_ite, Prog.post_call, Prog.post_emit, Prog.post_ret, Prog.post_pure,
    Prog.post_throw] <;>
  (repeat' (first | apply And.intro | intro _)) <;>
  simp_all [ErrorReporting, errorField, caught, caught_fs, responses, responses_append,
    responses_fs, removeIcon_fs, deleteCatchResponse] <;>
  (split_ifs at * <;> simp_all)

/-- C15. Every 500 response of a handler of the page controller is the envelope
with `success: false`, the fixed generic message of that handler and the `error`
property `errorField`: the message of the caught error when `NODE_ENV` is
`development`, and undefined in every other configuration, and also when nothing
was caught, which is the case of the 500 response `deletePage` sends for a falsy
result of `Page.delete`. Every 400 and 404 response is the validation body or an
envelope with `success: false` and no `error` property. -/
theorem error_text_in_development (C : Collab σ) (req : Request) (w : σ) :
    ErrorReporting C "Failed to retrieve pages" (traceOf (getPages C req) w) ∧
    ErrorReporting C "Failed to retrieve page" (traceOf (getPageById C req) w) ∧
    ErrorReporting C "Failed to create page" (traceOf (createPage C req) w) ∧
    ErrorReporting C "Failed to update page" (traceOf (updatePage C req) w) ∧
    ErrorReporting C "Failed to delete page" (traceOf (deletePage C req) w) ∧
    ErrorReporting C "Failed to retrieve user pages" (traceOf (getPagesByUser C req) w) ∧
    ErrorReporting C "Failed to check page access" (traceOf (checkPageAccess C req) w) ∧
    ErrorReporting C "Failed to retrieve page statistics" (traceOf (getStats C req) w) ∧
    ErrorReporting C "Failed to retrieve pages" (traceOf (getAllSimple C req) w) :=
  ⟨getPages_errorReporting C req w, getPageById_errorReporting C req w,
   createPage_errorReporting C req w, updatePage_errorReporting C req w,
   deletePage_errorReporting C req w, getPagesByUser_errorReporting C req w,
   checkPageAccess_errorReporting C req w, getStats_errorReporting C req w,
   getAllSimple_errorReporting C req w⟩

/-- C15 fails as stated: with `NODE_ENV` set to `development`, `deletePage`
answers a falsy result of `Page.delete` with a 500 response that has no `error`
property, as nothing was caught. -/
theorem deletePage_500_without_error_text :
    (Store.collabRowGone (some "development")).nodeEnv = some "development" ∧
    traceOf (deletePage (Store.collabRowGone (some "development")) Sample.deleteDocs)
        Sample.docsWorld =
      [.findById (.str "1") (.ok (some Sample.docsPage)), .delete (.str "1") (.ok false),
       .respond 500 (.envelope false "Failed to delete page" .absent none)] ∧
    caught (traceOf (deletePage (Store.collabRowGone (some "development")) Sample.deleteDocs)
      Sample.docsWorld) = none := by
  decide

/-- A `createPage` request whose icon file has been stored and whose insert is
then rejected: the run ends with the response of the `catch` block, and nothing
removes the stored file. -/
theorem createPage_create_threw (C : Collab σ) (req : Request) (w : σ) (iconFile : IconFile)
    (user : ReqUser) (name : String) (e : JsError)
    (hvalid : req.validationErrors = []) (hicon : req.icon = some iconFile)
    (htype : listIncludes allowedTypes iconFile.mimetype = true)
    (huser : req.user = some user)
    (hstore : ((storeIcon C iconFile).fresh w).1 = .ok name)
    (hcreate : (C.create (iconPageData req user.id name)
      ((storeIcon C iconFile).fresh w).2.world).1 = .threw e) :
    (run (createPage C req) w).2 =
      { world := (C.create (iconPageData req user.id name)
          ((storeIcon C iconFile).fresh w).2.world).2,
        trace := ((storeIcon C iconFile).fresh w).2.trace ++
          [.create (iconPageData req user.id name) (.threw e),
           .consoleError "Create page error:" e,
           .respond (catchResponse C "Failed to create page" e).1
             (catchResponse C "Failed to create page" e).2] } := by
  have hname := storeIcon_name C iconFile _ name hstore
  revert hstore
  show (createPage C req).Post ⟨w, []⟩ (fun _ r =>
    ((storeIcon C iconFile).fresh w).1 = .ok name →
    r =
      { world := (C.create (iconPageData req user.id name)
          ((storeIcon C iconFile).fresh w).2.world).2,
        trace := ((storeIcon C iconFile).fresh w).2.trace ++
          [.create (iconPageData req user.id name) (.threw e),
           .consoleError "Create page error:" e,
           .respond (catchResponse C "Failed to create page" e).1
             (catchResponse C "Failed to create page" e).2] })
  obtain ⟨rid, pageUrl, query, body, verrs, ricon, ruser⟩ := req
  simp only at hvalid hicon huser
  subst hvalid hicon huser
  simp only [createPage, respond, reqUser, typeError, post_storeIcon, post_createCatch,
    Prog.post_tryCatch, Prog.post_bind, Prog.post_ite, Prog.post_call, Prog.post_emit,
    Prog.post_ret, Prog.post_pure, Prog.post_throw]
  (repeat' (first | apply And.intro | intro _)) <;>
  simp_all [iconPageData]

/-- C18. Partial failure between storing the icon file and writing the database
row is possible in `createPage`: there are collaborators, a request that passes
validation and carries an icon of an allowed type, and a world in which the file
is moved to its path under `uploads/icons`, `Page.create` then throws (a
duplicate url, `ER_DUP_ENTRY`), the error is logged and the response is 400
"Page URL already exists". These calls and the creation of the uploads directory
before them are the whole run: no row is created and no call removes the stored
file. -/
theorem createPage_partial_failure :
    ∃ (τ : Type) (C : Collab τ) (req : Request) (w : τ) (iconFile : IconFile)
      (user : ReqUser) (e : JsError),
      req.validationErrors = [] ∧ req.icon = some iconFile ∧ req.user = some user ∧
      listIncludes allowedTypes iconFile.mimetype = true ∧
      e.code = some "ER_DUP_ENTRY" ∧
      traceOf (createPage C req) w =
        [.existsSync (Path.dirname (uploadPath C (C.dateNow w) iconFile)) false,
         .mkdirSync (Path.dirname (uploadPath C (C.dateNow w) iconFile)) (.ok ()),
         .mv iconFile (uploadPath C (C.dateNow w) iconFile) (.ok ()),
         .create (iconPageData req user.id (iconFileName (C.dateNow w) iconFile)) (.threw e),
         .consoleError "Create page error:" e,
         .respond 400 (.envelope false "Page URL already exists" .absent none)] ∧
      uploadPath C (C.dateNow w) iconFile =
        Path.join [C.dirname, "../../uploads/icons/"] ++ iconFileName (C.dateNow w) iconFile ∧
      hasUnlink (traceOf (createPage C req) w) = false :=
  ⟨Store.World, Store.collab none, Sample.createDocsIcon, Sample.docsWorld,
    { name := "logo.png", mimetype := .str "image/png" }, Sample.ann, Store.dupEntry,
    by decide⟩

theorem updatePage_update_threw (C : Collab σ) (req : Request) (w : σ) (iconFile : IconFile)
    (page : Page) (icon : String) (id : JsVal) (patch : Obj) (e : JsError)
    (hvalid : req.validationErrors = []) (hicon : req.icon = some iconFile)
    (htype : listIncludes allowedTypes iconFile.mimetype = true)
    (hfound : (C.findById (.str req.id) w).1 = .ok (some page))
    (hpage : page.icon = .str icon) (hne : icon ≠ "")
    (hex : C.existsSync (oldIconPath C icon)
      ((storeIcon C iconFile).fresh (C.findById (.str req.id) w).2).2.world = true)
    (hthrew : Event.update id patch (.threw e) ∈ traceOf (updatePage C req) w) :
    traceOf (updatePage C req) w =
      .findById (.str req.id) (.ok (some page)) ::
        (((storeIcon C iconFile).fresh (C.findById (.str req.id) w).2).2.trace ++
          [.existsSync (oldIconPath C icon) true,
           .unlinkSync (oldIconPath C icon) (.ok ()),
           .update (.str req.id)
             (iconPatch req (iconFileName (C.dateNow (C.findById (.str req.id) w).2) iconFile))
             (.threw e),
           .consoleError "Update page error:" e,
           .respond (catchResponse C "Failed to update page" e).1
             (catchResponse C "Failed to update page" e).2]) := by
  have hR := removeIcon_present C page icon _ hpage hne hex
  revert hthrew hfound
  show (updatePage C req).Post ⟨w, []⟩ (fun _ r =>
    (C.findById (.str req.id) w).1 = .ok (some page) →
    Event.update id patch (.threw e) ∈ r.trace →
    r.trace =
      .findById (.str req.id) (.ok (some page)) ::
        (((storeIcon C iconFile).fresh (C.findById (.str req.id) w).2).2.trace ++
          [.existsSync (oldIconPath C icon) true,
           .unlinkSync (oldIconPath C icon) (.ok ()),
           .update (.str req.id)
             (iconPatch req (iconFileName (C.dateNow (C.findById (.str req.id) w).2) iconFile))
             (.threw e),
           .consoleError "Update page error:" e,
           .respond (catchResponse C "Failed to update page" e).1
             (catchResponse C "Failed to update page" e).2]))
  obtain ⟨rid, pageUrl, query, body, verrs, ricon, user⟩ := req
  simp only at hvalid hicon
  subst hvalid hicon
  cases user <;>
  simp only [updatePage, respond, reqUser, typeError, post_storeIcon, post_removeIcon,
    post_updateCatch, Prog.post_tryCatch, Prog.post_bind, Option.forall,
    Prog.post_ite, Prog.post_call, Prog.post_emit, Prog.post_ret, Prog.post_pure,
    Prog.post_throw] <;>
  (repeat' (first | apply And.intro | intro _)) <;>
  simp_all [iconPatch, storeIcon_fs, mem_fs, Event.isFs]

theorem updatePage_update_threw_stored (C : Collab σ) (req : Request) (w : σ)
    (iconFile : IconFile) (page : Page) (icon : String) (id : JsVal) (patch : Obj)
    (e : JsError) (hvalid : req.validationErrors = []) (hicon : req.icon = some iconFile)
    (htype : listIncludes allowedTypes iconFile.mimetype = true)
    (hfound : (C.findById (.str req.id) w).1 = .ok (some page))
    (hpage : page.icon = .str icon) (hne : icon ≠ "")
    (hex : C.existsSync (oldIconPath C icon)
      ((storeIcon C iconFile).fresh (C.findById (.str req.id) w).2).2.world = true)
    (hthrew : Event.update id patch (.threw e) ∈ traceOf (updatePage C req) w) :
    ((storeIcon C iconFile).fresh (C.findById (.str req.id) w).2).1 =
      .ok (iconFileName (C.dateNow (C.findById (.str req.id) w).2) iconFile) := by
  have hR := removeIcon_present C page icon _ hpage hne hex
  revert hthrew hfound
  show (updatePage C req).Post ⟨w, []⟩ (fun _ r =>
    (C.findById (.str req.id) w).1 = .ok (some page) →
    Event.update id patch (.threw e) ∈ r.trace →
    ((storeIcon C iconFile).fresh (C.findById (.str req.id) w).2).1 =
      .ok (iconFileName (C.dateNow (C.findById (.str req.id) w).2) iconFile))
  obtain ⟨rid, pageUrl, query, body, verrs, ricon, user⟩ := req
  simp only at hvalid hicon
  subst hvalid hicon
  cases user <;>
  simp only [updatePage, respond, reqUser, typeError, post_storeIcon, post_removeIcon,
    post_updateCatch, Prog.post_tryCatch, Prog.post_bind, Option.forall,
    Prog.post_ite, Prog.post_call, Prog.post_emit, Prog.post_ret, Prog.post_pure,
    Prog.post_throw] <;>
  (repeat' (first | apply And.intro | intro _)) <;>
  simp_all [iconPatch, storeIcon_fs, mem_fs, Event.isFs]

theorem updatePage_update_threw_world (C : Collab σ) (req : Request) (w : σ)
    (iconFile : IconFile) (page : Page) (icon : String) (id : JsVal) (patch : Obj)
    (e : JsError) (hvalid : req.validationErrors = []) (hicon : req.icon = some iconFile)
    (htype : listIncludes allowedTypes iconFile.mimetype = true)
    (hfound : (C.findById (.str req.id) w).1 = .ok (some page))
    (hpage : page.icon = .str icon) (hne : icon ≠ "")
    (hex : C.existsSync (oldIconPath C icon)
      ((storeIcon C iconFile).fresh (C.findById (.str req.id) w).2).2.world = true)
    (hthrew : Event.update id patch (.threw e) ∈ traceOf (updatePage C req) w) :
    (run (updatePage C req) w).2.world =
      (C.update (.str req.id)
        (iconPatch req (iconFileName (C.dateNow (C.findById (.str req.id) w).2) iconFile))
        (C.unlinkSync (oldIconPath C icon)
          ((storeIcon C iconFile).fresh (C.findById (.str req.id) w).2).2.world).2).2 := by
  have hR := removeIcon_present C page icon _ hpage hne hex
  revert hthrew hfound
  show (updatePage C req).Post ⟨w, []⟩ (fun _ r =>
    (C.findById (.str req.id) w).1 = .ok (some page) →
    Event.update id patch (.threw e) ∈ r.trace →
    r.world =
      (C.update (.str req.id)
        (iconPatch req (iconFileName (C.dateNow (C.findById (.str req.id) w).2) iconFile))
        (C.unlinkSync (oldIconPath C icon)
          ((storeIcon C iconFile).fresh (C.findById (.str req.id) w).2).2.world).2).2)
  obtain ⟨rid, pageUrl, query, body, verrs, ricon, user⟩ := req
  simp only at hvalid hicon
  subst hvalid hicon
  cases user <;>
  simp only [updatePage, respond, reqUser, typeError, post_storeIcon, post_removeIcon,
    post_updateCatch, Prog.post_tryCatch, Prog.post_bind, Option.forall,
    Prog.post_ite, Prog.post_call, Prog.post_emit, Prog.post_ret, Prog.post_pure,
    Prog.post_throw] <;>
  (repeat' (first | apply And.intro | intro _)) <;>
  simp_all [iconPatch, storeIcon_fs, mem_fs, Event.isFs]

/-- C19. In `updatePage` the previous icon file is unlinked before `Page.update`
is called. For a request that passes validation, names an existing page whose
icon file is on disk when the handler looks for it, and carries a new icon of an
allowed type: when `Page.update` throws `e`, the run is `Page.findById`, the
calls that store the new file (ending in the `mv` that returned), `existsSync`
and the `unlinkSync` of the previous file, which returned, the failed
`Page.update`, `console.error` and the response of the `catch` block, which is
400 for `ER_DUP_ENTRY` and 500 otherwise. The only `unlinkSync` call is on the
path of the previous file, so the new file stays where `mv` put it unless the two
paths coincide, and the world is left as `Page.update` left it. -/
theorem updatePage_unlinks_before_update (C : Collab σ) (req : Request) (w : σ)
    (iconFile : IconFile) (page : Page) (icon : String) (id : JsVal) (patch : Obj)
    (e : JsError) (hvalid : req.validationErrors = []) (hicon : req.icon = some iconFile)
    (htype : listIncludes allowedTypes iconFile.mimetype = true)
    (hfound : (C.findById (.str req.id) w).1 = .ok (some page))
    (hpage : page.icon = .str icon) (hne : icon ≠ "")
    (hex : C.existsSync (oldIconPath C icon)
      ((storeIcon C iconFile).fresh (C.findById (.str req.id) w).2).2.world = true)
    (hthrew : Event.update id patch (.threw e) ∈ traceOf (updatePage C req) w) :
    traceOf (updatePage C req) w =
      .findById (.str req.id) (.ok (some page)) ::
        (((storeIcon C iconFile).fresh (C.findById (.str req.id) w).2).2.trace ++
          [.existsSync (oldIconPath C icon) true,
           .unlinkSync (oldIconPath C icon) (.ok ()),
           .update (.str req.id)
             (iconPatch req (iconFileName (C.dateNow (C.findById (.str req.id) w).2) iconFile))
             (.threw e),
           .consoleError "Update page error:" e,
           .respond (catchResponse C "Failed to update page" e).1
             (catchResponse C "Failed to update page" e).2]) ∧
    (run (updatePage C req) w).2.world =
      (C.update (.str req.id)
        (iconPatch req (iconFileName (C.dateNow (C.findById (.str req.id) w).2) iconFile))
        (C.unlinkSync (oldIconPath C icon)
          ((storeIcon C iconFile).fresh (C.findById (.str req.id) w).2).2.world).2).2 ∧
    responses (traceOf (updatePage C req) w) = [catchResponse C "Failed to update page" e] ∧
    ((catchResponse C "Failed to update page" e).1 = 400 ∨
      (catchResponse C "Failed to update page" e).1 = 500) ∧
    Event.mv iconFile (uploadPath C (C.dateNow (C.findById (.str req.id) w).2) iconFile)
      (.ok ()) ∈ traceOf (updatePage C req) w ∧
    (∀ path res, Event.unlinkSync path res ∈ traceOf (updatePage C req) w →
      path = oldIconPath C icon ∧ res = .ok ()) := by
  have hrun := updatePage_update_threw C req w iconFile page icon id patch e
    hvalid hicon htype hfound hpage hne hex hthrew
  have hstore := updatePage_update_threw_stored C req w iconFile page icon id patch e
    hvalid hicon htype hfound hpage hne hex hthrew
  have hworld := updatePage_update_threw_world C req w iconFile page icon id patch e
    hvalid hicon htype hfound hpage hne hex hthrew
  have hnone := hasUnlink_false _
    (show hasUnlink ((storeIcon C iconFile).fresh (C.findById (.str req.id) w).2).2.trace = false
      by simpa [hasUnlink] using
        hasUnlink_store C iconFile (C.findById (.str req.id) w).2 [])
  have hfs := storeIcon_fs C iconFile (C.findById (.str req.id) w).2
  refine ⟨hrun, hworld, ?_, ?_, ?_, ?_⟩
  · rw [hrun]
    simp [responses, responses_append, responses_fs, hfs]
  · unfold catchResponse
    split <;> simp
  · rw [hrun]
    exact List.mem_cons_of_mem _ (List.mem_append_left _ (storeIcon_stored C iconFile _ _ hstore))
  · intro path res hmem
    rw [hrun] at hmem
    simp only [List.mem_cons, List.mem_append, List.mem_singleton, List.not_mem_nil,
      or_false, reduceCtorEq, false_or, Event.unlinkSync.injEq] at hmem
    rcases hmem with hmem | hmem
    · have := hnone _ hmem
      simp [Event.isUnlink] at this
    · exact hmem

theorem updatePage_unlinks_before_update_witness :
    responses (traceOf (updatePage (Store.collab none) Sample.updateClash)
        Sample.twoPagesWorld) =
      [(400, .envelope false "Page URL already exists" .absent none)] ∧
    (run (updatePage (Store.collab none) Sample.updateClash) Sample.twoPagesWorld).2.world =
      { Sample.twoPagesWorld with
        files := ["/srv/backend/uploads/icons/page_1700_logo.png"] } :=
  ⟨(updatePage_unlinks_before_update (Store.collab none) Sample.updateClash
      Sample.twoPagesWorld { name := "logo.png", mimetype := .str "image/png" }
      Sample.docsPageWithIcon "/uploads/icons/page_1600_old.png" (.str "1")
      [("url", .str "/blog"), ("icon", .str "/uploads/icons/page_1700_logo.png")]
      Store.dupEntry rfl rfl (by decide) (by decide) rfl (by decide) (by decide)
      (by decide)).2.2.1,
   by decide⟩

end PageController
